import Mathlib

/-!
# laserMapping.cpp : the mapping back-end of AD-LOAM

A shallow embedding of `src/src/laserMapping.cpp`.  Scalars (`float`, `double`)
are read as elements of an arbitrary linearly ordered field `K`, so every
statement holds over the reals and can be evaluated over the rationals; the
conversions `float(..)` / `double(..)` are the identity.  `int` is `Int`.
-/

namespace LaserMapping

/-! ## Math kernel: Eigen quaternions and 3-vectors -/

/-- Coefficients of an `Eigen::Vector3d`. -/
structure Vec3 (K : Type) where
  x : K
  y : K
  z : K
deriving DecidableEq, Repr

/-- Coefficients of an `Eigen::Quaterniond`, constructor order `(w, x, y, z)`. -/
structure Quat (K : Type) where
  w : K
  x : K
  y : K
  z : K
deriving DecidableEq, Repr

namespace Vec3

variable {K : Type} [LinearOrderedField K]

/-- Vector sum `a + b`. -/
def add (a b : Vec3 K) : Vec3 K := ⟨a.x + b.x, a.y + b.y, a.z + b.z⟩

/-- Vector difference `a - b`. -/
def sub (a b : Vec3 K) : Vec3 K := ⟨a.x - b.x, a.y - b.y, a.z - b.z⟩

/-- Scalar multiple `c * a`. -/
def smul (c : K) (a : Vec3 K) : Vec3 K := ⟨c * a.x, c * a.y, c * a.z⟩

/-- Cross product `a.cross(b)`. -/
def cross (a b : Vec3 K) : Vec3 K :=
  ⟨a.y * b.z - a.z * b.y, a.z * b.x - a.x * b.z, a.x * b.y - a.y * b.x⟩

end Vec3

namespace Quat

variable {K : Type} [LinearOrderedField K]

/-- Vector part `q.vec()`. -/
def vec (q : Quat K) : Vec3 K := ⟨q.x, q.y, q.z⟩

/-- Squared norm `q.squaredNorm()`. -/
def squaredNorm (q : Quat K) : K := q.w * q.w + q.x * q.x + q.y * q.y + q.z * q.z

/-- Conjugate `q.conjugate()`. -/
def conjugate (q : Quat K) : Quat K := ⟨q.w, -q.x, -q.y, -q.z⟩

/-- Quaternion product `a * b` (Hamilton product, as Eigen computes it). -/
def mul (a b : Quat K) : Quat K :=
  ⟨a.w * b.w - a.x * b.x - a.y * b.y - a.z * b.z,
   a.w * b.x + a.x * b.w + a.y * b.z - a.z * b.y,
   a.w * b.y + a.y * b.w + a.z * b.x - a.x * b.z,
   a.w * b.z + a.z * b.w + a.x * b.y - a.y * b.x⟩

/-- Inverse `q.inverse()`: the conjugate divided by the squared norm when the
squared norm is positive, the zero quaternion otherwise. -/
def inverse (q : Quat K) : Quat K :=
  if 0 < q.squaredNorm then
    ⟨q.w / q.squaredNorm, -q.x / q.squaredNorm, -q.y / q.squaredNorm, -q.z / q.squaredNorm⟩
  else ⟨0, 0, 0, 0⟩

/-- Action on a vector `q * v` (Eigen `_transformVector`):
`uv = 2 * (q.vec × v)`, result `v + q.w * uv + q.vec × uv`. -/
def rotate (q : Quat K) (v : Vec3 K) : Vec3 K :=
  let uv := Vec3.cross q.vec v
  let uv2 := Vec3.add uv uv
  Vec3.add (Vec3.add v (Vec3.smul q.w uv2)) (Vec3.cross q.vec uv2)

end Quat

/-! ## Pose state -/

/-- The six pose globals: `q_w_curr`, `t_w_curr` (views over `parameters`),
`q_wmap_wodom`, `t_wmap_wodom`, `q_wodom_curr`, `t_wodom_curr`. -/
structure Pose (K : Type) where
  q_w_curr : Quat K
  t_w_curr : Vec3 K
  q_wmap_wodom : Quat K
  t_wmap_wodom : Vec3 K
  q_wodom_curr : Quat K
  t_wodom_curr : Vec3 K
deriving DecidableEq, Repr

/-- Modelled from the spec: the point type `PointType` is declared in
`aloam_velodyne/common.h`, which is not among the sources; the fields are the
ones the spec lists (position, intensity, normal, curvature) and the code uses. -/
structure PointType (K : Type) where
  x : K
  y : K
  z : K
  intensity : K
  normal_x : K
  normal_y : K
  normal_z : K
  curvature : K
deriving DecidableEq, Repr

/-- A `pcl::PointCloud<PointType>`: its `points` vector. -/
abbrev Cloud (K : Type) := List (PointType K)

section PoseOps

variable {K : Type} [LinearOrderedField K]

/-- The function `transformAssociateToMap` (set initial guess). -/
def transformAssociateToMap (s : Pose K) : Pose K :=
  { s with
    q_w_curr := Quat.mul s.q_wmap_wodom s.q_wodom_curr
    t_w_curr := Vec3.add (Quat.rotate s.q_wmap_wodom s.t_wodom_curr) s.t_wmap_wodom }

/-- The function `transformUpdate`; the second assignment reads the
`q_wmap_wodom` written by the first. -/
def transformUpdate (s : Pose K) : Pose K :=
  let q := Quat.mul s.q_w_curr (Quat.inverse s.q_wodom_curr)
  { s with
    q_wmap_wodom := q
    t_wmap_wodom := Vec3.sub s.t_w_curr (Quat.rotate q s.t_wodom_curr) }

/-- The function `pointAssociateToMap`, returning `*po`. -/
def pointAssociateToMap (s : Pose K) (pi : PointType K) : PointType K :=
  let point_curr : Vec3 K := ⟨pi.x, pi.y, pi.z⟩
  let point_w := Vec3.add (Quat.rotate s.q_w_curr point_curr) s.t_w_curr
  { x := point_w.x
    y := point_w.y
    z := point_w.z
    intensity := pi.intensity
    normal_x := pi.normal_x
    normal_y := pi.normal_z
    normal_z := pi.normal_z
    curvature := pi.curvature }

/-- The function `pointAssociateTobeMapped`, returning `*po`. -/
def pointAssociateTobeMapped (s : Pose K) (pi : PointType K) : PointType K :=
  let point_w : Vec3 K := ⟨pi.x, pi.y, pi.z⟩
  let point_curr := Quat.rotate (Quat.inverse s.q_w_curr) (Vec3.sub point_w s.t_w_curr)
  { x := point_curr.x
    y := point_curr.y
    z := point_curr.z
    intensity := pi.intensity
    normal_x := pi.normal_x
    normal_y := pi.normal_z
    normal_z := pi.normal_z
    curvature := pi.curvature }

end PoseOps

/-! ## Cube map -/

/-- The constant `laserCloudWidth`. -/
abbrev laserCloudWidth : Nat := 21

/-- The constant `laserCloudHeight`. -/
abbrev laserCloudHeight : Nat := 21

/-- The constant `laserCloudDepth`. -/
abbrev laserCloudDepth : Nat := 11

/-- The constant `laserCloudNum` (4851). -/
abbrev laserCloudNum : Nat := laserCloudWidth * laserCloudHeight * laserCloudDepth

/-- The flat index expression
`i + laserCloudWidth * j + laserCloudWidth * laserCloudHeight * k`. -/
def cubeInd (i j k : Nat) : Nat :=
  i + laserCloudWidth * j + laserCloudWidth * laserCloudHeight * k

/-- The cube arrays `laserCloudCornerArray`, `laserCloudSurfArray` (indexed by
the flat index; each cell is the cloud its pointer refers to, distinct cells
referring to distinct clouds) and the center offsets `laserCloudCenWidth`,
`laserCloudCenHeight`, `laserCloudCenDepth`. -/
structure CubeMap (K : Type) where
  laserCloudCornerArray : Nat → Cloud K
  laserCloudSurfArray : Nat → Cloud K
  laserCloudCenWidth : Int
  laserCloudCenHeight : Int
  laserCloudCenDepth : Int

section CubeIndex

variable {K : Type} [LinearOrderedField K] [FloorRing K]

/-- The C++ conversion `int(v)` of a floating value: truncation toward zero. -/
def truncToInt (v : K) : Int := if 0 ≤ v then ⌊v⌋ else ⌈v⌉

/-- Cube index of a coordinate, as computed for the sensor position
(`int((t_w_curr.x() + 25.0) / 50.0) + laserCloudCenWidth`, then `centerCubeI--`
when `t_w_curr.x() + 25.0 < 0`) and, by the same expressions, for every
inserted point (`cubeI`, `cubeJ`, `cubeK`). -/
def cubeIndex (x : K) (cen : Int) : Int :=
  let c := truncToInt ((x + 25) / 50) + cen
  if x + 25 < 0 then c - 1 else c

end CubeIndex

section Shift

variable {α : Type}

/-- A counted loop `for (int i = 0; i < n; i++) body(i)` over a state. -/
def forRange {σ : Type} (n : Nat) (body : Nat → σ → σ) (s : σ) : σ :=
  (List.range n).foldl (fun acc i => body i acc) s

/-- The loop `for (; i >= 1; i--) arr[pos i] = arr[pos (i - 1)]` entered with
the given value of `i`. -/
def copyDown (pos : Nat → Nat) : Nat → (Nat → α) → (Nat → α)
  | 0, arr => arr
  | i + 1, arr => copyDown pos i (Function.update arr (pos (i + 1)) (arr (pos i)))

/-- The loop `for (; i < len - 1; i++) arr[pos i] = arr[pos (i + 1)]` with `n`
iterations left, entered with the given value of `i`. -/
def copyUp (pos : Nat → Nat) : Nat → Nat → (Nat → α) → (Nat → α)
  | 0, _, arr => arr
  | n + 1, i, arr => copyUp pos n (i + 1) (Function.update arr (pos i) (arr (pos (i + 1))))

end Shift

section ShiftClouds

variable {K : Type}

/-- One row of a shift toward higher indices: the pointer of the last cell is
saved, every cell takes the pointer of its predecessor (from the last cell
downwards), the saved pointer goes to cell 0 and its cloud is cleared. -/
def rollRowUp (pos : Nat → Nat) (len : Nat) (arr : Nat → Cloud K) : Nat → Cloud K :=
  Function.update (copyDown pos (len - 1) arr) (pos 0) []

/-- One row of a shift toward lower indices: the pointer of cell 0 is saved,
every cell takes the pointer of its successor (from cell 0 upwards), the saved
pointer goes to the last cell and its cloud is cleared. -/
def rollRowDown (pos : Nat → Nat) (len : Nat) (arr : Nat → Cloud K) : Nat → Cloud K :=
  Function.update (copyUp pos (len - 1) 0 arr) (pos (len - 1)) []

/-- The two nested `for` loops of a shift toward higher indices: `pos a b c` is
the flat index of the cell at position `a` of the row selected by the outer
loop variable `b < n1` and the inner loop variable `c < n2`. -/
def shiftUpAlong (pos : Nat → Nat → Nat → Nat) (len n1 n2 : Nat)
    (arr : Nat → Cloud K) : Nat → Cloud K :=
  forRange n1 (fun b => forRange n2 (fun c => rollRowUp (fun a => pos a b c) len)) arr

/-- The two nested `for` loops of a shift toward lower indices. -/
def shiftDownAlong (pos : Nat → Nat → Nat → Nat) (len n1 n2 : Nat)
    (arr : Nat → Cloud K) : Nat → Cloud K :=
  forRange n1 (fun b => forRange n2 (fun c => rollRowDown (fun a => pos a b c) len)) arr

/-- Body of `while (centerCubeI < 2)` on the map: `for j`, `for k`, row along
`i`, then `laserCloudCenWidth++`. -/
def shiftWidthUp (m : CubeMap K) : CubeMap K :=
  { m with
    laserCloudCornerArray :=
      shiftUpAlong (fun i j k => cubeInd i j k) laserCloudWidth laserCloudHeight laserCloudDepth
        m.laserCloudCornerArray
    laserCloudSurfArray :=
      shiftUpAlong (fun i j k => cubeInd i j k) laserCloudWidth laserCloudHeight laserCloudDepth
        m.laserCloudSurfArray
    laserCloudCenWidth := m.laserCloudCenWidth + 1 }

/-- Body of `while (centerCubeI >= laserCloudWidth - 2)` on the map: `for j`,
`for k`, row along `i`, then `laserCloudCenWidth--`. -/
def shiftWidthDown (m : CubeMap K) : CubeMap K :=
  { m with
    laserCloudCornerArray :=
      shiftDownAlong (fun i j k => cubeInd i j k) laserCloudWidth laserCloudHeight laserCloudDepth
        m.laserCloudCornerArray
    laserCloudSurfArray :=
      shiftDownAlong (fun i j k => cubeInd i j k) laserCloudWidth laserCloudHeight laserCloudDepth
        m.laserCloudSurfArray
    laserCloudCenWidth := m.laserCloudCenWidth - 1 }

/-- Body of `while (centerCubeJ < 2)` on the map: `for i`, `for k`, row along
`j`, then `laserCloudCenHeight++`. -/
def shiftHeightUp (m : CubeMap K) : CubeMap K :=
  { m with
    laserCloudCornerArray :=
      shiftUpAlong (fun j i k => cubeInd i j k) laserCloudHeight laserCloudWidth laserCloudDepth
        m.laserCloudCornerArray
    laserCloudSurfArray :=
      shiftUpAlong (fun j i k => cubeInd i j k) laserCloudHeight laserCloudWidth laserCloudDepth
        m.laserCloudSurfArray
    laserCloudCenHeight := m.laserCloudCenHeight + 1 }

/-- Body of `while (centerCubeJ >= laserCloudHeight - 2)` on the map: `for i`,
`for k`, row along `j`, then `laserCloudCenHeight--`. -/
def shiftHeightDown (m : CubeMap K) : CubeMap K :=
  { m with
    laserCloudCornerArray :=
      shiftDownAlong (fun j i k => cubeInd i j k) laserCloudHeight laserCloudWidth laserCloudDepth
        m.laserCloudCornerArray
    laserCloudSurfArray :=
      shiftDownAlong (fun j i k => cubeInd i j k) laserCloudHeight laserCloudWidth laserCloudDepth
        m.laserCloudSurfArray
    laserCloudCenHeight := m.laserCloudCenHeight - 1 }

/-- Body of `while (centerCubeK < 2)` on the map: `for i`, `for j`, row along
`k`, then `laserCloudCenDepth++`. -/
def shiftDepthUp (m : CubeMap K) : CubeMap K :=
  { m with
    laserCloudCornerArray :=
      shiftUpAlong (fun k i j => cubeInd i j k) laserCloudDepth laserCloudWidth laserCloudHeight
        m.laserCloudCornerArray
    laserCloudSurfArray :=
      shiftUpAlong (fun k i j => cubeInd i j k) laserCloudDepth laserCloudWidth laserCloudHeight
        m.laserCloudSurfArray
    laserCloudCenDepth := m.laserCloudCenDepth + 1 }

/-- Body of `while (centerCubeK >= laserCloudDepth - 2)` on the map: `for i`,
`for j`, row along `k`, then `laserCloudCenDepth--`. -/
def shiftDepthDown (m : CubeMap K) : CubeMap K :=
  { m with
    laserCloudCornerArray :=
      shiftDownAlong (fun k i j => cubeInd i j k) laserCloudDepth laserCloudWidth laserCloudHeight
        m.laserCloudCornerArray
    laserCloudSurfArray :=
      shiftDownAlong (fun k i j => cubeInd i j k) laserCloudDepth laserCloudWidth laserCloudHeight
        m.laserCloudSurfArray
    laserCloudCenDepth := m.laserCloudCenDepth - 1 }

/-- The cube map together with the locals `centerCubeI`, `centerCubeJ`,
`centerCubeK` of the frame being processed. -/
structure Recenter (K : Type) where
  map : CubeMap K
  centerCubeI : Int
  centerCubeJ : Int
  centerCubeK : Int

/-- The loop `while (centerCubeI < 2)`. -/
def whileWidthLow (s : Recenter K) : Recenter K :=
  if s.centerCubeI < 2 then
    whileWidthLow { s with map := shiftWidthUp s.map, centerCubeI := s.centerCubeI + 1 }
  else s
termination_by (2 - s.centerCubeI).toNat
decreasing_by simp_wf; omega

/-- The loop `while (centerCubeI >= laserCloudWidth - 2)`. -/
def whileWidthHigh (s : Recenter K) : Recenter K :=
  if s.centerCubeI ≥ (laserCloudWidth : Int) - 2 then
    whileWidthHigh { s with map := shiftWidthDown s.map, centerCubeI := s.centerCubeI - 1 }
  else s
termination_by (s.centerCubeI - 18).toNat
decreasing_by
  simp_wf
  have hc : ((laserCloudWidth : Nat) : Int) = 21 := rfl
  omega

/-- The loop `while (centerCubeJ < 2)`. -/
def whileHeightLow (s : Recenter K) : Recenter K :=
  if s.centerCubeJ < 2 then
    whileHeightLow { s with map := shiftHeightUp s.map, centerCubeJ := s.centerCubeJ + 1 }
  else s
termination_by (2 - s.centerCubeJ).toNat
decreasing_by simp_wf; omega

/-- The loop `while (centerCubeJ >= laserCloudHeight - 2)`. -/
def whileHeightHigh (s : Recenter K) : Recenter K :=
  if s.centerCubeJ ≥ (laserCloudHeight : Int) - 2 then
    whileHeightHigh { s with map := shiftHeightDown s.map, centerCubeJ := s.centerCubeJ - 1 }
  else s
termination_by (s.centerCubeJ - 18).toNat
decreasing_by
  simp_wf
  have hc : ((laserCloudHeight : Nat) : Int) = 21 := rfl
  omega

/-- The loop `while (centerCubeK < 2)`. -/
def whileDepthLow (s : Recenter K) : Recenter K :=
  if s.centerCubeK < 2 then
    whileDepthLow { s with map := shiftDepthUp s.map, centerCubeK := s.centerCubeK + 1 }
  else s
termination_by (2 - s.centerCubeK).toNat
decreasing_by simp_wf; omega

/-- The loop `while (centerCubeK >= laserCloudDepth - 2)`. -/
def whileDepthHigh (s : Recenter K) : Recenter K :=
  if s.centerCubeK ≥ (laserCloudDepth : Int) - 2 then
    whileDepthHigh { s with map := shiftDepthDown s.map, centerCubeK := s.centerCubeK - 1 }
  else s
termination_by (s.centerCubeK - 8).toNat
decreasing_by
  simp_wf
  have hc : ((laserCloudDepth : Nat) : Int) = 11 := rfl
  omega

/-- The six recentering loops, in source order. -/
def recenter (s : Recenter K) : Recenter K :=
  whileDepthHigh (whileDepthLow (whileHeightHigh (whileHeightLow
    (whileWidthHigh (whileWidthLow s)))))

end ShiftClouds

/-! ## Input staging -/

/-- A queued `sensor_msgs::PointCloud2`: its `header.stamp.toSec()` and the
cloud `pcl::fromROSMsg` reads from it. -/
structure CloudMsg (K : Type) where
  stamp : K
  cloud : Cloud K

/-- A queued `nav_msgs::Odometry`: its `header.stamp.toSec()` and its
`pose.pose` orientation and position. -/
structure OdomMsg (K : Type) where
  stamp : K
  orientation : Quat K
  position : Vec3 K

/-- The globals the mapping thread works on: the four queues (front first),
the four time variables, the three input clouds, the pose globals and the cube
map. -/
structure Mapper (K : Type) where
  cornerLastBuf : List (CloudMsg K)
  surfLastBuf : List (CloudMsg K)
  fullResBuf : List (CloudMsg K)
  odometryBuf : List (OdomMsg K)
  timeLaserCloudCornerLast : K
  timeLaserCloudSurfLast : K
  timeLaserCloudFullRes : K
  timeLaserOdometry : K
  laserCloudCornerLast : Cloud K
  laserCloudSurfLast : Cloud K
  laserCloudFullRes : Cloud K
  pose : Pose K
  map : CubeMap K

/-- How one pass through the head of the inner `while` of `process` ends. -/
inductive Staging where
  /-- The loop condition fails: one of the four queues is empty. -/
  | idle
  /-- A queue ran empty during alignment: `break`. -/
  | abandoned
  /-- The timestamps disagree, `unsync messeage!`: `break`. -/
  | unsync
  /-- The frame is taken from the queues and processed. -/
  | accepted
deriving DecidableEq, Repr

section StagingOps

variable {K : Type} [LinearOrderedField K]

/-- The test `abs(t1 - t0) > 0.01 || abs(t2 - t0) > 0.01 || abs(t3 - t0) > 0.01`
on the corner, surf, full-res times against the odometry time, `abs` being
the absolute value of a `double`. -/
def unsyncTest (tCorner tSurf tFull tOdom : K) : Prop :=
  |tCorner - tOdom| > 1 / 100 ∨ |tSurf - tOdom| > 1 / 100 ∨ |tFull - tOdom| > 1 / 100

instance instDecidableUnsyncTest (a b c d : K) : Decidable (unsyncTest a b c d) :=
  inferInstanceAs (Decidable (|a - d| > 1 / 100 ∨ |b - d| > 1 / 100 ∨ |c - d| > 1 / 100))

/-- The staging part of one iteration of the inner `while` of `process`, from
the loop condition to the `mBuf.unlock()` that precedes the frame: the three
alignment loops in source order (odometry, surf, full-res), each followed by
its emptiness test, the four time assignments, the synchronisation test, and
for an accepted frame the copies out of the four heads, the four pops and the
draining of the corner queue. -/
def stage (s : Mapper K) : Staging × Mapper K :=
  match s.cornerLastBuf, s.surfLastBuf, s.fullResBuf, s.odometryBuf with
  | c :: _, _ :: _, _ :: _, _ :: _ =>
    let s1 := { s with odometryBuf := s.odometryBuf.dropWhile (fun m => m.stamp < c.stamp) }
    match s1.odometryBuf with
    | [] => (Staging.abandoned, s1)
    | o :: os =>
      let s2 := { s1 with surfLastBuf := s1.surfLastBuf.dropWhile (fun m => m.stamp < c.stamp) }
      match s2.surfLastBuf with
      | [] => (Staging.abandoned, s2)
      | sf :: sfs =>
        let s3 := { s2 with fullResBuf := s2.fullResBuf.dropWhile (fun m => m.stamp < c.stamp) }
        match s3.fullResBuf with
        | [] => (Staging.abandoned, s3)
        | f :: fs =>
          let s4 := { s3 with
            timeLaserCloudCornerLast := c.stamp
            timeLaserCloudSurfLast := sf.stamp
            timeLaserCloudFullRes := f.stamp
            timeLaserOdometry := o.stamp }
          if unsyncTest s4.timeLaserCloudCornerLast s4.timeLaserCloudSurfLast
              s4.timeLaserCloudFullRes s4.timeLaserOdometry then
            (Staging.unsync, s4)
          else
            (Staging.accepted,
              { s4 with
                laserCloudCornerLast := c.cloud
                laserCloudSurfLast := sf.cloud
                laserCloudFullRes := f.cloud
                pose := { s4.pose with q_wodom_curr := o.orientation, t_wodom_curr := o.position }
                cornerLastBuf := []
                surfLastBuf := sfs
                fullResBuf := fs
                odometryBuf := os })
  | _, _, _, _ => (Staging.idle, s)

end StagingOps

/-! ## Dynamic-object removal -/

/-- Modelled from the spec: an element of the association list returned by
`tracker->data_association->associate`, declared in `hdl_people_tracking`
(not among the sources): a pair (track index, cluster index), read by the code
as `.tracker` and `.observation`. -/
structure Association where
  tracker : Nat
  observation : Nat
deriving DecidableEq, Repr

/-- Modelled from the spec: the message type `aloam_velodyne::Cluster`,
declared outside the sources, with the fields the code fills in: `id`,
`is_human`, `min_pt`, `max_pt`, `size`, `centroid`. -/
structure ClusterMsg (K : Type) where
  id : Nat
  is_human : Bool
  min_pt : Vec3 K
  max_pt : Vec3 K
  size : Vec3 K
  centroid : Vec3 K

/-- What the removal loop of a frame reads: the association list, the vectors
`speed` (one entry per association) and `dist` (one entry per cluster),
`clusters_msg->clusters`, the thresholds `maxObjectSpeed` and `maxClassDist`
as assigned just before the loop, `groundLevelMean.stddev()` and
`removeEnable`. -/
structure RemovalFrame (K : Type) where
  associations : List Association
  speed : List K
  dist : List K
  clusters : List (ClusterMsg K)
  maxObjectSpeed : K
  maxClassDist : K
  stddev : K
  removeEnable : Bool

section Removal

variable {K : Type} [LinearOrderedField K]

/-- The element `clusters_msg->clusters[uint(associations[i].observation)]`;
indices are in range when the tracker honours its contract. -/
def RemovalFrame.clusterAt (fr : RemovalFrame K) (i : Nat) : ClusterMsg K :=
  fr.clusters.getD (fr.associations.getD i ⟨0, 0⟩).observation
    ⟨0, false, ⟨0, 0, 0⟩, ⟨0, 0, 0⟩, ⟨0, 0, 0⟩, ⟨0, 0, 0⟩⟩

/-- The test of the removal loop at association `i`:
`speed[i] > maxObjectSpeed ||
 dist[clusters_msg->clusters[uint(associations[i].observation)].id] > maxClassDist`. -/
def RemovalFrame.dynamicAt (fr : RemovalFrame K) (i : Nat) : Prop :=
  fr.speed.getD i 0 > fr.maxObjectSpeed ∨ fr.dist.getD (fr.clusterAt i).id 0 > fr.maxClassDist

instance instDecidableDynamicAt (fr : RemovalFrame K) (i : Nat) : Decidable (fr.dynamicAt i) :=
  inferInstanceAs (Decidable (fr.speed.getD i 0 > fr.maxObjectSpeed
    ∨ fr.dist.getD (fr.clusterAt i).id 0 > fr.maxClassDist))

/-- The condition `range_cond` built for a cluster: a `pcl::ConditionOr` of
the six comparisons `x < min.x - s`, `x > max.x + s`, `y < min.y - s`,
`y > max.y + s`, `z < min.z - s`, `z > max.z + s`. -/
def rangeCond (cluster : ClusterMsg K) (stddev : K) (p : PointType K) : Prop :=
  p.x < cluster.min_pt.x - stddev ∨ p.x > cluster.max_pt.x + stddev
    ∨ p.y < cluster.min_pt.y - stddev ∨ p.y > cluster.max_pt.y + stddev
    ∨ p.z < cluster.min_pt.z - stddev ∨ p.z > cluster.max_pt.z + stddev

instance instDecidableRangeCond (cluster : ClusterMsg K) (stddev : K) (p : PointType K) :
    Decidable (rangeCond cluster stddev p) :=
  inferInstanceAs (Decidable (p.x < cluster.min_pt.x - stddev ∨ p.x > cluster.max_pt.x + stddev
    ∨ p.y < cluster.min_pt.y - stddev ∨ p.y > cluster.max_pt.y + stddev
    ∨ p.z < cluster.min_pt.z - stddev ∨ p.z > cluster.max_pt.z + stddev))

/-- The filter `pcl::ConditionalRemoval` with `setKeepOrganized(false)`: the
points of the input that satisfy the condition, in order. -/
def conditionalRemoval (cond : PointType K → Prop) [DecidablePred cond]
    (input : Cloud K) : Cloud K :=
  input.filter (fun p => decide (cond p))

/-- Body of the removal loop at association `i`, on `laserCloudStack`. -/
def removalStep (fr : RemovalFrame K) (i : Nat) (laserCloudStack : Cloud K) : Cloud K :=
  if fr.dynamicAt i then
    if fr.removeEnable then
      conditionalRemoval (rangeCond (fr.clusterAt i) fr.stddev) laserCloudStack
    else laserCloudStack
  else laserCloudStack

/-- The removal loop `for (uint i = 0; i < associations.size(); i++)`. -/
def removalLoop (fr : RemovalFrame K) (laserCloudStack : Cloud K) : Cloud K :=
  forRange fr.associations.length (removalStep fr) laserCloudStack

end Removal

/-! ## Clusters and the dynamic cloud -/

/-- Modelled from the spec: a cluster returned by
`hdl_people_detection::MarcelPeopleDetector::detect`, declared outside the
sources: bounding box (`min_pt`, `max_pt`), `size`, `centroid`, the
human/not-human flag and the owning point cloud. -/
structure Cluster (K : Type) where
  is_human : Bool
  min_pt : Vec3 K
  max_pt : Vec3 K
  size : Vec3 K
  centroid : Vec3 K
  cloud : Cloud K

section DynamicCloud

variable {K : Type} [LinearOrderedField K]

/-- A cluster with no points, read where an index is out of range. -/
def Cluster.none : Cluster K :=
  ⟨false, ⟨0, 0, 0⟩, ⟨0, 0, 0⟩, ⟨0, 0, 0⟩, ⟨0, 0, 0⟩, []⟩

/-- The loop that fills `clusters_msg->clusters`: message `i` copies the
fields of cluster `i` and gets `id = i`. -/
def clusterMsgs (clusters : List (Cluster K)) : List (ClusterMsg K) :=
  forRange clusters.length
    (fun i msgs =>
      msgs ++ [{ id := i
                 is_human := (clusters.getD i Cluster.none).is_human
                 min_pt := (clusters.getD i Cluster.none).min_pt
                 max_pt := (clusters.getD i Cluster.none).max_pt
                 size := (clusters.getD i Cluster.none).size
                 centroid := (clusters.getD i Cluster.none).centroid }])
    []

/-- The loop `for (auto &pt : cloud->points) pt.intensity = v`. -/
def setIntensity (v : K) (cloud : Cloud K) : Cloud K :=
  cloud.map (fun pt => { pt with intensity := v })

/-- Body of the association loop at association `i`, on the detector's
clusters and `currDynamicCloudStack`: the points of `clusters[cluster.id]` get
the intensity `dist[cluster.id]`, then that cloud is appended to
`currDynamicCloudStack` (the speed computed in the same body is an input of
`RemovalFrame`). -/
def associationStep (fr : RemovalFrame K) (i : Nat)
    (st : List (Cluster K) × Cloud K) : List (Cluster K) × Cloud K :=
  let id := (fr.clusterAt i).id
  let c := st.1.getD id Cluster.none
  let cloud := setIntensity (fr.dist.getD id 0) c.cloud
  (st.1.set id { c with cloud := cloud }, st.2 ++ cloud)

/-- The association loop `for (uint i = 0; i < associations.size(); i++)`;
the second component is `currDynamicCloudStack` as published at the end of the
frame. -/
def associationLoop (fr : RemovalFrame K) (clusters : List (Cluster K))
    (currDynamicCloudStack : Cloud K) : List (Cluster K) × Cloud K :=
  forRange fr.associations.length (associationStep fr) (clusters, currDynamicCloudStack)

end DynamicCloud

/-! ## Adaptive resolution control -/

/-- The globals the control block writes: `lineRes`, `planeRes`,
`cluster_tolerane`, `cluster_lambda` (the voxel filters are rebound to the two
resolutions). -/
structure Resolution (K : Type) where
  lineRes : K
  planeRes : K
  cluster_tolerane : K
  cluster_lambda : K
deriving DecidableEq, Repr

/-- What the control block reads from the frame: the measured time
`mapping_whole` (ms) and the stack sizes `laserCloudCornerStackNum`,
`laserCloudSurfStackNum`. -/
structure FrameLoad (K : Type) where
  mapping_whole : K
  laserCloudCornerStackNum : Nat
  laserCloudSurfStackNum : Nat
deriving DecidableEq, Repr

section Adaptive

variable {K : Type} [LinearOrderedField K]

/-- The local `rate_conner`:
`0.1f * laserCloudCornerStackNum / (laserCloudCornerStackNum + laserCloudSurfStackNum)`.
With both counts zero the C++ quotient is `0/0`; the statements below are
about frames with a non-empty stack. -/
def rate_conner (f : FrameLoad K) : K :=
  (1 / 10) * (f.laserCloudCornerStackNum : K)
    / ((f.laserCloudCornerStackNum + f.laserCloudSurfStackNum : Nat) : K)

/-- The local `rate_surf`: `0.1f - rate_conner`. -/
def rate_surf (f : FrameLoad K) : K := 1 / 10 - rate_conner f

/-- The block `if (autoMapping) { ... }` at the end of a frame. -/
def adaptStep (autoMapping : Bool) (autoMappingTime : K) (f : FrameLoad K)
    (r : Resolution K) : Resolution K :=
  if autoMapping then
    let r1 : Resolution K :=
      if f.mapping_whole > autoMappingTime * (11 / 10) then
        { r with
          lineRes := r.lineRes * (1 + rate_conner f)
          planeRes := r.planeRes * (1 + rate_surf f) }
      else if f.mapping_whole < autoMappingTime * (9 / 10) then
        let l := r.lineRes * (1 - rate_conner f)
        let p := r.planeRes * (1 - rate_surf f)
        { r with
          lineRes := if l > 2 / 100 then l else 2 / 100
          planeRes := if p > 2 / 100 then p else 2 / 100 }
      else r
    { r1 with
      cluster_tolerane := 2 * (r1.lineRes + r1.planeRes)
      cluster_lambda := 4 * (r1.lineRes + r1.planeRes) }
  else r

/-- The resolutions after a sequence of frames, oldest first. -/
def adaptRun (autoMapping : Bool) (autoMappingTime : K) (frames : List (FrameLoad K))
    (r : Resolution K) : Resolution K :=
  frames.foldl (fun acc f => adaptStep autoMapping autoMappingTime f acc) r

end Adaptive

/-! ## Insertion into the cube map -/

section Insertion

variable {K : Type} [LinearOrderedField K] [FloorRing K]

/-- Body of an insertion loop on one of the two cube arrays: the cube indices
`cubeI`, `cubeJ`, `cubeK` of `pointSel`, the bounds test, and
`array[cubeInd]->push_back(pointSel)` with
`cubeInd = cubeI + laserCloudWidth * cubeJ + laserCloudWidth * laserCloudHeight * cubeK`. -/
def insertInto (m : CubeMap K) (arr : Nat → Cloud K) (pointSel : PointType K) :
    Nat → Cloud K :=
  let cubeI := cubeIndex pointSel.x m.laserCloudCenWidth
  let cubeJ := cubeIndex pointSel.y m.laserCloudCenHeight
  let cubeK := cubeIndex pointSel.z m.laserCloudCenDepth
  if 0 ≤ cubeI ∧ cubeI < (laserCloudWidth : Int) ∧ 0 ≤ cubeJ ∧ cubeJ < (laserCloudHeight : Int)
      ∧ 0 ≤ cubeK ∧ cubeK < (laserCloudDepth : Int) then
    let cubeIndex1 : Int :=
      cubeI + (laserCloudWidth : Int) * cubeJ
        + (laserCloudWidth : Int) * (laserCloudHeight : Int) * cubeK
    Function.update arr cubeIndex1.toNat (arr cubeIndex1.toNat ++ [pointSel])
  else arr

/-- Body of the edge insertion loop (into `laserCloudCornerArray`). -/
def insertCorner (m : CubeMap K) (pointSel : PointType K) : CubeMap K :=
  { m with laserCloudCornerArray := insertInto m m.laserCloudCornerArray pointSel }

/-- Body of the plane insertion loop (into `laserCloudSurfArray`). -/
def insertSurf (m : CubeMap K) (pointSel : PointType K) : CubeMap K :=
  { m with laserCloudSurfArray := insertInto m m.laserCloudSurfArray pointSel }

/-- The two insertion loops, over `laserCloudCornerStack` then
`laserCloudSurfStack`. -/
def insertStacks (m : CubeMap K) (laserCloudCornerStack laserCloudSurfStack : Cloud K) :
    CubeMap K :=
  laserCloudSurfStack.foldl insertSurf (laserCloudCornerStack.foldl insertCorner m)

end Insertion

/-! ## Voxel filter and the per-cube filter stage -/

section Voxel

variable {K : Type} [LinearOrderedField K] [FloorRing K]

/-- The leaf-sized grid cell of a point, as `pcl::VoxelGrid` assigns it:
`floor(x / leaf)`, `floor(y / leaf)`, `floor(z / leaf)` (PCL subtracts the
cell of the bounding-box minimum, which shifts every cell alike). -/
def voxelCell (leaf : K) (p : PointType K) : Int × Int × Int :=
  (⌊p.x / leaf⌋, ⌊p.y / leaf⌋, ⌊p.z / leaf⌋)

/-- The centroid `pcl::VoxelGrid` emits for the points of one cell: the mean
of every field. -/
def centroid (pts : Cloud K) : PointType K :=
  { x := (pts.map (fun p => p.x)).sum / (pts.length : K)
    y := (pts.map (fun p => p.y)).sum / (pts.length : K)
    z := (pts.map (fun p => p.z)).sum / (pts.length : K)
    intensity := (pts.map (fun p => p.intensity)).sum / (pts.length : K)
    normal_x := (pts.map (fun p => p.normal_x)).sum / (pts.length : K)
    normal_y := (pts.map (fun p => p.normal_y)).sum / (pts.length : K)
    normal_z := (pts.map (fun p => p.normal_z)).sum / (pts.length : K)
    curvature := (pts.map (fun p => p.curvature)).sum / (pts.length : K) }

/-- The filter `pcl::VoxelGrid` with leaf size `(leaf, leaf, leaf)`: one
centroid per occupied grid cell.  PCL emits the cells in the order of their
linear index; nothing here depends on the order of the output. -/
def voxelGrid (leaf : K) (input : Cloud K) : Cloud K :=
  ((input.map (voxelCell leaf)).dedup).map
    (fun c => centroid (input.filter (fun p => voxelCell leaf p = c)))

/-- The index buffer `laserCloudValidInd[0 .. laserCloudValidNum)` filled by
the three nested loops over `centerCubeI - 1 .. centerCubeI + 1` (and likewise
`j`, `k`) with their bounds test. -/
def gatherValidInd (centerCubeI centerCubeJ centerCubeK : Int) : List Nat :=
  [centerCubeI - 1, centerCubeI, centerCubeI + 1].flatMap fun i =>
    [centerCubeJ - 1, centerCubeJ, centerCubeJ + 1].flatMap fun j =>
      [centerCubeK - 1, centerCubeK, centerCubeK + 1].flatMap fun k =>
        if 0 ≤ i ∧ i < (laserCloudWidth : Int) ∧ 0 ≤ j ∧ j < (laserCloudHeight : Int)
            ∧ 0 ≤ k ∧ k < (laserCloudDepth : Int) then
          [(i + (laserCloudWidth : Int) * j
            + (laserCloudWidth : Int) * (laserCloudHeight : Int) * k).toNat]
        else []

/-- Body of the per-cube filter loop for `ind = laserCloudValidInd[i]`: both
clouds of the cube are replaced by their voxel-filtered clouds, the edge cloud
at leaf `lineRes`, the plane cloud at leaf `planeRes`. -/
def filterStep (lineRes planeRes : K) (ind : Nat) (m : CubeMap K) : CubeMap K :=
  { m with
    laserCloudCornerArray :=
      Function.update m.laserCloudCornerArray ind (voxelGrid lineRes (m.laserCloudCornerArray ind))
    laserCloudSurfArray :=
      Function.update m.laserCloudSurfArray ind (voxelGrid planeRes (m.laserCloudSurfArray ind)) }

/-- The per-cube filter loop over `laserCloudValidInd`. -/
def filterStage (lineRes planeRes : K) (laserCloudValidInd : List Nat) (m : CubeMap K) :
    CubeMap K :=
  laserCloudValidInd.foldl (fun acc ind => filterStep lineRes planeRes ind acc) m

end Voxel

/-- The sum of the point counts of all `laserCloudNum` cubes, edge and plane. -/
def totalPoints {K : Type} (m : CubeMap K) : Nat :=
  ∑ n ∈ Finset.range laserCloudNum,
    ((m.laserCloudCornerArray n).length + (m.laserCloudSurfArray n).length)

/-- A cloud has at most one point per leaf-sized grid cell. -/
def OnePerCell {K : Type} [LinearOrderedField K] [FloorRing K] (leaf : K) (c : Cloud K) : Prop :=
  (c.map (voxelCell leaf)).Nodup

/-! ## Re-split of the combined stack -/

section Resplit

variable {K : Type} [LinearOrderedField K]

/-- The condition `corner_cond`: the single comparison `curvature < 0.1`. -/
def cornerCond (p : PointType K) : Prop := p.curvature < 1 / 10

/-- The condition `surf_cond`: the single comparison `curvature > 0.1`. -/
def surfCond (p : PointType K) : Prop := p.curvature > 1 / 10

instance instDecidableCornerCond (p : PointType K) : Decidable (cornerCond p) :=
  inferInstanceAs (Decidable (p.curvature < 1 / 10))

instance instDecidableSurfCond (p : PointType K) : Decidable (surfCond p) :=
  inferInstanceAs (Decidable (p.curvature > 1 / 10))

/-- The re-split of `laserCloudStack`: the new `laserCloudCornerStack`
(filtered by `corner_cond`) and the new `laserCloudSurfStack` (filtered by
`surf_cond`). -/
def resplit (laserCloudStack : Cloud K) : Cloud K × Cloud K :=
  (conditionalRemoval cornerCond laserCloudStack, conditionalRemoval surfCond laserCloudStack)

end Resplit

/-! ## Ground cut, world-frame stacks and the displacement score -/

section Displacement

variable {K : Type} [LinearOrderedField K]

/-- Modelled from the spec: `Accumulator<float>::mean()`, declared outside
the sources, the running mean of the values added so far. -/
def accumulatorMean (values : List K) : K := values.sum / (values.length : K)

/-- The filter `pcl::PassThrough` on field `z` with limits `[lo, hi]`: the
points whose `z` is not below `lo` and not above `hi`, in order. -/
def passThrough (lo hi : K) (input : Cloud K) : Cloud K :=
  input.filter (fun p => decide (lo ≤ p.z ∧ p.z ≤ hi))

/-- The ground cut: `laserCloudStackWithoutGroud2`, the pass-through of
`laserCloudStack2` with limits `(lidar_min_z + groundLevelMean.mean()) / 2.0`
and `lidar_max_z`. -/
def groundCut (lidar_min_z lidar_max_z groundMean : K) (laserCloudStack2 : Cloud K) : Cloud K :=
  passThrough ((lidar_min_z + groundMean) / 2) lidar_max_z laserCloudStack2

/-- The loop that builds the world-frame `laserCloudStack`: each point of
`laserCloudStack2` through `pointAssociateToMap`, its intensity set to the
sensor-frame `z`. -/
def stackToWorld (pose : Pose K) (laserCloudStack2 : Cloud K) : Cloud K :=
  laserCloudStack2.map (fun p => { pointAssociateToMap pose p with intensity := p.z })

/-- The loop that builds the world-frame `laserCloudStackWithoutGroud`: point
`i` of `laserCloudStackWithoutGroud2` through `pointAssociateToMap`, its
intensity set to `laserCloudStack2->points[i].z`. -/
def withoutGroundToWorld (pose : Pose K)
    (laserCloudStack2 laserCloudStackWithoutGroud2 : Cloud K) : Cloud K :=
  List.zipWith (fun p q => { pointAssociateToMap pose p with intensity := q.z })
    laserCloudStackWithoutGroud2 laserCloudStack2

/-- The score `dist[i]` of a cluster: the three accumulators over the
`normal_x`, `normal_y`, `normal_z` of its member points, the centroid through
`pointAssociateTobeMapped`, and
`sqrt(mean0^2 + mean1^2 + mean2^2) / sqrt(x^2 + y^2 + z^2)`.  The function
`sqrt` is a parameter, `K` need not have square roots; the fields of `pt_map`
other than the position, which the code leaves unset, are 0 here. -/
def clusterDist (sqrt : K → K) (pose : Pose K) (cluster : Cluster K) : K :=
  let normal0 := accumulatorMean (cluster.cloud.map (fun pt => pt.normal_x))
  let normal1 := accumulatorMean (cluster.cloud.map (fun pt => pt.normal_y))
  let normal2 := accumulatorMean (cluster.cloud.map (fun pt => pt.normal_z))
  let pt_map : PointType K :=
    { x := cluster.centroid.x, y := cluster.centroid.y, z := cluster.centroid.z,
      intensity := 0, normal_x := 0, normal_y := 0, normal_z := 0, curvature := 0 }
  let pt_laser := pointAssociateTobeMapped pose pt_map
  sqrt (normal0 * normal0 + normal1 * normal1 + normal2 * normal2)
    / sqrt (pt_laser.x * pt_laser.x + pt_laser.y * pt_laser.y + pt_laser.z * pt_laser.z)

/-- The displacement score in the words of the spec: the norm of the mean,
over the sensor-frame stack points that are the members of the cluster, of the
displacement `(dx, dy, dz)` residual assembly recorded in their normal slots,
divided by the norm of the cluster centroid in the sensor frame. -/
def displacementScoreSpec (sqrt : K → K) (members : Cloud K) (centroid_sensor : Vec3 K) : K :=
  let dx := accumulatorMean (members.map (fun pt => pt.normal_x))
  let dy := accumulatorMean (members.map (fun pt => pt.normal_y))
  let dz := accumulatorMean (members.map (fun pt => pt.normal_z))
  sqrt (dx * dx + dy * dy + dz * dz)
    / sqrt (centroid_sensor.x * centroid_sensor.x + centroid_sensor.y * centroid_sensor.y
        + centroid_sensor.z * centroid_sensor.z)

end Displacement

/-- The cloud the association loop appends for association `i`: the member
points of the cluster it refers to, as the detector returned them, with the
intensity set to that cluster's displacement score. -/
def taggedCloud {K : Type} [LinearOrderedField K] (fr : RemovalFrame K)
    (clusters : List (Cluster K)) (i : Nat) : Cloud K :=
  setIntensity (fr.dist.getD (fr.clusterAt i).id 0)
    (clusters.getD (fr.clusterAt i).id Cluster.none).cloud

/-! ## Recentering over a run of frames -/

section RecenterRun

variable {K : Type} [LinearOrderedField K] [FloorRing K]

/-- The locals `centerCubeI`, `centerCubeJ`, `centerCubeK` as computed from
`t_w_curr` at the start of the recentering stage. -/
def sensorCube (m : CubeMap K) (t_w_curr : Vec3 K) : Recenter K :=
  { map := m
    centerCubeI := cubeIndex t_w_curr.x m.laserCloudCenWidth
    centerCubeJ := cubeIndex t_w_curr.y m.laserCloudCenHeight
    centerCubeK := cubeIndex t_w_curr.z m.laserCloudCenDepth }

end RecenterRun

section ShiftCounts

variable {K : Type}

/-- How many times the body of `while (centerCubeI < 2)` runs. -/
def whileWidthLowCount (s : Recenter K) : Nat :=
  if s.centerCubeI < 2 then
    whileWidthLowCount { s with map := shiftWidthUp s.map, centerCubeI := s.centerCubeI + 1 } + 1
  else 0
termination_by (2 - s.centerCubeI).toNat
decreasing_by simp_wf; omega

/-- How many times the body of `while (centerCubeI >= laserCloudWidth - 2)` runs. -/
def whileWidthHighCount (s : Recenter K) : Nat :=
  if s.centerCubeI ≥ (laserCloudWidth : Int) - 2 then
    whileWidthHighCount { s with map := shiftWidthDown s.map, centerCubeI := s.centerCubeI - 1 }
      + 1
  else 0
termination_by (s.centerCubeI - 18).toNat
decreasing_by
  simp_wf
  have hc : ((laserCloudWidth : Nat) : Int) = 21 := rfl
  omega

/-- How many times the body of `while (centerCubeJ < 2)` runs. -/
def whileHeightLowCount (s : Recenter K) : Nat :=
  if s.centerCubeJ < 2 then
    whileHeightLowCount { s with map := shiftHeightUp s.map, centerCubeJ := s.centerCubeJ + 1 }
      + 1
  else 0
termination_by (2 - s.centerCubeJ).toNat
decreasing_by simp_wf; omega

/-- How many times the body of `while (centerCubeJ >= laserCloudHeight - 2)` runs. -/
def whileHeightHighCount (s : Recenter K) : Nat :=
  if s.centerCubeJ ≥ (laserCloudHeight : Int) - 2 then
    whileHeightHighCount
      { s with map := shiftHeightDown s.map, centerCubeJ := s.centerCubeJ - 1 } + 1
  else 0
termination_by (s.centerCubeJ - 18).toNat
decreasing_by
  simp_wf
  have hc : ((laserCloudHeight : Nat) : Int) = 21 := rfl
  omega

/-- How many times the body of `while (centerCubeK < 2)` runs. -/
def whileDepthLowCount (s : Recenter K) : Nat :=
  if s.centerCubeK < 2 then
    whileDepthLowCount { s with map := shiftDepthUp s.map, centerCubeK := s.centerCubeK + 1 } + 1
  else 0
termination_by (2 - s.centerCubeK).toNat
decreasing_by simp_wf; omega

/-- How many times the body of `while (centerCubeK >= laserCloudDepth - 2)` runs. -/
def whileDepthHighCount (s : Recenter K) : Nat :=
  if s.centerCubeK ≥ (laserCloudDepth : Int) - 2 then
    whileDepthHighCount { s with map := shiftDepthDown s.map, centerCubeK := s.centerCubeK - 1 }
      + 1
  else 0
termination_by (s.centerCubeK - 8).toNat
decreasing_by
  simp_wf
  have hc : ((laserCloudDepth : Nat) : Int) = 11 := rfl
  omega

/-- The cube map across a run of frames, with the number of shifts performed
so far along each axis. -/
structure RecenterRun (K : Type) where
  map : CubeMap K
  shiftsI : Nat
  shiftsJ : Nat
  shiftsK : Nat

end ShiftCounts

section RunFrames

variable {K : Type} [LinearOrderedField K] [FloorRing K]

/-- The recentering stage of one frame with refined position `t_w_curr`: the
six loops in source order, each loop entered with the state the previous one
left, and the shifts of each loop counted.  The other stages of a frame write
cloud contents only, which no loop condition reads; they are left out. -/
def recenterFrame (r : RecenterRun K) (t_w_curr : Vec3 K) : RecenterRun K :=
  let s0 := sensorCube r.map t_w_curr
  let s1 := whileWidthLow s0
  let s2 := whileWidthHigh s1
  let s3 := whileHeightLow s2
  let s4 := whileHeightHigh s3
  let s5 := whileDepthLow s4
  let s6 := whileDepthHigh s5
  { map := s6.map
    shiftsI := r.shiftsI + whileWidthLowCount s0 + whileWidthHighCount s1
    shiftsJ := r.shiftsJ + whileHeightLowCount s2 + whileHeightHighCount s3
    shiftsK := r.shiftsK + whileDepthLowCount s4 + whileDepthHighCount s5 }

/-- The recentering stages of a run of frames, oldest first, from a map with
no shift counted yet. -/
def recenterRun (positions : List (Vec3 K)) (m : CubeMap K) : RecenterRun K :=
  positions.foldl recenterFrame { map := m, shiftsI := 0, shiftsJ := 0, shiftsK := 0 }

/-- S2 of the spec: the sensor positions `x = 0.5 * n`, `y = z = 0` for
`n = 1 .. 120`. -/
def s2Positions : List (Vec3 K) :=
  (List.range 120).map (fun n => ⟨((n + 1 : Nat) : K) / 2, 0, 0⟩)

end RunFrames

/-! ## The alignment loops and the producers -/

section Alignment

variable {K : Type} [LinearOrderedField K]

/-- The alignment part of one iteration of the inner `while` of `process`:
the three `while (...) pop()` loops, each followed by its emptiness test, in
source order (odometry, surf, full-res), every comparison against
`cornerLastBuf.front()`.  The flag is `true` when all three loops end on a
non-empty queue and `false` at a `break`; the state is the one at that point.
The loop condition rules out an empty corner queue. -/
def align (s : Mapper K) : Bool × Mapper K :=
  match s.cornerLastBuf with
  | [] => (false, s)
  | c :: _ =>
    let s1 := { s with odometryBuf := s.odometryBuf.dropWhile (fun m => m.stamp < c.stamp) }
    if s1.odometryBuf.isEmpty then (false, s1)
    else
      let s2 := { s1 with surfLastBuf := s1.surfLastBuf.dropWhile (fun m => m.stamp < c.stamp) }
      if s2.surfLastBuf.isEmpty then (false, s2)
      else
        let s3 := { s2 with fullResBuf := s2.fullResBuf.dropWhile (fun m => m.stamp < c.stamp) }
        if s3.fullResBuf.isEmpty then (false, s3)
        else (true, s3)

/-- A message delivered to one of the four subscribers. -/
inductive Delivery (K : Type) where
  /-- To `laserCloudCornerLastHandler`. -/
  | corner (m : CloudMsg K)
  /-- To `laserCloudSurfLastHandler`. -/
  | surf (m : CloudMsg K)
  /-- To `laserCloudFullResHandler`. -/
  | fullRes (m : CloudMsg K)
  /-- To `laserOdometryHandler`. -/
  | odometry (m : OdomMsg K)

/-- The effect of a producer callback on the globals: `push` to the back of
its queue (the high-frequency odometry published by `laserOdometryHandler`
writes no global). -/
def deliver (s : Mapper K) : Delivery K → Mapper K
  | Delivery.corner m => { s with cornerLastBuf := s.cornerLastBuf ++ [m] }
  | Delivery.surf m => { s with surfLastBuf := s.surfLastBuf ++ [m] }
  | Delivery.fullRes m => { s with fullResBuf := s.fullResBuf ++ [m] }
  | Delivery.odometry m => { s with odometryBuf := s.odometryBuf ++ [m] }

/-- The outcomes of the successive staging steps of the mapping thread, the
callbacks of the `i`-th list of `arrivals` running before the `i`-th step.
What follows the staging step in an accepted frame reads and writes neither
the queues nor the four time variables, so it is left out. -/
def stagingOutcomes : Mapper K → List (List (Delivery K)) → List Staging
  | _, [] => []
  | s, arrived :: rest =>
    (stage (arrived.foldl deliver s)).1
      :: stagingOutcomes (stage (arrived.foldl deliver s)).2 rest

end Alignment

/-! ## Startup: the parameters read by `main` -/

/-- The ROS parameter server as `main` reads it through `nh.param<float>`: the
value stored under a parameter name, if there is one. -/
abbrev ParamServer (K : Type) := String → Option K

/-- The `float` globals `main` assigns from the parameter server, with the two
accumulators it seeds (each as the list of the values added so far). -/
structure Globals (K : Type) where
  lineRes : K
  planeRes : K
  maxObjectSpeed : K
  maxClassDist : K
  cluster_min_size : K
  cluster_max_size : K
  cluster_tolerane : K
  cluster_lambda : K
  autoMappingTime : K
  lidar_min_z : K
  lidar_max_z : K
  objectSpeedMean : List K
  tarckerSpeedMean : List K

/-- How `main` ends its startup part. -/
inductive Startup (K : Type) where
  /-- The node stops before the mapping thread exists. -/
  | fatal
  /-- `std::thread mapping_process{ process }` is started on these globals. -/
  | running (g : Globals K)

section StartupOps

variable {K : Type} [LinearOrderedField K]

/-- The call `nh.param<float>(name, var, dflt)`: `var` becomes the stored
value when the server has one under `name`, the default otherwise. -/
def param (server : ParamServer K) (name : String) (dflt : K) : K :=
  (server name).getD dflt

/-- The startup part of `main`, from the first `nh.param` to the start of the
mapping thread: the eleven `float` parameters with their names and defaults,
the accumulator seeds `objectSpeedMean.addDateValue(.3f)` and
`tarckerSpeedMean.addDateValue(0.2)`; no statement of it tests a value or
leaves `main`. -/
def main (server : ParamServer K) : Startup K :=
  Startup.running
    { lineRes := param server ("mapping_line_resolution") (1 / 10)
      planeRes := param server ("mapping_plane_resolution") (1 / 10)
      maxObjectSpeed := param server ("max_object_speed") (2 / 10)
      maxClassDist := param server ("max_class_dist") (1 / 10)
      cluster_min_size := param server ("cluster_min_size") (2 / 10)
      cluster_max_size := param server ("cluster_max_size") 20
      cluster_tolerane := param server ("cluster_tolerane") (2 / 10)
      cluster_lambda := param server ("cluster_lambda") 20
      autoMappingTime := param server ("auto_mapping_time") 400
      lidar_min_z := param server ("lidar_min_z") (-173 / 100)
      lidar_max_z := param server ("lidar_max_z") (344 / 100)
      objectSpeedMean := [3 / 10]
      tarckerSpeedMean := [2 / 10] }

/-- The globals the first frame starts from, when `main` reaches the start of
the mapping thread. -/
def Startup.globals? : Startup K → Option (Globals K)
  | Startup.fatal => none
  | Startup.running g => some g

/-- The tolerance argument of the `MarcelPeopleDetector` constructed in a
frame: the global `cluster_tolerane` as it stands then. -/
def detectorTolerance (g : Globals K) : K := g.cluster_tolerane

end StartupOps

/-! ## The threshold assignments of a frame -/

section Thresholds

variable {K : Type} [LinearOrderedField K]

/-- The part of a frame between the detector and the removal loop, on the
threshold globals: the displacement loop adds every `dist[i]` to
`objectSpeedMean`, the association loop adds every `speed[i]` to
`tarckerSpeedMean`, then `maxObjectSpeed = tarckerSpeedMean.mean() / 2.0f` and
`maxClassDist = objectSpeedMean.mean() / 2.0f`. -/
def updateThresholds (g : Globals K) (dist speed : List K) : Globals K :=
  let objectSpeedMean := g.objectSpeedMean ++ dist
  let tarckerSpeedMean := g.tarckerSpeedMean ++ speed
  { g with
    objectSpeedMean := objectSpeedMean
    tarckerSpeedMean := tarckerSpeedMean
    maxObjectSpeed := accumulatorMean tarckerSpeedMean / 2
    maxClassDist := accumulatorMean objectSpeedMean / 2 }

/-- What the removal loop of a frame reads, the frame having started on the
globals `g`: the thresholds are the globals as `updateThresholds` leaves
them. -/
def removalFrameOf (g : Globals K) (associations : List Association) (speed dist : List K)
    (clusters : List (ClusterMsg K)) (stddev : K) (removeEnable : Bool) : RemovalFrame K :=
  { associations := associations
    speed := speed
    dist := dist
    clusters := clusters
    maxObjectSpeed := (updateThresholds g dist speed).maxObjectSpeed
    maxClassDist := (updateThresholds g dist speed).maxClassDist
    stddev := stddev
    removeEnable := removeEnable }

end Thresholds

/-! ## The ground-level accumulator of a frame -/

section GroundLevel

variable {K : Type} [LinearOrderedField K]

/-- The values the local `groundLevelMean` of a frame has received when the
ground cut reads it, in the order added: inside
`if (laserCloudCornerFromMapNum > 10 && laserCloudSurfFromMapNum > 50)`, for
each `iterCount` of `for (iterCount = 0; iterCount < 2; iterCount++)`, the `z`
of every point of the edge stack, then of every point of the plane stack;
nothing in the `else` branch. -/
def groundLevelSamples (laserCloudCornerFromMapNum laserCloudSurfFromMapNum : Nat)
    (laserCloudCornerStack laserCloudSurfStack : Cloud K) : List K :=
  if laserCloudCornerFromMapNum > 10 ∧ laserCloudSurfFromMapNum > 50 then
    forRange 2
      (fun _ added =>
        forRange laserCloudSurfStack.length
          (fun i a => a ++ [(laserCloudSurfStack.getD i ⟨0, 0, 0, 0, 0, 0, 0, 0⟩).z])
          (forRange laserCloudCornerStack.length
            (fun i a => a ++ [(laserCloudCornerStack.getD i ⟨0, 0, 0, 0, 0, 0, 0, 0⟩).z])
            added))
      []
  else []

end GroundLevel

/-! ## The trajectory line -/

section Trajectory

variable {K : Type} [LinearOrderedField K]

/-- The matrix `q.toRotationMatrix()` of Eigen, by rows. -/
def Quat.toRotationMatrix (q : Quat K) : Matrix (Fin 3) (Fin 3) K :=
  let tx := 2 * q.x
  let ty := 2 * q.y
  let tz := 2 * q.z
  let twx := tx * q.w
  let twy := ty * q.w
  let twz := tz * q.w
  let txx := tx * q.x
  let txy := ty * q.x
  let txz := tz * q.x
  let tyy := ty * q.y
  let tyz := tz * q.y
  let tzz := tz * q.z
  !![1 - (tyy + tzz), txy - twz, txz + twy;
     txy + twz, 1 - (txx + tzz), tyz - twx;
     txz - twy, tyz + twx, 1 - (txx + tyy)]

/-- The vector `tanslate` of the trajectory output. -/
def tanslate (t_w_curr : Vec3 K) : Vec3 K := ⟨-t_w_curr.y, -t_w_curr.z, t_w_curr.x⟩

/-- The quaternion `rotate` of the trajectory output,
`Quaterniond(q.w(), -q.y(), -q.z(), q.x())`. -/
def rotate (q_w_curr : Quat K) : Quat K := ⟨q_w_curr.w, -q_w_curr.y, -q_w_curr.z, q_w_curr.x⟩

/-- The top three rows of `T.matrix()` after `T = Identity`,
`T.rotate(rotate)`, `T.pretranslate(tanslate)`: the linear part is the
identity times the rotation matrix of `rotate`, the last column the zero
vector plus `tanslate`. -/
def trajectoryMatrix (q_w_curr : Quat K) (t_w_curr : Vec3 K) : Matrix (Fin 3) (Fin 4) K :=
  let linear := (1 : Matrix (Fin 3) (Fin 3) K) * Quat.toRotationMatrix (rotate q_w_curr)
  let translation : Vec3 K := Vec3.add ⟨0, 0, 0⟩ (tanslate t_w_curr)
  !![linear 0 0, linear 0 1, linear 0 2, translation.x;
     linear 1 0, linear 1 1, linear 1 2, translation.y;
     linear 2 0, linear 2 1, linear 2 2, translation.z]

/-- The twelve numbers written to `outputFile` for a frame: `M(0,0)`,
`M(0,1)`, `M(0,2)`, `M(0,3)`, `M(1,0)`, ..., `M(2,3)`. -/
def trajectoryLine (q_w_curr : Quat K) (t_w_curr : Vec3 K) : List K :=
  let M := trajectoryMatrix q_w_curr t_w_curr
  [M 0 0, M 0 1, M 0 2, M 0 3, M 1 0, M 1 1, M 1 2, M 1 3, M 2 0, M 2 1, M 2 2, M 2 3]

/-- The axis change that maps `(x, y, z)` to `(-y, -z, x)`. -/
def axisChange : Matrix (Fin 3) (Fin 3) K :=
  !![0, -1, 0;
     0, 0, -1;
     1, 0, 0]

end Trajectory

/-! ## The dynamic filter of a frame, from the ground cut to the removal loop -/

/-- Modelled from the spec: the collaborators of the dynamic filter that are
declared outside the sources, as a frame calls them.  `detect` is
`MarcelPeopleDetector::detect` of the detector the frame constructs;
`associate` is `tracker->predict`, `tracker->correct` and
`tracker->data_association->associate` on the cluster messages of the frame;
`velocityNorm msgs i` is `people->velocity().norm()` for the track of
association `i`. -/
structure Collaborators (K : Type) where
  detect : Cloud K → List (Cluster K)
  associate : List (ClusterMsg K) → List Association
  velocityNorm : List (ClusterMsg K) → Nat → K

/-- What the dynamic filter of a frame leaves: the detector's clusters (their
points tagged by the association loop), the scores `dist`, the cluster
messages passed to the tracker, the associations, the vector `speed`, the
frame the removal loop reads, the threshold globals, `currDynamicCloudStack`
and the world-frame combined stack `laserCloudStack` after the removal loop. -/
structure DynamicFilter (K : Type) where
  clusters : List (Cluster K)
  dist : List K
  clusters_msg : List (ClusterMsg K)
  associations : List Association
  speed : List K
  frame : RemovalFrame K
  globals : Globals K
  currDynamicCloudStack : Cloud K
  laserCloudStack : Cloud K

section DynamicFilterOps

variable {K : Type} [LinearOrderedField K]

/-- The value `speed[i]` of the association loop: the norm of the track's
velocity over `sqrt(x^2 + y^2 + z^2)` of the cluster centroid taken through
`pointAssociateTobeMapped`; the fields of `pt_map` other than the position,
which the code leaves unset, are 0 here. -/
def trackSpeed (sqrt : K → K) (pose : Pose K) (velocityNorm : K) (cluster : ClusterMsg K) : K :=
  let pt_map : PointType K :=
    { x := cluster.centroid.x, y := cluster.centroid.y, z := cluster.centroid.z,
      intensity := 0, normal_x := 0, normal_y := 0, normal_z := 0, curvature := 0 }
  let pt_laser := pointAssociateTobeMapped pose pt_map
  velocityNorm
    / sqrt (pt_laser.x * pt_laser.x + pt_laser.y * pt_laser.y + pt_laser.z * pt_laser.z)

/-- The clusters `clusters = marcel.detect(laserCloudStackWithoutGroud)` of a
frame: the detector on the world-frame image of the ground cut of the combined
sensor-frame stack `laserCloudStack2`. -/
def detectedClusters (ext : Collaborators K) (pose : Pose K) (g : Globals K) (groundMean : K)
    (laserCloudStack2 : Cloud K) : List (Cluster K) :=
  ext.detect (withoutGroundToWorld pose laserCloudStack2
    (groundCut g.lidar_min_z g.lidar_max_z groundMean laserCloudStack2))

/-- The dynamic filter of a frame, in source order: ground cut, the two
world-frame stacks, detection, the scores `dist`, the cluster messages, the
tracker calls, the association loop (speeds, intensity tags, accumulation into
`currDynamicCloudStack`), the threshold assignments and the removal loop.
`groundMean` and `stddev` are `groundLevelMean.mean()` and
`groundLevelMean.stddev()`; `removeEnable` is read by the removal loop only. -/
def dynamicFilter (sqrt : K → K) (ext : Collaborators K) (pose : Pose K) (g : Globals K)
    (groundMean stddev : K) (removeEnable : Bool)
    (laserCloudStack2 currDynamicCloudStack : Cloud K) : DynamicFilter K :=
  let laserCloudStack := stackToWorld pose laserCloudStack2
  let clusters := detectedClusters ext pose g groundMean laserCloudStack2
  let dist := clusters.map (clusterDist sqrt pose)
  let clusters_msg := clusterMsgs clusters
  let associations := ext.associate clusters_msg
  let speed := (List.range associations.length).map fun i =>
    trackSpeed sqrt pose (ext.velocityNorm clusters_msg i)
      (clusters_msg.getD (associations.getD i ⟨0, 0⟩).observation
        ⟨0, false, ⟨0, 0, 0⟩, ⟨0, 0, 0⟩, ⟨0, 0, 0⟩, ⟨0, 0, 0⟩⟩)
  let frame := removalFrameOf g associations speed dist clusters_msg stddev removeEnable
  let tagged := associationLoop frame clusters currDynamicCloudStack
  { clusters := tagged.1
    dist := dist
    clusters_msg := clusters_msg
    associations := associations
    speed := speed
    frame := frame
    globals := updateThresholds g dist speed
    currDynamicCloudStack := tagged.2
    laserCloudStack := removalLoop frame laserCloudStack }

end DynamicFilterOps

/-! ## The correction link between the mapping thread and the odometry callback -/

section LinkRaceOps

variable {K : Type} [LinearOrderedField K]

end LinkRaceOps

/-! ## Predicates used to state the map invariants -/

section MapPredicates

variable {K : Type}

/-- The coordinates `(i, j, k)` lie inside the cube array. -/
def InArray (i j k : Nat) : Prop :=
  i < laserCloudWidth ∧ j < laserCloudHeight ∧ k < laserCloudDepth

instance instDecidableInArray (i j k : Nat) : Decidable (InArray i j k) :=
  inferInstanceAs (Decidable (i < laserCloudWidth ∧ j < laserCloudHeight ∧ k < laserCloudDepth))

/-- The cell `(i', j', k')` has, under the center offsets of `m'`, the world
cube index `(i - Cw, j - Ch, k - Cd)` that the cell `(i, j, k)` has under the
center offsets of `m`. -/
def SameWorldCube (m m' : CubeMap K) (i j k i' j' k' : Nat) : Prop :=
  (i' : Int) - m'.laserCloudCenWidth = (i : Int) - m.laserCloudCenWidth
    ∧ (j' : Int) - m'.laserCloudCenHeight = (j : Int) - m.laserCloudCenHeight
    ∧ (k' : Int) - m'.laserCloudCenDepth = (k : Int) - m.laserCloudCenDepth

/-- The edge and plane clouds of cell `(i, j, k)` of `m` are the clouds of
cell `(i', j', k')` of `m'`. -/
def StoredAt (m m' : CubeMap K) (i j k i' j' k' : Nat) : Prop :=
  m'.laserCloudCornerArray (cubeInd i' j' k') = m.laserCloudCornerArray (cubeInd i j k)
    ∧ m'.laserCloudSurfArray (cubeInd i' j' k') = m.laserCloudSurfArray (cubeInd i j k)

/-- The edge and plane clouds of cell `(i, j, k)` of `m` are empty. -/
def EmptyAt (m : CubeMap K) (i j k : Nat) : Prop :=
  m.laserCloudCornerArray (cubeInd i j k) = [] ∧ m.laserCloudSurfArray (cubeInd i j k) = []

end MapPredicates

section RejectingHeads

variable {K : Type} [LinearOrderedField K]

/-- The four queues start with `c`, `sf`, `f`, `o`, none of the last three is
older than `c`, and the four stamps fail the synchronisation test. -/
def RejectingHeads (c sf f : CloudMsg K) (o : OdomMsg K) (t : Mapper K) : Prop :=
  t.cornerLastBuf.head? = some c ∧ t.surfLastBuf.head? = some sf
    ∧ t.fullResBuf.head? = some f ∧ t.odometryBuf.head? = some o
    ∧ c.stamp ≤ sf.stamp ∧ c.stamp ≤ f.stamp ∧ c.stamp ≤ o.stamp
    ∧ unsyncTest c.stamp sf.stamp f.stamp o.stamp

end RejectingHeads

/-! ## Concrete inputs -/

/-- The identity pose of the initial globals. -/
def identityPose : Pose ℚ :=
  { q_w_curr := ⟨1, 0, 0, 0⟩, t_w_curr := ⟨0, 0, 0⟩,
    q_wmap_wodom := ⟨1, 0, 0, 0⟩, t_wmap_wodom := ⟨0, 0, 0⟩,
    q_wodom_curr := ⟨1, 0, 0, 0⟩, t_wodom_curr := ⟨0, 0, 0⟩ }

/-- A non-trivial rational pose with unit odometry rotation `(3/5, 4/5, 0, 0)`. -/
def samplePose : Pose ℚ :=
  { q_w_curr := ⟨2, 1, 0, 3⟩, t_w_curr := ⟨1, 2, 3⟩,
    q_wmap_wodom := ⟨0, 1, 0, 0⟩, t_wmap_wodom := ⟨4, 5, 6⟩,
    q_wodom_curr := ⟨3 / 5, 4 / 5, 0, 0⟩, t_wodom_curr := ⟨7, 8, 9⟩ }

/-- A feature point whose `normal_y` and `normal_z` differ. -/
def samplePoint : PointType ℚ :=
  { x := 1, y := 2, z := 3, intensity := 4, normal_x := 5, normal_y := 6, normal_z := 7,
    curvature := 8 }

/-- A cube map with one edge point in cell `(3, 4, 5)` and one plane point in
cell `(7, 8, 9)`, at the initial center offsets. -/
def sampleMap : CubeMap ℚ :=
  { laserCloudCornerArray := fun n => if n = cubeInd 3 4 5 then [samplePoint] else []
    laserCloudSurfArray := fun n => if n = cubeInd 7 8 9 then [samplePoint] else []
    laserCloudCenWidth := 10
    laserCloudCenHeight := 10
    laserCloudCenDepth := 5 }

/-- A cloud message over the rationals with an empty cloud. -/
def msgAt (t : ℚ) : CloudMsg ℚ := { stamp := t, cloud := [] }

/-- An odometry message over the rationals with the identity pose. -/
def odomAt (t : ℚ) : OdomMsg ℚ := { stamp := t, orientation := ⟨1, 0, 0, 0⟩, position := ⟨0, 0, 0⟩ }

/-- The mapper globals with the given queues, zero times, empty clouds, the
identity pose and `sampleMap`. -/
def mapperWith (corner surf full : List (CloudMsg ℚ)) (odom : List (OdomMsg ℚ)) : Mapper ℚ :=
  { cornerLastBuf := corner, surfLastBuf := surf, fullResBuf := full, odometryBuf := odom
    timeLaserCloudCornerLast := 0, timeLaserCloudSurfLast := 0, timeLaserCloudFullRes := 0
    timeLaserOdometry := 0
    laserCloudCornerLast := [], laserCloudSurfLast := [], laserCloudFullRes := []
    pose := identityPose, map := sampleMap }

/-- S4 of the spec: corner at t = 1.00, surf at t = 1.05, full-res at
t = 1.00, odometry at t = 1.00. -/
def desyncS4 : Mapper ℚ := mapperWith [msgAt 1] [msgAt 1.05] [msgAt 1] [odomAt 1]

/-- As S4, with an older surf message (t = 0.90) in front of the surf queue. -/
def desyncStaleSurf : Mapper ℚ :=
  mapperWith [msgAt 1] [msgAt 0.9, msgAt 1.05] [msgAt 1] [odomAt 1]

/-- Corner at t = 1.000, odometry and full-res at t = 1.008, surf at t = 1.016. -/
def spreadHeads : Mapper ℚ :=
  mapperWith [msgAt 1] [msgAt 1.016] [msgAt 1.008] [odomAt 1.008]

/-- A feature point over the rationals at the given position, other fields 0. -/
def pointAt (x y z : ℚ) : PointType ℚ :=
  { x := x, y := y, z := z, intensity := 0, normal_x := 0, normal_y := 0, normal_z := 0,
    curvature := 0 }

/-- The cluster message with the given id and the unit box `[0, 1]^3`. -/
def unitBoxCluster (id : Nat) : ClusterMsg ℚ :=
  { id := id, is_human := false, min_pt := ⟨0, 0, 0⟩, max_pt := ⟨1, 1, 1⟩, size := ⟨1, 1, 1⟩,
    centroid := ⟨1 / 2, 1 / 2, 1 / 2⟩ }

/-- A frame with one cluster of displacement score 1 above the threshold
`maxClassDist = 3/20`, to which no association refers. -/
def unassociatedFrame : RemovalFrame ℚ :=
  { associations := [], speed := [], dist := [1], clusters := [unitBoxCluster 0]
    maxObjectSpeed := 1 / 10, maxClassDist := 3 / 20, stddev := 0, removeEnable := true }

/-- A frame with one cluster of displacement score 1 above the threshold
`maxClassDist = 3/20`, associated with track 0 of speed 0. -/
def associatedFrame : RemovalFrame ℚ :=
  { associations := [⟨0, 0⟩], speed := [0], dist := [1], clusters := [unitBoxCluster 0]
    maxObjectSpeed := 1 / 10, maxClassDist := 3 / 20, stddev := 0, removeEnable := true }

/-- A frame with one associated cluster whose speed 0 and displacement score
1/10 are both below the thresholds. -/
def staticFrame : RemovalFrame ℚ :=
  { associations := [⟨0, 0⟩], speed := [0], dist := [1 / 10], clusters := [unitBoxCluster 0]
    maxObjectSpeed := 1 / 10, maxClassDist := 3 / 20, stddev := 0, removeEnable := true }

/-- A stack with one point inside the unit box and one outside. -/
def sampleStack : Cloud ℚ := [pointAt (1 / 2) (1 / 2) (1 / 2), pointAt 2 0 0]

/-- A detected cluster over the rationals with the unit box and two member
points. -/
def unitBoxDetected : Cluster ℚ :=
  { is_human := false, min_pt := ⟨0, 0, 0⟩, max_pt := ⟨1, 1, 1⟩, size := ⟨1, 1, 1⟩
    centroid := ⟨1 / 2, 1 / 2, 1 / 2⟩
    cloud := [pointAt (1 / 4) (1 / 4) (1 / 4), pointAt (3 / 4) (3 / 4) (3 / 4)] }

/-- Resolutions as configured with `mapping_line_resolution = 0.01` and
`mapping_plane_resolution = 0.1` (the latter is the default). -/
def fineInit : Resolution ℚ :=
  { lineRes := 1 / 100, planeRes := 1 / 10, cluster_tolerane := 1 / 5, cluster_lambda := 20 }

/-- The default resolutions `0.1`, `0.1`. -/
def defaultInit : Resolution ℚ :=
  { lineRes := 1 / 10, planeRes := 1 / 10, cluster_tolerane := 1 / 5, cluster_lambda := 20 }

/-- A frame that took 500 ms with one edge and three plane stack points. -/
def slowFrame : FrameLoad ℚ :=
  { mapping_whole := 500, laserCloudCornerStackNum := 1, laserCloudSurfStackNum := 3 }

/-- A frame that took 100 ms with one edge and three plane stack points. -/
def fastFrame : FrameLoad ℚ :=
  { mapping_whole := 100, laserCloudCornerStackNum := 1, laserCloudSurfStackNum := 3 }

/-- S5 of the spec: ten frames of 100 ms (against `auto_mapping_time = 1`). -/
def s5Frames : List (FrameLoad ℚ) := List.replicate 10 fastFrame

/-- The cube map as `main` leaves it: every cube empty, center offsets
`(10, 10, 5)`. -/
def emptyMap : CubeMap ℚ :=
  { laserCloudCornerArray := fun _ => []
    laserCloudSurfArray := fun _ => []
    laserCloudCenWidth := 10
    laserCloudCenHeight := 10
    laserCloudCenDepth := 5 }

/-- A feature point at the origin with the given curvature tag. -/
def taggedPoint (curvature : ℚ) : PointType ℚ :=
  { x := 0, y := 0, z := 0, intensity := 0, normal_x := 0, normal_y := 0, normal_z := 0,
    curvature := curvature }

/-- A sensor-frame stack point at `(1, 0, 1)` whose recorded neighbour
displacement is `(3, 4, 0)`. -/
def displacedPoint : PointType ℚ :=
  { x := 1, y := 0, z := 1, intensity := 0, normal_x := 3, normal_y := 4, normal_z := 0,
    curvature := 0 }

/-- The world-frame image of `displacedPoint` at the identity pose as the code
builds it: intensity 1 (the sensor-frame `z`) and normal slots `(3, 0, 0)`. -/
def displacedWorldPoint : PointType ℚ :=
  { x := 1, y := 0, z := 1, intensity := 1, normal_x := 3, normal_y := 0, normal_z := 0,
    curvature := 0 }

/-- The cluster made of the ground-cut world-frame cloud of the stack
`[displacedPoint]` at the identity pose (limits from the default
`lidar_min_z = -1.73`, `lidar_max_z = 3.44` and ground mean 1), with centroid
`(1, 0, 1)`. -/
def displacedCluster : Cluster ℚ :=
  { is_human := false, min_pt := ⟨1, 0, 1⟩, max_pt := ⟨1, 0, 1⟩, size := ⟨0, 0, 0⟩
    centroid := ⟨1, 0, 1⟩
    cloud := withoutGroundToWorld identityPose [displacedPoint]
      (groundCut (-173 / 100) (344 / 100) 1 [displacedPoint]) }

/-- The member points of `unitBoxDetected` with intensity `1 / 10`. -/
def unitBoxTagged : Cloud ℚ :=
  [{ pointAt (1 / 4) (1 / 4) (1 / 4) with intensity := 1 / 10 },
   { pointAt (3 / 4) (3 / 4) (3 / 4) with intensity := 1 / 10 }]

/-- A parameter server that sets `max_object_speed` and `max_class_dist` to
100 and nothing else. -/
def strictServer : ParamServer ℚ := fun name =>
  if name = ("max_object_speed") then some 100
  else if name = ("max_class_dist") then some 100
  else none

/-- A parameter server that sets `cluster_tolerance` to 0.7 and nothing else. -/
def toleranceServer : ParamServer ℚ := fun name =>
  if name = ("cluster_tolerance") then some (7 / 10) else none

/-- A parameter server that sets `mapping_line_resolution` to -1,
`lidar_min_z` to 5 and `lidar_max_z` to 1, and nothing else. -/
def outOfRangeServer : ParamServer ℚ := fun name =>
  if name = ("mapping_line_resolution") then some (-1)
  else if name = ("lidar_min_z") then some 5
  else if name = ("lidar_max_z") then some 1
  else none

/-- The globals as `main` leaves them on an empty parameter server. -/
def defaultGlobals : Globals ℚ :=
  { lineRes := 1 / 10, planeRes := 1 / 10, maxObjectSpeed := 2 / 10, maxClassDist := 1 / 10
    cluster_min_size := 2 / 10, cluster_max_size := 20, cluster_tolerane := 2 / 10
    cluster_lambda := 20, autoMappingTime := 400, lidar_min_z := -173 / 100
    lidar_max_z := 344 / 100, objectSpeedMean := [3 / 10], tarckerSpeedMean := [2 / 10] }

/-- Collaborators for a frame with one tracked object: the detector returns
its input cloud as one cluster with box `[0, 2] x [-1, 1] x [-1, 1]` and
centroid `(1, 0, 0)`, the tracker associates track 0 with cluster 0, and the
track moves with velocity norm 1. -/
def oneTrack : Collaborators ℚ :=
  { detect := fun cloud =>
      [{ is_human := false, min_pt := ⟨0, -1, -1⟩, max_pt := ⟨2, 1, 1⟩, size := ⟨2, 2, 2⟩
         centroid := ⟨1, 0, 0⟩, cloud := cloud }]
    associate := fun _ => [⟨0, 0⟩]
    velocityNorm := fun _ _ => 1 }

/-! ## Theorems -/

section PoseTheorems

variable {K : Type} [LinearOrderedField K]

theorem Quat.inverse_of_unit (q : Quat K) (h : q.squaredNorm = 1) :
    q.inverse = q.conjugate := by
  simp [Quat.inverse, Quat.conjugate, h]

theorem Quat.mul_inverse_mul_cancel (a q : Quat K) (h : q.squaredNorm = 1) :
    Quat.mul (Quat.mul a q.inverse) q = a := by
  rw [Quat.inverse_of_unit q h]
  simp only [Quat.squaredNorm] at h
  obtain ⟨aw, ax, ay, az⟩ := a
  obtain ⟨qw, qx, qy, qz⟩ := q
  simp only [Quat.mul, Quat.conjugate, Quat.mk.injEq] at h ⊢
  refine ⟨?_, ?_, ?_, ?_⟩
  · linear_combination aw * h
  · linear_combination ax * h
  · linear_combination ay * h
  · linear_combination az * h

theorem Quat.mul_mul_inverse_cancel (a q : Quat K) (h : q.squaredNorm = 1) :
    Quat.mul (Quat.mul a q) q.inverse = a := by
  rw [Quat.inverse_of_unit q h]
  simp only [Quat.squaredNorm] at h
  obtain ⟨aw, ax, ay, az⟩ := a
  obtain ⟨qw, qx, qy, qz⟩ := q
  simp only [Quat.mul, Quat.conjugate, Quat.mk.injEq] at h ⊢
  refine ⟨?_, ?_, ?_, ?_⟩
  · linear_combination aw * h
  · linear_combination ax * h
  · linear_combination ay * h
  · linear_combination az * h

theorem Vec3.add_sub_cancel_right (a b : Vec3 K) : Vec3.add a (Vec3.sub b a) = b := by
  obtain ⟨ax, ay, az⟩ := a
  obtain ⟨bx, by_, bz⟩ := b
  simp [Vec3.add, Vec3.sub]

theorem Vec3.add_sub_cancel_left (a b : Vec3 K) : Vec3.sub (Vec3.add a b) a = b := by
  obtain ⟨ax, ay, az⟩ := a
  obtain ⟨bx, by_, bz⟩ := b
  simp [Vec3.add, Vec3.sub]

/-- C1 (pose identity): after `transformUpdate`, for a unit odometry rotation,
`q_wmap_wodom * q_wodom_curr = q_w_curr` and
`q_wmap_wodom * t_wodom_curr + t_wmap_wodom = t_w_curr`; the refined pose and
the odometry pose themselves are not touched by the update. -/
theorem transformUpdate_pose_identity (s : Pose K)
    (hunit : s.q_wodom_curr.squaredNorm = 1) :
    Quat.mul (transformUpdate s).q_wmap_wodom (transformUpdate s).q_wodom_curr
        = (transformUpdate s).q_w_curr
      ∧ Vec3.add (Quat.rotate (transformUpdate s).q_wmap_wodom (transformUpdate s).t_wodom_curr)
          (transformUpdate s).t_wmap_wodom = (transformUpdate s).t_w_curr
      ∧ (transformUpdate s).q_w_curr = s.q_w_curr
      ∧ (transformUpdate s).t_w_curr = s.t_w_curr
      ∧ (transformUpdate s).q_wodom_curr = s.q_wodom_curr
      ∧ (transformUpdate s).t_wodom_curr = s.t_wodom_curr := by
  refine ⟨?_, ?_, rfl, rfl, rfl, rfl⟩
  · exact Quat.mul_inverse_mul_cancel s.q_w_curr s.q_wodom_curr hunit
  · exact Vec3.add_sub_cancel_right _ _

theorem Quat.rotate_inverse_rotate (q : Quat K) (v : Vec3 K) (h : q.squaredNorm = 1) :
    Quat.rotate q.inverse (Quat.rotate q v) = v := by
  rw [Quat.inverse_of_unit q h]
  simp only [Quat.squaredNorm] at h
  obtain ⟨qw, qx, qy, qz⟩ := q
  obtain ⟨vx, vy, vz⟩ := v
  simp only [Quat.rotate, Quat.conjugate, Quat.vec, Vec3.add, Vec3.smul, Vec3.cross,
    Vec3.mk.injEq] at h ⊢
  refine ⟨?_, ?_, ?_⟩
  · linear_combination
      (-4 * (qx * (qx * vx + qy * vy + qz * vz) - vx * (qx * qx + qy * qy + qz * qz))) * h
  · linear_combination
      (-4 * (qy * (qx * vx + qy * vy + qz * vz) - vy * (qx * qx + qy * qy + qz * qz))) * h
  · linear_combination
      (-4 * (qz * (qx * vx + qy * vy + qz * vz) - vz * (qx * qx + qy * qy + qz * qz))) * h

/-- C2 (skipped optimisation keeps the link): `transformAssociateToMap`
followed directly by `transformUpdate` leaves `q_wmap_wodom` and
`t_wmap_wodom` as they were, for a unit odometry rotation. -/
theorem transformUpdate_after_associate_keeps_link (s : Pose K)
    (hunit : s.q_wodom_curr.squaredNorm = 1) :
    (transformUpdate (transformAssociateToMap s)).q_wmap_wodom = s.q_wmap_wodom
      ∧ (transformUpdate (transformAssociateToMap s)).t_wmap_wodom = s.t_wmap_wodom := by
  have hq : Quat.mul (Quat.mul s.q_wmap_wodom s.q_wodom_curr) (Quat.inverse s.q_wodom_curr)
      = s.q_wmap_wodom := Quat.mul_mul_inverse_cancel _ _ hunit
  refine ⟨hq, ?_⟩
  show Vec3.sub (Vec3.add (Quat.rotate s.q_wmap_wodom s.t_wodom_curr) s.t_wmap_wodom)
      (Quat.rotate (Quat.mul (Quat.mul s.q_wmap_wodom s.q_wodom_curr)
        (Quat.inverse s.q_wodom_curr)) s.t_wodom_curr) = s.t_wmap_wodom
  rw [hq]
  exact Vec3.add_sub_cancel_left _ _

/-- What the round trip does return for a unit `q_w_curr`: the point with its
`normal_y` overwritten by `normal_z`; every other field comes back. -/
theorem pointAssociate_roundtrip_fields (s : Pose K) (p : PointType K)
    (hunit : s.q_w_curr.squaredNorm = 1) :
    pointAssociateTobeMapped s (pointAssociateToMap s p)
      = { p with normal_y := p.normal_z } := by
  have hv := Quat.rotate_inverse_rotate s.q_w_curr ⟨p.x, p.y, p.z⟩ hunit
  have eta : ∀ v : Vec3 K, (⟨v.x, v.y, v.z⟩ : Vec3 K) = v := fun _ => rfl
  have hsub : ∀ a b : Vec3 K, Vec3.sub (Vec3.add a b) b = a := by
    intro a b
    obtain ⟨ax, ay, az⟩ := a
    obtain ⟨bx, by_, bz⟩ := b
    simp [Vec3.add, Vec3.sub]
  simp only [pointAssociateTobeMapped, pointAssociateToMap, eta, hsub, hv]

end PoseTheorems

/-- Witness for C1 at `samplePose`. -/
theorem transformUpdate_pose_identity_witness :
    samplePose.q_wodom_curr.squaredNorm = 1
      ∧ Quat.mul (transformUpdate samplePose).q_wmap_wodom (transformUpdate samplePose).q_wodom_curr
          = samplePose.q_w_curr
      ∧ Vec3.add (Quat.rotate (transformUpdate samplePose).q_wmap_wodom samplePose.t_wodom_curr)
          (transformUpdate samplePose).t_wmap_wodom = samplePose.t_w_curr :=
  ⟨by norm_num [samplePose, Quat.squaredNorm],
   (transformUpdate_pose_identity samplePose (by norm_num [samplePose, Quat.squaredNorm])).1,
   (transformUpdate_pose_identity samplePose (by norm_num [samplePose, Quat.squaredNorm])).2.1⟩

/-- Witness for C2 at `samplePose`. -/
theorem transformUpdate_after_associate_keeps_link_witness :
    samplePose.q_wodom_curr.squaredNorm = 1
      ∧ (transformUpdate (transformAssociateToMap samplePose)).q_wmap_wodom = ⟨0, 1, 0, 0⟩
      ∧ (transformUpdate (transformAssociateToMap samplePose)).t_wmap_wodom = ⟨4, 5, 6⟩ :=
  ⟨by norm_num [samplePose, Quat.squaredNorm],
   transformUpdate_after_associate_keeps_link samplePose
     (by norm_num [samplePose, Quat.squaredNorm])⟩

/-- C3 (round trip), evaluated at the identity pose and `samplePoint`: the
round trip returns `normal_y = 7` (the input's `normal_z`) where the input has
`normal_y = 6`, so it does not return the point. -/
theorem pointAssociate_roundtrip_loses_normal_y :
    (pointAssociateTobeMapped identityPose (pointAssociateToMap identityPose samplePoint)).normal_y
        = 7
      ∧ samplePoint.normal_y = 6
      ∧ pointAssociateTobeMapped identityPose (pointAssociateToMap identityPose samplePoint)
          ≠ samplePoint := by
  refine ⟨rfl, rfl, ?_⟩
  intro h
  have h2 := congrArg PointType.normal_y h
  simp [pointAssociateTobeMapped, pointAssociateToMap, samplePoint] at h2


/-! ### Cube index -/

section CubeIndexTheorems

variable {K : Type} [LinearOrderedField K] [FloorRing K]

/-- Where the computed cube index is the floor: whenever `x + 25` is
non-negative or `(x + 25) / 50` is not an integer. -/
theorem cubeIndex_eq_floor (x : K) (cen : Int)
    (h : 0 ≤ x + 25 ∨ ((⌊(x + 25) / 50⌋ : Int) : K) ≠ (x + 25) / 50) :
    cubeIndex x cen = ⌊(x + 25) / 50⌋ + cen := by
  unfold cubeIndex truncToInt
  by_cases hx : x + 25 < 0
  · have hv : ¬ (0 ≤ (x + 25) / 50) := by
      rw [not_le]
      exact div_neg_of_neg_of_pos hx (by norm_num)
    have hne : ((⌊(x + 25) / 50⌋ : Int) : K) ≠ (x + 25) / 50 := by
      rcases h with h | h
      · exact absurd h (not_le.mpr hx)
      · exact h
    have hlt : ((⌊(x + 25) / 50⌋ : Int) : K) < (x + 25) / 50 :=
      lt_of_le_of_ne (Int.floor_le _) hne
    have hceil : ⌈(x + 25) / 50⌉ = ⌊(x + 25) / 50⌋ + 1 := by
      rw [Int.ceil_eq_iff]
      constructor
      · push_cast
        linarith
      · push_cast
        exact le_of_lt (Int.lt_floor_add_one _)
    simp only [hx, hv, if_true, if_false, hceil]
    ring
  · have hv : 0 ≤ (x + 25) / 50 := div_nonneg (not_lt.mp hx) (by norm_num)
    simp only [hx, hv, if_true, if_false]

/-- Where the computed cube index is one below the floor: whenever `x + 25`
is a negative multiple of 50. -/
theorem cubeIndex_of_neg_multiple (x : K) (cen n : Int) (hn : n < 0)
    (hx : x + 25 = 50 * (n : K)) :
    cubeIndex x cen = ⌊(x + 25) / 50⌋ + cen - 1 := by
  have hv : (x + 25) / 50 = (n : K) := by
    rw [hx]
    field_simp
  have hneg : (n : K) < 0 := by exact_mod_cast hn
  have hx0 : x + 25 < 0 := by
    rw [hx]
    linarith
  unfold cubeIndex truncToInt
  rw [hv]
  simp only [hx0, not_le.mpr hneg, if_true, if_false, Int.ceil_intCast, Int.floor_intCast]

end CubeIndexTheorems

/-- C4 (cube index floor rule), evaluated at `x = -75`, `Cw = 10`: the code
computes `8` where `floor((x + 25) / 50) + Cw` is `9`. -/
theorem cubeIndex_neg_75_below_floor :
    cubeIndex (-75 : ℚ) 10 = 8 ∧ ⌊((-75 : ℚ) + 25) / 50⌋ + 10 = 9 := by
  have hv : ((-75 : ℚ) + 25) / 50 = ((-1 : Int) : ℚ) := by norm_num
  constructor
  · unfold cubeIndex truncToInt
    rw [hv, Int.ceil_intCast, Int.floor_intCast]
    norm_num
  · rw [hv, Int.floor_intCast]
    norm_num

/-! ### Recentering loops -/

section RecenterTheorems

variable {K : Type}

theorem whileWidthLow_center (s : Recenter K) :
    (whileWidthLow s).centerCubeI = max s.centerCubeI 2
      ∧ (whileWidthLow s).centerCubeJ = s.centerCubeJ
      ∧ (whileWidthLow s).centerCubeK = s.centerCubeK := by
  induction s using whileWidthLow.induct with
  | case1 s h ih =>
    rw [whileWidthLow, if_pos h]
    simp only at ih
    omega
  | case2 s h =>
    rw [whileWidthLow, if_neg h]
    omega

theorem whileWidthHigh_center (s : Recenter K) :
    (whileWidthHigh s).centerCubeI = min s.centerCubeI 18
      ∧ (whileWidthHigh s).centerCubeJ = s.centerCubeJ
      ∧ (whileWidthHigh s).centerCubeK = s.centerCubeK := by
  induction s using whileWidthHigh.induct with
  | case1 s h ih =>
    rw [whileWidthHigh, if_pos h]
    simp only [laserCloudWidth, Nat.cast_ofNat] at ih h
    omega
  | case2 s h =>
    rw [whileWidthHigh, if_neg h]
    simp only [laserCloudWidth, Nat.cast_ofNat] at h
    omega

theorem whileHeightLow_center (s : Recenter K) :
    (whileHeightLow s).centerCubeI = s.centerCubeI
      ∧ (whileHeightLow s).centerCubeJ = max s.centerCubeJ 2
      ∧ (whileHeightLow s).centerCubeK = s.centerCubeK := by
  induction s using whileHeightLow.induct with
  | case1 s h ih =>
    rw [whileHeightLow, if_pos h]
    simp only at ih
    omega
  | case2 s h =>
    rw [whileHeightLow, if_neg h]
    omega

theorem whileHeightHigh_center (s : Recenter K) :
    (whileHeightHigh s).centerCubeI = s.centerCubeI
      ∧ (whileHeightHigh s).centerCubeJ = min s.centerCubeJ 18
      ∧ (whileHeightHigh s).centerCubeK = s.centerCubeK := by
  induction s using whileHeightHigh.induct with
  | case1 s h ih =>
    rw [whileHeightHigh, if_pos h]
    simp only [laserCloudHeight, Nat.cast_ofNat] at ih h
    omega
  | case2 s h =>
    rw [whileHeightHigh, if_neg h]
    simp only [laserCloudHeight, Nat.cast_ofNat] at h
    omega

theorem whileDepthLow_center (s : Recenter K) :
    (whileDepthLow s).centerCubeI = s.centerCubeI
      ∧ (whileDepthLow s).centerCubeJ = s.centerCubeJ
      ∧ (whileDepthLow s).centerCubeK = max s.centerCubeK 2 := by
  induction s using whileDepthLow.induct with
  | case1 s h ih =>
    rw [whileDepthLow, if_pos h]
    simp only at ih
    omega
  | case2 s h =>
    rw [whileDepthLow, if_neg h]
    omega

theorem whileDepthHigh_center (s : Recenter K) :
    (whileDepthHigh s).centerCubeI = s.centerCubeI
      ∧ (whileDepthHigh s).centerCubeJ = s.centerCubeJ
      ∧ (whileDepthHigh s).centerCubeK = min s.centerCubeK 8 := by
  induction s using whileDepthHigh.induct with
  | case1 s h ih =>
    rw [whileDepthHigh, if_pos h]
    simp only [laserCloudDepth, Nat.cast_ofNat] at ih h
    omega
  | case2 s h =>
    rw [whileDepthHigh, if_neg h]
    simp only [laserCloudDepth, Nat.cast_ofNat] at h
    omega

/-- C5 (cube containment): the six recentering loops are total functions of
the state (each terminates from any integer index), and after them
`2 ≤ centerCubeI ≤ 18`, `2 ≤ centerCubeJ ≤ 18`, `2 ≤ centerCubeK ≤ 8`. -/
theorem recenter_center_in_interior (s : Recenter K) :
    (2 ≤ (recenter s).centerCubeI ∧ (recenter s).centerCubeI ≤ 18)
      ∧ (2 ≤ (recenter s).centerCubeJ ∧ (recenter s).centerCubeJ ≤ 18)
      ∧ (2 ≤ (recenter s).centerCubeK ∧ (recenter s).centerCubeK ≤ 8) := by
  unfold recenter
  have h1 := whileWidthLow_center s
  have h2 := whileWidthHigh_center (whileWidthLow s)
  have h3 := whileHeightLow_center (whileWidthHigh (whileWidthLow s))
  have h4 := whileHeightHigh_center (whileHeightLow (whileWidthHigh (whileWidthLow s)))
  have h5 := whileDepthLow_center
    (whileHeightHigh (whileHeightLow (whileWidthHigh (whileWidthLow s))))
  have h6 := whileDepthHigh_center
    (whileDepthLow (whileHeightHigh (whileHeightLow (whileWidthHigh (whileWidthLow s)))))
  omega

end RecenterTheorems

/-! ### Shifting the cube arrays -/

section ShiftTheorems

variable {α : Type}

theorem forRange_zero {σ : Type} (body : Nat → σ → σ) (s : σ) : forRange 0 body s = s := rfl

theorem forRange_succ {σ : Type} (n : Nat) (body : Nat → σ → σ) (s : σ) :
    forRange (n + 1) body s = body n (forRange n body s) := by
  simp [forRange, List.range_succ, List.foldl_append]

theorem copyDown_frame (pos : Nat → Nat) (n : Nat) (arr : Nat → α) (m : Nat)
    (h : ∀ a, 1 ≤ a → a ≤ n → m ≠ pos a) : copyDown pos n arr m = arr m := by
  induction n generalizing arr with
  | zero => rfl
  | succ n ih =>
    rw [copyDown, ih _ (fun a h1 h2 => h a h1 (by omega))]
    exact Function.update_noteq (h (n + 1) (by omega) le_rfl) _ _

theorem copyDown_at (pos : Nat → Nat) (n : Nat) (arr : Nat → α)
    (hinj : ∀ a b, a ≤ n → b ≤ n → pos a = pos b → a = b) (a : Nat) (ha : a ≤ n) :
    copyDown pos n arr (pos a) = if a = 0 then arr (pos 0) else arr (pos (a - 1)) := by
  induction n generalizing arr with
  | zero =>
    have h0 : a = 0 := by omega
    subst h0
    rfl
  | succ n ih =>
    rw [copyDown]
    have hne : ∀ b, b ≤ n → pos b ≠ pos (n + 1) := by
      intro b hb hEq
      have := hinj b (n + 1) (by omega) le_rfl hEq
      omega
    by_cases hlast : a = n + 1
    · subst hlast
      rw [copyDown_frame pos n _ (pos (n + 1))
        (fun b _ hb => (hne b hb).symm)]
      simp
    · have han : a ≤ n := by omega
      rw [ih _ (fun x y hx hy => hinj x y (by omega) (by omega)) han]
      by_cases h0 : a = 0
      · simp only [h0, if_true]
        exact Function.update_noteq (hne 0 (by omega)) _ _
      · simp only [h0, if_false]
        exact Function.update_noteq (hne (a - 1) (by omega)) _ _

theorem copyUp_frame (pos : Nat → Nat) (n i : Nat) (arr : Nat → α) (m : Nat)
    (h : ∀ a, i ≤ a → a < i + n → m ≠ pos a) : copyUp pos n i arr m = arr m := by
  induction n generalizing arr i with
  | zero => rfl
  | succ n ih =>
    rw [copyUp, ih _ _ (fun a h1 h2 => h a (by omega) (by omega))]
    exact Function.update_noteq (h i le_rfl (by omega)) _ _

theorem copyUp_at (pos : Nat → Nat) (n i : Nat) (arr : Nat → α)
    (hinj : ∀ a b, a ≤ i + n → b ≤ i + n → pos a = pos b → a = b) (a : Nat)
    (hia : i ≤ a) (ha : a ≤ i + n) :
    copyUp pos n i arr (pos a) = if a = i + n then arr (pos (i + n)) else arr (pos (a + 1)) := by
  induction n generalizing arr i with
  | zero =>
    have h0 : a = i := by omega
    subst h0
    simp [copyUp]
  | succ n ih =>
    rw [copyUp]
    have hne : ∀ b, i < b → b ≤ i + (n + 1) → pos b ≠ pos i := by
      intro b hb1 hb2 hEq
      have := hinj b i (by omega) (by omega) hEq
      omega
    by_cases hfirst : a = i
    · subst hfirst
      rw [copyUp_frame pos n (a + 1) _ (pos a)
        (fun b hb1 hb2 => (hne b (by omega) (by omega)).symm)]
      have hx : ¬ (a = a + (n + 1)) := by omega
      simp [hx]
    · have h1 : i + 1 ≤ a := by omega
      rw [ih (i + 1) _ (fun x y hx hy => hinj x y (by omega) (by omega)) h1 (by omega)]
      have e : i + 1 + n = i + (n + 1) := by omega
      rw [e]
      by_cases hl : a = i + (n + 1)
      · simp only [hl, if_true]
        exact Function.update_noteq (hne _ (by omega) le_rfl) _ _
      · simp only [hl, if_false]
        exact Function.update_noteq (hne _ (by omega) (by omega)) _ _

end ShiftTheorems

section RollTheorems

variable {K : Type}

theorem rollRowUp_at (pos : Nat → Nat) (len : Nat) (arr : Nat → Cloud K)
    (hinj : ∀ a b, a < len → b < len → pos a = pos b → a = b) (a : Nat) (ha : a < len) :
    rollRowUp pos len arr (pos a) = if a = 0 then [] else arr (pos (a - 1)) := by
  unfold rollRowUp
  by_cases h0 : a = 0
  · subst h0
    simp
  · have hne : pos a ≠ pos 0 := by
      intro hEq
      exact h0 (hinj a 0 ha (by omega) hEq)
    rw [Function.update_noteq hne,
      copyDown_at pos (len - 1) arr (fun x y hx hy => hinj x y (by omega) (by omega)) a
        (by omega)]
    simp [h0]

theorem rollRowUp_frame (pos : Nat → Nat) (len : Nat) (arr : Nat → Cloud K) (m : Nat)
    (h : ∀ a, a < len → m ≠ pos a) (hlen : 0 < len) : rollRowUp pos len arr m = arr m := by
  unfold rollRowUp
  rw [Function.update_noteq (h 0 hlen),
    copyDown_frame pos (len - 1) arr m (fun a _ ha => h a (by omega))]

theorem rollRowDown_at (pos : Nat → Nat) (len : Nat) (arr : Nat → Cloud K)
    (hinj : ∀ a b, a < len → b < len → pos a = pos b → a = b) (a : Nat) (ha : a < len) :
    rollRowDown pos len arr (pos a) = if a = len - 1 then [] else arr (pos (a + 1)) := by
  unfold rollRowDown
  by_cases h0 : a = len - 1
  · subst h0
    simp
  · have hne : pos a ≠ pos (len - 1) := by
      intro hEq
      exact h0 (hinj a (len - 1) ha (by omega) hEq)
    rw [Function.update_noteq hne,
      copyUp_at pos (len - 1) 0 arr (fun x y hx hy => hinj x y (by omega) (by omega)) a
        (by omega) (by omega)]
    have e : 0 + (len - 1) = len - 1 := by omega
    rw [e]
    simp [h0]

theorem rollRowDown_frame (pos : Nat → Nat) (len : Nat) (arr : Nat → Cloud K) (m : Nat)
    (h : ∀ a, a < len → m ≠ pos a) (hlen : 0 < len) : rollRowDown pos len arr m = arr m := by
  unfold rollRowDown
  rw [Function.update_noteq (h (len - 1) (by omega)),
    copyUp_frame pos (len - 1) 0 arr m (fun a _ ha => h a (by omega))]

theorem inner_rows {β : Type} (pos : Nat → Nat → Nat → Nat) (len n1 n2 : Nat)
    (R : Nat → Nat → (Nat → β) → (Nat → β)) (f : (Nat → β) → Nat → Nat → Nat → β)
    (H1 : ∀ arr a b c, a < len → b < n1 → c < n2 → R b c arr (pos a b c) = f arr a b c)
    (H2 : ∀ arr a b c b' c', a < len → b < n1 → c < n2 → b' < n1 → c' < n2 →
      (b' ≠ b ∨ c' ≠ c) → R b' c' arr (pos a b c) = arr (pos a b c))
    (H3 : ∀ arr arr' a b c, a < len →
      (∀ a', a' < len → arr (pos a' b c) = arr' (pos a' b c)) → f arr a b c = f arr' a b c)
    (B : Nat) (hB : B < n1) (arr0 : Nat → β) (C : Nat) (hC : C ≤ n2)
    (a b c : Nat) (ha : a < len) (hb : b < n1) (hc : c < n2) :
    forRange C (fun c => R B c) arr0 (pos a b c)
      = if b = B ∧ c < C then f arr0 a b c else arr0 (pos a b c) := by
  induction C generalizing a b c with
  | zero => simp [forRange_zero]
  | succ C ih =>
    rw [forRange_succ]
    by_cases hrow : b = B ∧ c = C
    · obtain ⟨hb1, hc1⟩ := hrow
      subst hb1 hc1
      rw [H1 _ a b c ha hb hc]
      have hcond : b = b ∧ c < c + 1 := ⟨rfl, by omega⟩
      rw [if_pos hcond]
      apply H3 _ _ a b c ha
      intro a' ha'
      rw [ih (by omega) a' b c ha' hb hc]
      simp
    · have hdiff : B ≠ b ∨ C ≠ c := by
        by_cases hbB : b = B
        · right
          intro hcC
          exact hrow ⟨hbB, hcC.symm⟩
        · left
          exact fun h => hbB h.symm
      rw [H2 _ a b c B C ha hb hc hB (by omega) hdiff, ih (by omega) a b c ha hb hc]
      have hiff : (b = B ∧ c < C + 1) ↔ (b = B ∧ c < C) := by
        constructor
        · rintro ⟨h1, h2⟩
          refine ⟨h1, ?_⟩
          by_contra hlt
          exact hrow ⟨h1, by omega⟩
        · rintro ⟨h1, h2⟩
          exact ⟨h1, by omega⟩
      simp only [hiff]

theorem nested_rows {β : Type} (pos : Nat → Nat → Nat → Nat) (len n1 n2 : Nat)
    (R : Nat → Nat → (Nat → β) → (Nat → β)) (f : (Nat → β) → Nat → Nat → Nat → β)
    (H1 : ∀ arr a b c, a < len → b < n1 → c < n2 → R b c arr (pos a b c) = f arr a b c)
    (H2 : ∀ arr a b c b' c', a < len → b < n1 → c < n2 → b' < n1 → c' < n2 →
      (b' ≠ b ∨ c' ≠ c) → R b' c' arr (pos a b c) = arr (pos a b c))
    (H3 : ∀ arr arr' a b c, a < len →
      (∀ a', a' < len → arr (pos a' b c) = arr' (pos a' b c)) → f arr a b c = f arr' a b c)
    (arr0 : Nat → β) (a b c : Nat) (ha : a < len) (hb : b < n1) (hc : c < n2) :
    forRange n1 (fun b => forRange n2 (fun c => R b c)) arr0 (pos a b c) = f arr0 a b c := by
  have key : ∀ B, B ≤ n1 → ∀ a b c, a < len → b < n1 → c < n2 →
      forRange B (fun b => forRange n2 (fun c => R b c)) arr0 (pos a b c)
        = if b < B then f arr0 a b c else arr0 (pos a b c) := by
    intro B
    induction B with
    | zero =>
      intro _ a b c _ _ _
      simp [forRange_zero]
    | succ B ih =>
      intro hB a b c ha hb hc
      rw [forRange_succ]
      rw [inner_rows pos len n1 n2 R f H1 H2 H3 B (by omega) _ n2 le_rfl a b c ha hb hc]
      by_cases hbB : b = B
      · subst hbB
        have hcond : b = b ∧ c < n2 := ⟨rfl, hc⟩
        rw [if_pos hcond, if_pos (by omega : b < b + 1)]
        apply H3 _ _ a b c ha
        intro a' ha'
        rw [ih (by omega) a' b c ha' hb hc]
        simp
      · have hcond : ¬ (b = B ∧ c < n2) := fun h => hbB h.1
        rw [if_neg hcond, ih (by omega) a b c ha hb hc]
        have hiff : (b < B + 1) ↔ (b < B) := by omega
        simp only [hiff]
  rw [key n1 le_rfl a b c ha hb hc, if_pos hb]

/-- What a shift toward higher indices leaves in each cell of the grid. -/
theorem shiftUpAlong_at (pos : Nat → Nat → Nat → Nat) (len n1 n2 : Nat)
    (hinj : ∀ a b c a' b' c', a < len → b < n1 → c < n2 → a' < len → b' < n1 → c' < n2 →
      pos a b c = pos a' b' c' → a = a' ∧ b = b' ∧ c = c')
    (arr : Nat → Cloud K) (a b c : Nat) (ha : a < len) (hb : b < n1) (hc : c < n2) :
    shiftUpAlong pos len n1 n2 arr (pos a b c)
      = if a = 0 then [] else arr (pos (a - 1) b c) := by
  unfold shiftUpAlong
  refine nested_rows pos len n1 n2 (fun b c => rollRowUp (fun a => pos a b c) len)
    (fun arr a b c => if a = 0 then [] else arr (pos (a - 1) b c)) ?_ ?_ ?_ arr a b c ha hb hc
  · intro arr a b c ha hb hc
    exact rollRowUp_at (fun a => pos a b c) len arr
      (fun x y hx hy h => (hinj x b c y b c hx hb hc hy hb hc h).1) a ha
  · intro arr a b c b' c' ha hb hc hb' hc' hne
    refine rollRowUp_frame (fun a => pos a b' c') len arr (pos a b c) ?_ (by omega)
    intro a' ha' hEq
    have := hinj a b c a' b' c' ha hb hc ha' hb' hc' hEq
    rcases hne with h | h
    · exact h this.2.1.symm
    · exact h this.2.2.symm
  · intro arr arr' a b c ha hrow
    by_cases h0 : a = 0
    · simp [h0]
    · simp only [h0, if_false]
      exact hrow (a - 1) (by omega)

/-- What a shift toward lower indices leaves in each cell of the grid. -/
theorem shiftDownAlong_at (pos : Nat → Nat → Nat → Nat) (len n1 n2 : Nat)
    (hinj : ∀ a b c a' b' c', a < len → b < n1 → c < n2 → a' < len → b' < n1 → c' < n2 →
      pos a b c = pos a' b' c' → a = a' ∧ b = b' ∧ c = c')
    (arr : Nat → Cloud K) (a b c : Nat) (ha : a < len) (hb : b < n1) (hc : c < n2) :
    shiftDownAlong pos len n1 n2 arr (pos a b c)
      = if a = len - 1 then [] else arr (pos (a + 1) b c) := by
  unfold shiftDownAlong
  refine nested_rows pos len n1 n2 (fun b c => rollRowDown (fun a => pos a b c) len)
    (fun arr a b c => if a = len - 1 then [] else arr (pos (a + 1) b c)) ?_ ?_ ?_
    arr a b c ha hb hc
  · intro arr a b c ha hb hc
    exact rollRowDown_at (fun a => pos a b c) len arr
      (fun x y hx hy h => (hinj x b c y b c hx hb hc hy hb hc h).1) a ha
  · intro arr a b c b' c' ha hb hc hb' hc' hne
    refine rollRowDown_frame (fun a => pos a b' c') len arr (pos a b c) ?_ (by omega)
    intro a' ha' hEq
    have := hinj a b c a' b' c' ha hb hc ha' hb' hc' hEq
    rcases hne with h | h
    · exact h this.2.1.symm
    · exact h this.2.2.symm
  · intro arr arr' a b c ha hrow
    by_cases h0 : a = len - 1
    · simp [h0]
    · simp only [h0, if_false]
      exact hrow (a + 1) (by omega)

theorem cubeInd_inj_ijk (a b c a' b' c' : Nat) (ha : a < laserCloudWidth)
    (hb : b < laserCloudHeight) (_ : c < laserCloudDepth) (ha' : a' < laserCloudWidth)
    (hb' : b' < laserCloudHeight) (_ : c' < laserCloudDepth)
    (h : cubeInd a b c = cubeInd a' b' c') : a = a' ∧ b = b' ∧ c = c' := by
  simp only [cubeInd, laserCloudWidth, laserCloudHeight] at *
  omega

theorem cubeInd_inj_jik (a b c a' b' c' : Nat) (ha : a < laserCloudHeight)
    (hb : b < laserCloudWidth) (_ : c < laserCloudDepth) (ha' : a' < laserCloudHeight)
    (hb' : b' < laserCloudWidth) (_ : c' < laserCloudDepth)
    (h : cubeInd b a c = cubeInd b' a' c') : a = a' ∧ b = b' ∧ c = c' := by
  simp only [cubeInd, laserCloudWidth, laserCloudHeight] at *
  omega

theorem cubeInd_inj_kij (a b c a' b' c' : Nat) (_ : a < laserCloudDepth)
    (hb : b < laserCloudWidth) (hc : c < laserCloudHeight) (_ : a' < laserCloudDepth)
    (hb' : b' < laserCloudWidth) (hc' : c' < laserCloudHeight)
    (h : cubeInd b c a = cubeInd b' c' a') : a = a' ∧ b = b' ∧ c = c' := by
  simp only [cubeInd, laserCloudWidth, laserCloudHeight] at *
  omega

end RollTheorems

section ShiftStepTheorems

variable {K : Type}

theorem shiftWidthUp_cell (m : CubeMap K) (i j k : Nat) (h : InArray i j k) :
    (shiftWidthUp m).laserCloudCornerArray (cubeInd i j k)
        = (if i = 0 then [] else m.laserCloudCornerArray (cubeInd (i - 1) j k))
      ∧ (shiftWidthUp m).laserCloudSurfArray (cubeInd i j k)
        = (if i = 0 then [] else m.laserCloudSurfArray (cubeInd (i - 1) j k)) :=
  ⟨shiftUpAlong_at (fun i j k => cubeInd i j k) _ _ _ cubeInd_inj_ijk _ i j k h.1 h.2.1 h.2.2,
   shiftUpAlong_at (fun i j k => cubeInd i j k) _ _ _ cubeInd_inj_ijk _ i j k h.1 h.2.1 h.2.2⟩

theorem shiftWidthDown_cell (m : CubeMap K) (i j k : Nat) (h : InArray i j k) :
    (shiftWidthDown m).laserCloudCornerArray (cubeInd i j k)
        = (if i = laserCloudWidth - 1 then []
            else m.laserCloudCornerArray (cubeInd (i + 1) j k))
      ∧ (shiftWidthDown m).laserCloudSurfArray (cubeInd i j k)
        = (if i = laserCloudWidth - 1 then []
            else m.laserCloudSurfArray (cubeInd (i + 1) j k)) :=
  ⟨shiftDownAlong_at (fun i j k => cubeInd i j k) _ _ _ cubeInd_inj_ijk _ i j k h.1 h.2.1 h.2.2,
   shiftDownAlong_at (fun i j k => cubeInd i j k) _ _ _ cubeInd_inj_ijk _ i j k h.1 h.2.1 h.2.2⟩

theorem shiftHeightUp_cell (m : CubeMap K) (i j k : Nat) (h : InArray i j k) :
    (shiftHeightUp m).laserCloudCornerArray (cubeInd i j k)
        = (if j = 0 then [] else m.laserCloudCornerArray (cubeInd i (j - 1) k))
      ∧ (shiftHeightUp m).laserCloudSurfArray (cubeInd i j k)
        = (if j = 0 then [] else m.laserCloudSurfArray (cubeInd i (j - 1) k)) :=
  ⟨shiftUpAlong_at (fun j i k => cubeInd i j k) _ _ _ cubeInd_inj_jik _ j i k h.2.1 h.1 h.2.2,
   shiftUpAlong_at (fun j i k => cubeInd i j k) _ _ _ cubeInd_inj_jik _ j i k h.2.1 h.1 h.2.2⟩

theorem shiftHeightDown_cell (m : CubeMap K) (i j k : Nat) (h : InArray i j k) :
    (shiftHeightDown m).laserCloudCornerArray (cubeInd i j k)
        = (if j = laserCloudHeight - 1 then []
            else m.laserCloudCornerArray (cubeInd i (j + 1) k))
      ∧ (shiftHeightDown m).laserCloudSurfArray (cubeInd i j k)
        = (if j = laserCloudHeight - 1 then []
            else m.laserCloudSurfArray (cubeInd i (j + 1) k)) :=
  ⟨shiftDownAlong_at (fun j i k => cubeInd i j k) _ _ _ cubeInd_inj_jik _ j i k h.2.1 h.1 h.2.2,
   shiftDownAlong_at (fun j i k => cubeInd i j k) _ _ _ cubeInd_inj_jik _ j i k h.2.1 h.1 h.2.2⟩

theorem shiftDepthUp_cell (m : CubeMap K) (i j k : Nat) (h : InArray i j k) :
    (shiftDepthUp m).laserCloudCornerArray (cubeInd i j k)
        = (if k = 0 then [] else m.laserCloudCornerArray (cubeInd i j (k - 1)))
      ∧ (shiftDepthUp m).laserCloudSurfArray (cubeInd i j k)
        = (if k = 0 then [] else m.laserCloudSurfArray (cubeInd i j (k - 1))) :=
  ⟨shiftUpAlong_at (fun k i j => cubeInd i j k) _ _ _ cubeInd_inj_kij _ k i j h.2.2 h.1 h.2.1,
   shiftUpAlong_at (fun k i j => cubeInd i j k) _ _ _ cubeInd_inj_kij _ k i j h.2.2 h.1 h.2.1⟩

theorem shiftDepthDown_cell (m : CubeMap K) (i j k : Nat) (h : InArray i j k) :
    (shiftDepthDown m).laserCloudCornerArray (cubeInd i j k)
        = (if k = laserCloudDepth - 1 then []
            else m.laserCloudCornerArray (cubeInd i j (k + 1)))
      ∧ (shiftDepthDown m).laserCloudSurfArray (cubeInd i j k)
        = (if k = laserCloudDepth - 1 then []
            else m.laserCloudSurfArray (cubeInd i j (k + 1))) :=
  ⟨shiftDownAlong_at (fun k i j => cubeInd i j k) _ _ _ cubeInd_inj_kij _ k i j h.2.2 h.1 h.2.1,
   shiftDownAlong_at (fun k i j => cubeInd i j k) _ _ _ cubeInd_inj_kij _ k i j h.2.2 h.1 h.2.1⟩

end ShiftStepTheorems

section WorldMappingTheorem

variable {K : Type}

/-- C6 (recentering preserves the world-to-storage mapping): for each of the
six single shift steps, a cell `(i, j, k)` of the array and a cell
`(i', j', k')` of the array that has the same world cube index under the
updated center offsets hold the same edge and plane clouds before and after
the step (so nothing moves along the other two axes), and the slab that
rolled round (first slab after a shift toward higher indices, last slab after
a shift toward lower indices) is empty. -/
theorem shift_preserves_world_mapping (m : CubeMap K) (i j k i' j' k' : Nat)
    (h : InArray i j k) (h' : InArray i' j' k') :
    ((SameWorldCube m (shiftWidthUp m) i j k i' j' k' →
          StoredAt m (shiftWidthUp m) i j k i' j' k')
        ∧ EmptyAt (shiftWidthUp m) 0 j k)
      ∧ ((SameWorldCube m (shiftWidthDown m) i j k i' j' k' →
          StoredAt m (shiftWidthDown m) i j k i' j' k')
        ∧ EmptyAt (shiftWidthDown m) (laserCloudWidth - 1) j k)
      ∧ ((SameWorldCube m (shiftHeightUp m) i j k i' j' k' →
          StoredAt m (shiftHeightUp m) i j k i' j' k')
        ∧ EmptyAt (shiftHeightUp m) i 0 k)
      ∧ ((SameWorldCube m (shiftHeightDown m) i j k i' j' k' →
          StoredAt m (shiftHeightDown m) i j k i' j' k')
        ∧ EmptyAt (shiftHeightDown m) i (laserCloudHeight - 1) k)
      ∧ ((SameWorldCube m (shiftDepthUp m) i j k i' j' k' →
          StoredAt m (shiftDepthUp m) i j k i' j' k')
        ∧ EmptyAt (shiftDepthUp m) i j 0)
      ∧ ((SameWorldCube m (shiftDepthDown m) i j k i' j' k' →
          StoredAt m (shiftDepthDown m) i j k i' j' k')
        ∧ EmptyAt (shiftDepthDown m) i j (laserCloudDepth - 1)) := by
  obtain ⟨hi, hj, hk⟩ := h
  obtain ⟨hi', hj', hk'⟩ := h'
  simp only [laserCloudWidth, laserCloudHeight, laserCloudDepth] at hi hj hk hi' hj' hk'
  refine ⟨⟨?_, ?_⟩, ⟨?_, ?_⟩, ⟨?_, ?_⟩, ⟨?_, ?_⟩, ⟨?_, ?_⟩, ⟨?_, ?_⟩⟩
  · rintro ⟨e1, e2, e3⟩
    simp only [shiftWidthUp] at e1 e2 e3
    have hi2 : i' = i + 1 := by omega
    have hj2 : j' = j := by omega
    have hk2 : k' = k := by omega
    subst hi2 hj2 hk2
    have hc := shiftWidthUp_cell m (i + 1) j' k' ⟨hi', hj, hk⟩
    simpa [StoredAt] using hc
  · have hc := shiftWidthUp_cell m 0 j k ⟨by decide, hj, hk⟩
    simpa [EmptyAt] using hc
  · rintro ⟨e1, e2, e3⟩
    simp only [shiftWidthDown] at e1 e2 e3
    have hi2 : i = i' + 1 := by omega
    have hj2 : j' = j := by omega
    have hk2 : k' = k := by omega
    subst hi2 hj2 hk2
    have hc := shiftWidthDown_cell m i' j' k' ⟨hi', hj, hk⟩
    have hne : ¬ (i' = 20) := by omega
    simpa [StoredAt, hne] using hc
  · have hc := shiftWidthDown_cell m (laserCloudWidth - 1) j k ⟨by decide, hj, hk⟩
    simpa [EmptyAt] using hc
  · rintro ⟨e1, e2, e3⟩
    simp only [shiftHeightUp] at e1 e2 e3
    have hi2 : i' = i := by omega
    have hj2 : j' = j + 1 := by omega
    have hk2 : k' = k := by omega
    subst hi2 hj2 hk2
    have hc := shiftHeightUp_cell m i' (j + 1) k' ⟨hi, hj', hk⟩
    simpa [StoredAt] using hc
  · have hc := shiftHeightUp_cell m i 0 k ⟨hi, by decide, hk⟩
    simpa [EmptyAt] using hc
  · rintro ⟨e1, e2, e3⟩
    simp only [shiftHeightDown] at e1 e2 e3
    have hi2 : i' = i := by omega
    have hj2 : j = j' + 1 := by omega
    have hk2 : k' = k := by omega
    subst hi2 hj2 hk2
    have hc := shiftHeightDown_cell m i' j' k' ⟨hi, hj', hk⟩
    have hne : ¬ (j' = 20) := by omega
    simpa [StoredAt, hne] using hc
  · have hc := shiftHeightDown_cell m i (laserCloudHeight - 1) k ⟨hi, by decide, hk⟩
    simpa [EmptyAt] using hc
  · rintro ⟨e1, e2, e3⟩
    simp only [shiftDepthUp] at e1 e2 e3
    have hi2 : i' = i := by omega
    have hj2 : j' = j := by omega
    have hk2 : k' = k + 1 := by omega
    subst hi2 hj2 hk2
    have hc := shiftDepthUp_cell m i' j' (k + 1) ⟨hi, hj, hk'⟩
    simpa [StoredAt] using hc
  · have hc := shiftDepthUp_cell m i j 0 ⟨hi, hj, by decide⟩
    simpa [EmptyAt] using hc
  · rintro ⟨e1, e2, e3⟩
    simp only [shiftDepthDown] at e1 e2 e3
    have hi2 : i' = i := by omega
    have hj2 : j' = j := by omega
    have hk2 : k = k' + 1 := by omega
    subst hi2 hj2 hk2
    have hc := shiftDepthDown_cell m i' j' k' ⟨hi, hj, hk'⟩
    have hne : ¬ (k' = 10) := by omega
    simpa [StoredAt, hne] using hc
  · have hc := shiftDepthDown_cell m i j (laserCloudDepth - 1) ⟨hi, hj, by decide⟩
    simpa [EmptyAt] using hc

end WorldMappingTheorem

/-- Witness for C6 on `sampleMap`: the edge cloud of cell `(3, 4, 5)` is found
in cell `(4, 4, 5)` after a shift of the `i` axis toward higher indices and in
cell `(3, 4, 4)` after a shift of the `k` axis toward lower indices. -/
theorem shift_preserves_world_mapping_witness :
    (InArray 3 4 5 ∧ InArray 4 4 5 ∧ InArray 3 4 4)
      ∧ SameWorldCube sampleMap (shiftWidthUp sampleMap) 3 4 5 4 4 5
      ∧ StoredAt sampleMap (shiftWidthUp sampleMap) 3 4 5 4 4 5
      ∧ SameWorldCube sampleMap (shiftDepthDown sampleMap) 3 4 5 3 4 4
      ∧ StoredAt sampleMap (shiftDepthDown sampleMap) 3 4 5 3 4 4 :=
  ⟨⟨by decide, by decide, by decide⟩,
   by simp [SameWorldCube, shiftWidthUp, sampleMap],
   (shift_preserves_world_mapping sampleMap 3 4 5 4 4 5 (by decide) (by decide)).1.1
     (by simp [SameWorldCube, shiftWidthUp, sampleMap]),
   by simp [SameWorldCube, shiftDepthDown, sampleMap],
   (shift_preserves_world_mapping sampleMap 3 4 5 3 4 4 (by decide) (by decide)).2.2.2.2.2.1
     (by simp [SameWorldCube, shiftDepthDown, sampleMap])⟩

/-! ### Input staging -/

section StagingTheorems

variable {K : Type} [LinearOrderedField K]

theorem dropWhile_eq_self_of_head {β : Type} (p : β → Bool) (l : List β)
    (h : ∀ m ms, l = m :: ms → p m = false) : l.dropWhile p = l := by
  cases l with
  | nil => rfl
  | cons m ms => simp [List.dropWhile, h m ms rfl]

/-- What an accepted frame has passed: the synchronisation test is false on
the four time variables it leaves. -/
theorem stage_accepted_test (s : Mapper K) (h : (stage s).1 = Staging.accepted) :
    ¬ unsyncTest (stage s).2.timeLaserCloudCornerLast (stage s).2.timeLaserCloudSurfLast
        (stage s).2.timeLaserCloudFullRes (stage s).2.timeLaserOdometry := by
  unfold stage at h ⊢
  split at h
  · simp only at h ⊢
    split at h
    · simp at h
    · split at h
      · simp at h
      · split at h
        · simp at h
        · split at h
          · simp at h
          · rename_i e1 _ _ _ e2 _ _ _ e3 hu
            simp only [e1, e2, e3, hu, if_false]
            exact not_false
  · simp at h

/-- The four time variables of an accepted frame are the stamps of the corner
head and of the heads of the aligned odometry, surf and full-res queues. -/
theorem stage_accepted_heads (s : Mapper K) (h : (stage s).1 = Staging.accepted) :
    ∃ c cs o os sf sfs f fs,
      s.cornerLastBuf = c :: cs
        ∧ s.odometryBuf.dropWhile (fun m => m.stamp < c.stamp) = o :: os
        ∧ s.surfLastBuf.dropWhile (fun m => m.stamp < c.stamp) = sf :: sfs
        ∧ s.fullResBuf.dropWhile (fun m => m.stamp < c.stamp) = f :: fs
        ∧ (stage s).2.timeLaserCloudCornerLast = c.stamp
        ∧ (stage s).2.timeLaserOdometry = o.stamp
        ∧ (stage s).2.timeLaserCloudSurfLast = sf.stamp
        ∧ (stage s).2.timeLaserCloudFullRes = f.stamp := by
  unfold stage at h ⊢
  split at h
  · rename_i c cs _ _ _ _ _ _ hc _ _ _
    simp only at h ⊢
    split at h
    · simp at h
    · split at h
      · simp at h
      · split at h
        · simp at h
        · split at h
          · simp at h
          · rename_i _ o os e1 _ sf sfs e2 _ f fs e3 hu
            refine ⟨c, cs, o, os, sf, sfs, f, fs, hc, e1, e2, e3, ?_⟩
            simp only [e1, e2, e3, hu, if_false, and_self]
  · simp at h

/-- C7, amended (accepted frames are within 10 ms of the odometry head): when
the staging step accepts a frame, the four timestamps used for it are those of
the corner head and of the heads of the aligned odometry, surf and full-res
queues; the corner, surf and full-res timestamps each differ from the odometry
timestamp by at most 0.01 s, and therefore every two of the four timestamps
differ by at most 0.02 s. -/
theorem stage_accepted_times_near_odometry (s : Mapper K)
    (h : (stage s).1 = Staging.accepted) :
    (∃ c cs o os sf sfs f fs,
      s.cornerLastBuf = c :: cs
        ∧ s.odometryBuf.dropWhile (fun m => m.stamp < c.stamp) = o :: os
        ∧ s.surfLastBuf.dropWhile (fun m => m.stamp < c.stamp) = sf :: sfs
        ∧ s.fullResBuf.dropWhile (fun m => m.stamp < c.stamp) = f :: fs
        ∧ (stage s).2.timeLaserCloudCornerLast = c.stamp
        ∧ (stage s).2.timeLaserOdometry = o.stamp
        ∧ (stage s).2.timeLaserCloudSurfLast = sf.stamp
        ∧ (stage s).2.timeLaserCloudFullRes = f.stamp)
      ∧ (|(stage s).2.timeLaserCloudCornerLast - (stage s).2.timeLaserOdometry| ≤ 1 / 100
        ∧ |(stage s).2.timeLaserCloudSurfLast - (stage s).2.timeLaserOdometry| ≤ 1 / 100
        ∧ |(stage s).2.timeLaserCloudFullRes - (stage s).2.timeLaserOdometry| ≤ 1 / 100)
      ∧ (|(stage s).2.timeLaserCloudCornerLast - (stage s).2.timeLaserCloudSurfLast| ≤ 2 / 100
        ∧ |(stage s).2.timeLaserCloudCornerLast - (stage s).2.timeLaserCloudFullRes| ≤ 2 / 100
        ∧ |(stage s).2.timeLaserCloudSurfLast - (stage s).2.timeLaserCloudFullRes| ≤ 2 / 100) := by
  have ht := stage_accepted_test s h
  simp only [unsyncTest, not_or, not_lt, gt_iff_lt] at ht
  obtain ⟨h1, h2, h3⟩ := ht
  refine ⟨stage_accepted_heads s h, ⟨h1, h2, h3⟩, ?_, ?_, ?_⟩
  · rw [abs_le] at h1 h2 ⊢
    constructor <;> linarith [h1.1, h1.2, h2.1, h2.2]
  · rw [abs_le] at h1 h3 ⊢
    constructor <;> linarith [h1.1, h1.2, h3.1, h3.2]
  · rw [abs_le] at h2 h3 ⊢
    constructor <;> linarith [h2.1, h2.2, h3.1, h3.2]

/-- C8, amended (a desync rejection touches only the aligned queues and the
time variables): when the frame is rejected as unsynchronised, the pose
globals, the correction link, the cube map, the three input clouds and the
corner queue are as before; the odometry, surf and full-res queues are what
the alignment loops left, that is, without their leading messages older than
the corner head; so all four queues are unchanged whenever no queue starts
with a message older than the corner head. -/
theorem stage_unsync_effect (s : Mapper K) (h : (stage s).1 = Staging.unsync) :
    (stage s).2.pose = s.pose
      ∧ (stage s).2.map = s.map
      ∧ (stage s).2.cornerLastBuf = s.cornerLastBuf
      ∧ ((stage s).2.laserCloudCornerLast = s.laserCloudCornerLast
        ∧ (stage s).2.laserCloudSurfLast = s.laserCloudSurfLast
        ∧ (stage s).2.laserCloudFullRes = s.laserCloudFullRes)
      ∧ s.cornerLastBuf ≠ []
      ∧ (∀ c cs, s.cornerLastBuf = c :: cs →
          (stage s).2.odometryBuf = s.odometryBuf.dropWhile (fun m => m.stamp < c.stamp)
          ∧ (stage s).2.surfLastBuf = s.surfLastBuf.dropWhile (fun m => m.stamp < c.stamp)
          ∧ (stage s).2.fullResBuf = s.fullResBuf.dropWhile (fun m => m.stamp < c.stamp))
      ∧ (∀ c cs, s.cornerLastBuf = c :: cs →
          (∀ m ms, s.odometryBuf = m :: ms → c.stamp ≤ m.stamp) →
          (∀ m ms, s.surfLastBuf = m :: ms → c.stamp ≤ m.stamp) →
          (∀ m ms, s.fullResBuf = m :: ms → c.stamp ≤ m.stamp) →
          (stage s).2.odometryBuf = s.odometryBuf
          ∧ (stage s).2.surfLastBuf = s.surfLastBuf
          ∧ (stage s).2.fullResBuf = s.fullResBuf) := by
  have main : (stage s).2.pose = s.pose
      ∧ (stage s).2.map = s.map
      ∧ (stage s).2.cornerLastBuf = s.cornerLastBuf
      ∧ ((stage s).2.laserCloudCornerLast = s.laserCloudCornerLast
        ∧ (stage s).2.laserCloudSurfLast = s.laserCloudSurfLast
        ∧ (stage s).2.laserCloudFullRes = s.laserCloudFullRes)
      ∧ s.cornerLastBuf ≠ []
      ∧ (∀ c cs, s.cornerLastBuf = c :: cs →
          (stage s).2.odometryBuf = s.odometryBuf.dropWhile (fun m => m.stamp < c.stamp)
          ∧ (stage s).2.surfLastBuf = s.surfLastBuf.dropWhile (fun m => m.stamp < c.stamp)
          ∧ (stage s).2.fullResBuf = s.fullResBuf.dropWhile (fun m => m.stamp < c.stamp)) := by
    unfold stage at h ⊢
    split at h
    · rename_i c cs _ _ _ _ _ _ hc _ _ _
      simp only at h ⊢
      split at h
      · simp at h
      · split at h
        · simp at h
        · split at h
          · simp at h
          · split at h
            · rename_i e1 _ _ _ e2 _ _ _ e3 hu
              simp only [e1, e2, e3, hu, if_true]
              refine ⟨trivial, trivial, trivial, ⟨trivial, trivial, trivial⟩, ?_, ?_⟩
              · rw [hc]
                exact List.cons_ne_nil _ _
              · intro c' cs' hc'
                rw [hc] at hc'
                injection hc' with i1 i2
                subst i1
                exact ⟨e1.symm, e2.symm, e3.symm⟩
            · simp at h
    · simp at h
  obtain ⟨m1, m2, m3, m4, m5, m6⟩ := main
  refine ⟨m1, m2, m3, m4, m5, m6, ?_⟩
  intro c cs hc ho hs hf
  obtain ⟨e1, e2, e3⟩ := m6 c cs hc
  rw [e1, e2, e3]
  refine ⟨?_, ?_, ?_⟩
  · exact dropWhile_eq_self_of_head _ _
      (fun m ms hm => by simpa using ho m ms hm)
  · exact dropWhile_eq_self_of_head _ _
      (fun m ms hm => by simpa using hs m ms hm)
  · exact dropWhile_eq_self_of_head _ _
      (fun m ms hm => by simpa using hf m ms hm)

end StagingTheorems

/-- Counterexample to C7 as stated: with corner at 1.000, odometry and
full-res at 1.008 and surf at 1.016 the frame is accepted, and the corner and
surf timestamps used for it differ by 0.016 s, more than 10 ms. -/
theorem stage_accepted_not_pairwise :
    (stage spreadHeads).1 = Staging.accepted
      ∧ |(stage spreadHeads).2.timeLaserCloudCornerLast
          - (stage spreadHeads).2.timeLaserCloudSurfLast| > 1 / 100 := by
  norm_num [stage, spreadHeads, mapperWith, msgAt, odomAt, unsyncTest, lt_abs]

/-- Witness for C7 (amended) on the accepted frame `spreadHeads`. -/
theorem stage_accepted_times_near_odometry_witness :
    (stage spreadHeads).1 = Staging.accepted
      ∧ |(stage spreadHeads).2.timeLaserCloudSurfLast
          - (stage spreadHeads).2.timeLaserOdometry| ≤ 1 / 100
      ∧ |(stage spreadHeads).2.timeLaserCloudCornerLast
          - (stage spreadHeads).2.timeLaserCloudSurfLast| ≤ 2 / 100 :=
  ⟨by norm_num [stage, spreadHeads, mapperWith, msgAt, odomAt, unsyncTest, lt_abs],
   (stage_accepted_times_near_odometry spreadHeads
     (by norm_num [stage, spreadHeads, mapperWith, msgAt, odomAt, unsyncTest, lt_abs])).2.1.2.1,
   (stage_accepted_times_near_odometry spreadHeads
     (by norm_num [stage, spreadHeads, mapperWith, msgAt, odomAt, unsyncTest, lt_abs])).2.2.1⟩

/-- Counterexample to C8 as stated: with a surf message of t = 0.90 in front
of the S4 queues the frame is rejected as unsynchronised, and the surf queue
has lost that message (one message left of two). -/
theorem stage_unsync_mutates_queue :
    (stage desyncStaleSurf).1 = Staging.unsync
      ∧ desyncStaleSurf.surfLastBuf.length = 2
      ∧ (stage desyncStaleSurf).2.surfLastBuf.length = 1
      ∧ (stage desyncStaleSurf).2.surfLastBuf ≠ desyncStaleSurf.surfLastBuf := by
  have h1 : (stage desyncStaleSurf).1 = Staging.unsync := by
    norm_num [stage, desyncStaleSurf, mapperWith, msgAt, odomAt, unsyncTest, lt_abs]
  have h2 : (stage desyncStaleSurf).2.surfLastBuf.length = 1 := by
    norm_num [stage, desyncStaleSurf, mapperWith, msgAt, odomAt, unsyncTest, lt_abs]
  refine ⟨h1, rfl, h2, ?_⟩
  intro hEq
  rw [hEq] at h2
  exact absurd h2 (by decide)

/-- Witness for C8 (amended) on S4: the frame is rejected and the pose, the
cube map and all four queues are as before. -/
theorem stage_unsync_effect_witness :
    (stage desyncS4).1 = Staging.unsync
      ∧ (stage desyncS4).2.pose = desyncS4.pose
      ∧ (stage desyncS4).2.map = desyncS4.map
      ∧ (stage desyncS4).2.cornerLastBuf = desyncS4.cornerLastBuf
      ∧ ((stage desyncS4).2.odometryBuf = desyncS4.odometryBuf
        ∧ (stage desyncS4).2.surfLastBuf = desyncS4.surfLastBuf
        ∧ (stage desyncS4).2.fullResBuf = desyncS4.fullResBuf) :=
  have hu : (stage desyncS4).1 = Staging.unsync := by
    norm_num [stage, desyncS4, mapperWith, msgAt, odomAt, unsyncTest, lt_abs]
  ⟨hu, (stage_unsync_effect desyncS4 hu).1, (stage_unsync_effect desyncS4 hu).2.1,
   (stage_unsync_effect desyncS4 hu).2.2.1,
   (stage_unsync_effect desyncS4 hu).2.2.2.2.2.2 (msgAt 1) [] rfl
     (by
       intro m ms hm
       simp only [desyncS4, mapperWith, List.cons.injEq] at hm
       obtain ⟨rfl, -⟩ := hm
       norm_num [msgAt, odomAt])
     (by
       intro m ms hm
       simp only [desyncS4, mapperWith, List.cons.injEq] at hm
       obtain ⟨rfl, -⟩ := hm
       norm_num [msgAt])
     (by
       intro m ms hm
       simp only [desyncS4, mapperWith, List.cons.injEq] at hm
       obtain ⟨rfl, -⟩ := hm
       norm_num [msgAt])⟩

/-! ### Dynamic-object removal -/

section RemovalTheorems

variable {K : Type} [LinearOrderedField K]

theorem removalLoop_upto_eq_filter (fr : RemovalFrame K) (henable : fr.removeEnable = true)
    (laserCloudStack : Cloud K) (n : Nat) :
    forRange n (removalStep fr) laserCloudStack
      = laserCloudStack.filter (fun p => decide (∀ i, i < n →
          fr.dynamicAt i → rangeCond (fr.clusterAt i) fr.stddev p)) := by
  induction n with
  | zero => simp [forRange_zero]
  | succ n ih =>
    rw [forRange_succ, ih]
    unfold removalStep conditionalRemoval
    by_cases hd : fr.dynamicAt n
    · rw [if_pos hd, if_pos henable, List.filter_filter]
      apply List.filter_congr
      intro p _
      by_cases hc : rangeCond (fr.clusterAt n) fr.stddev p
      · have hiff : (∀ i, i < n + 1 → fr.dynamicAt i → rangeCond (fr.clusterAt i) fr.stddev p)
            ↔ (∀ i, i < n → fr.dynamicAt i → rangeCond (fr.clusterAt i) fr.stddev p) := by
          constructor
          · intro h i hi
            exact h i (by omega)
          · intro h i hi hdi
            by_cases hin : i = n
            · subst hin
              exact hc
            · exact h i (by omega) hdi
        simp only [hc, decide_True, Bool.true_and, hiff]
      · have hno : ¬ (∀ i, i < n + 1 → fr.dynamicAt i → rangeCond (fr.clusterAt i) fr.stddev p) :=
          fun h => hc (h n (by omega) hd)
        simp only [hc, hno, decide_False, Bool.false_and]
    · rw [if_neg hd]
      apply List.filter_congr
      intro p _
      have hiff : (∀ i, i < n + 1 → fr.dynamicAt i → rangeCond (fr.clusterAt i) fr.stddev p)
          ↔ (∀ i, i < n → fr.dynamicAt i → rangeCond (fr.clusterAt i) fr.stddev p) := by
        constructor
        · intro h i hi
          exact h i (by omega)
        · intro h i hi hdi
          by_cases hin : i = n
          · subst hin
            exact absurd hdi hd
          · exact h i (by omega) hdi
      simp only [hiff]

/-- C9, amended (the dynamic predicate is applied per association): with
`removeEnable` set, the removal loop keeps, in order, exactly the stack points
that lie outside the expanded box of every association `i` with
`speed[i] > maxObjectSpeed` or `dist[cluster id] > maxClassDist`; the box of a
cluster is applied only through an association that refers to it. -/
theorem removalLoop_eq_filter (fr : RemovalFrame K) (henable : fr.removeEnable = true)
    (laserCloudStack : Cloud K) :
    removalLoop fr laserCloudStack
      = laserCloudStack.filter (fun p => decide (∀ i, i < fr.associations.length →
          fr.dynamicAt i → rangeCond (fr.clusterAt i) fr.stddev p)) :=
  removalLoop_upto_eq_filter fr henable laserCloudStack fr.associations.length

/-- C10 (dynamic-filter idempotence): when the dynamic predicate holds at no
association of the frame, the removal loop returns the stack as it was. -/
theorem removalLoop_id_of_no_dynamic (fr : RemovalFrame K) (laserCloudStack : Cloud K)
    (hnone : ∀ i, i < fr.associations.length → ¬ fr.dynamicAt i) :
    removalLoop fr laserCloudStack = laserCloudStack := by
  unfold removalLoop
  have key : ∀ n, n ≤ fr.associations.length →
      forRange n (removalStep fr) laserCloudStack = laserCloudStack := by
    intro n
    induction n with
    | zero =>
      intro _
      exact forRange_zero _ _
    | succ n ih =>
      intro hn
      rw [forRange_succ, ih (by omega)]
      unfold removalStep
      rw [if_neg (hnone n (by omega))]
  exact key _ le_rfl

end RemovalTheorems

/-- Counterexample to C9 as stated: the only cluster of `unassociatedFrame`
has displacement score 1 above `maxClassDist = 3/20`, the first stack point
lies inside its box, and the removal loop (with `removeEnable` set) leaves the
stack as it was: the cluster satisfies the predicate and its box is not
applied, because no association refers to it. -/
theorem removalLoop_skips_unassociated_cluster :
    unassociatedFrame.dist.getD (unitBoxCluster 0).id 0 > unassociatedFrame.maxClassDist
      ∧ unassociatedFrame.removeEnable = true
      ∧ ¬ rangeCond (unitBoxCluster 0) unassociatedFrame.stddev (pointAt (1 / 2) (1 / 2) (1 / 2))
      ∧ removalLoop unassociatedFrame sampleStack = sampleStack := by
  refine ⟨?_, rfl, ?_, rfl⟩
  · norm_num [unassociatedFrame, unitBoxCluster]
  · norm_num [rangeCond, unassociatedFrame, unitBoxCluster, pointAt]

/-- Witness for C9 (amended) on `associatedFrame`: the same cluster, now
referred to by an association, has its box applied and the point inside it is
removed. -/
theorem removalLoop_eq_filter_witness :
    associatedFrame.removeEnable = true
      ∧ removalLoop associatedFrame sampleStack = [pointAt 2 0 0] :=
  ⟨rfl, (removalLoop_eq_filter associatedFrame rfl sampleStack).trans (by
    have h0 : associatedFrame.dynamicAt 0 := by
      norm_num [RemovalFrame.dynamicAt, RemovalFrame.clusterAt, associatedFrame, unitBoxCluster]
    have hin : ¬ rangeCond (associatedFrame.clusterAt 0) associatedFrame.stddev
        (pointAt (1 / 2) (1 / 2) (1 / 2)) := by
      norm_num [rangeCond, RemovalFrame.clusterAt, associatedFrame, unitBoxCluster, pointAt]
    have hout : rangeCond (associatedFrame.clusterAt 0) associatedFrame.stddev
        (pointAt 2 0 0) := by
      norm_num [rangeCond, RemovalFrame.clusterAt, associatedFrame, unitBoxCluster, pointAt]
    have e1 : ¬ (∀ i, i < associatedFrame.associations.length → associatedFrame.dynamicAt i →
        rangeCond (associatedFrame.clusterAt i) associatedFrame.stddev
          (pointAt (1 / 2) (1 / 2) (1 / 2))) :=
      fun h => hin (h 0 (by decide) h0)
    have e2 : ∀ i, i < associatedFrame.associations.length → associatedFrame.dynamicAt i →
        rangeCond (associatedFrame.clusterAt i) associatedFrame.stddev (pointAt 2 0 0) := by
      intro i hi _
      have hi0 : i = 0 := by
        simp only [associatedFrame, List.length_singleton] at hi
        omega
      subst hi0
      exact hout
    simp only [sampleStack, List.filter, decide_eq_false e1, decide_eq_true e2])⟩

/-- Witness for C10 on `staticFrame`. -/
theorem removalLoop_id_of_no_dynamic_witness :
    (∀ i, i < staticFrame.associations.length → ¬ staticFrame.dynamicAt i)
      ∧ removalLoop staticFrame sampleStack = sampleStack :=
  have hnone : ∀ i, i < staticFrame.associations.length → ¬ staticFrame.dynamicAt i := by
    intro i hi
    have hi0 : i = 0 := by
      simp only [staticFrame, List.length_singleton] at hi
      omega
    subst hi0
    norm_num [RemovalFrame.dynamicAt, RemovalFrame.clusterAt, staticFrame, unitBoxCluster]
  ⟨hnone, removalLoop_id_of_no_dynamic staticFrame sampleStack hnone⟩

/-! ### Adaptive resolution control -/

section AdaptiveTheorems

variable {K : Type} [LinearOrderedField K]

theorem rate_bounds (f : FrameLoad K)
    (hne : 0 < f.laserCloudCornerStackNum + f.laserCloudSurfStackNum) :
    (0 ≤ rate_conner f ∧ rate_conner f ≤ 1 / 10)
      ∧ (0 ≤ rate_surf f ∧ rate_surf f ≤ 1 / 10)
      ∧ rate_conner f + rate_surf f = 1 / 10 := by
  have hpos : (0 : K) < ((f.laserCloudCornerStackNum + f.laserCloudSurfStackNum : Nat) : K) := by
    exact_mod_cast hne
  have hc : (0 : K) ≤ (f.laserCloudCornerStackNum : K) := Nat.cast_nonneg _
  have hs : (0 : K) ≤ (f.laserCloudSurfStackNum : K) := Nat.cast_nonneg _
  have h0 : 0 ≤ rate_conner f := by
    unfold rate_conner
    exact div_nonneg (mul_nonneg (by norm_num) hc) (le_of_lt hpos)
  have h1 : rate_conner f ≤ 1 / 10 := by
    unfold rate_conner
    rw [div_le_iff₀ hpos]
    push_cast
    nlinarith
  refine ⟨⟨h0, h1⟩, ⟨?_, ?_⟩, ?_⟩
  · unfold rate_surf
    linarith
  · unfold rate_surf
    linarith
  · unfold rate_surf
    ring

theorem adaptStep_floor (autoMapping : Bool) (autoMappingTime : K) (f : FrameLoad K)
    (r : Resolution K)
    (hne : 0 < f.laserCloudCornerStackNum + f.laserCloudSurfStackNum)
    (hl : 2 / 100 ≤ r.lineRes) (hp : 2 / 100 ≤ r.planeRes) :
    2 / 100 ≤ (adaptStep autoMapping autoMappingTime f r).lineRes
      ∧ 2 / 100 ≤ (adaptStep autoMapping autoMappingTime f r).planeRes := by
  obtain ⟨⟨hc0, _⟩, ⟨hs0, _⟩, _⟩ := rate_bounds f hne
  unfold adaptStep
  cases autoMapping with
  | false => exact ⟨hl, hp⟩
  | true =>
    simp only [if_true]
    by_cases h1 : f.mapping_whole > autoMappingTime * (11 / 10)
    · simp only [h1, if_true]
      have hl0 : 0 ≤ r.lineRes := le_trans (by norm_num) hl
      have hp0 : 0 ≤ r.planeRes := le_trans (by norm_num) hp
      constructor
      · linarith [mul_nonneg hl0 hc0]
      · linarith [mul_nonneg hp0 hs0]
    · simp only [h1, if_false]
      by_cases h2 : f.mapping_whole < autoMappingTime * (9 / 10)
      · simp only [h2, if_true]
        constructor
        · split
          · linarith
          · exact le_refl _
        · split
          · linarith
          · exact le_refl _
      · simp only [h2, if_false]
        exact ⟨hl, hp⟩

/-- C12, amended (resolution floor as an invariant): if the configured initial
resolutions are at least 0.02, then after any number of frames with non-empty
stacks, whatever the measured times and the `auto_mapping` setting,
`lineRes ≥ 0.02` and `planeRes ≥ 0.02`. -/
theorem adaptRun_floor (autoMapping : Bool) (autoMappingTime : K)
    (frames : List (FrameLoad K)) (r : Resolution K)
    (hne : ∀ f ∈ frames, 0 < f.laserCloudCornerStackNum + f.laserCloudSurfStackNum)
    (hl : 2 / 100 ≤ r.lineRes) (hp : 2 / 100 ≤ r.planeRes) :
    2 / 100 ≤ (adaptRun autoMapping autoMappingTime frames r).lineRes
      ∧ 2 / 100 ≤ (adaptRun autoMapping autoMappingTime frames r).planeRes := by
  unfold adaptRun
  induction frames generalizing r with
  | nil => exact ⟨hl, hp⟩
  | cons f fs ih =>
    have hstep := adaptStep_floor autoMapping autoMappingTime f r
      (hne f (List.mem_cons_self _ _)) hl hp
    simp only [List.foldl_cons]
    exact ih _ (fun g hg => hne g (List.mem_cons_of_mem _ hg)) hstep.1 hstep.2

/-- C13 (adaptive monotonicity): with `auto_mapping` on, non-negative
resolutions and a non-empty stack, a frame with `T_whole > 1.1 * T_target`
leaves both resolutions at least as large as before, and a frame with
`T_whole < 0.9 * T_target` and previous resolutions at least 0.02 leaves both
at most as large as before (the measured time or the budget being, as a
duration is, non-negative). -/
theorem adaptStep_monotone (autoMappingTime : K) (f : FrameLoad K) (r : Resolution K)
    (hne : 0 < f.laserCloudCornerStackNum + f.laserCloudSurfStackNum)
    (htime : 0 ≤ f.mapping_whole ∨ 0 ≤ autoMappingTime)
    (hl : 0 ≤ r.lineRes) (hp : 0 ≤ r.planeRes) :
    (f.mapping_whole > autoMappingTime * (11 / 10) →
        r.lineRes ≤ (adaptStep true autoMappingTime f r).lineRes
          ∧ r.planeRes ≤ (adaptStep true autoMappingTime f r).planeRes)
      ∧ (f.mapping_whole < autoMappingTime * (9 / 10) →
          2 / 100 ≤ r.lineRes → 2 / 100 ≤ r.planeRes →
          (adaptStep true autoMappingTime f r).lineRes ≤ r.lineRes
            ∧ (adaptStep true autoMappingTime f r).planeRes ≤ r.planeRes) := by
  obtain ⟨⟨hc0, _⟩, ⟨hs0, _⟩, _⟩ := rate_bounds f hne
  constructor
  · intro h1
    unfold adaptStep
    simp only [if_true, h1]
    constructor
    · linarith [mul_nonneg hl hc0]
    · linarith [mul_nonneg hp hs0]
  · intro h2 hl2 hp2
    have h1 : ¬ (f.mapping_whole > autoMappingTime * (11 / 10)) := by
      intro h1
      rcases htime with ht | ht
      · linarith
      · linarith
    unfold adaptStep
    simp only [if_true, h1, h2, if_false]
    constructor
    · split
      · linarith [mul_nonneg hl hc0]
      · exact hl2
    · split
      · linarith [mul_nonneg hp hs0]
      · exact hp2

/-- C14 (coarsening law): with `auto_mapping` on, over any sequence of frames
(in particular any ten) that each took more than `1.1 * auto_mapping_time`
with a non-empty stack, the final `lineRes` is the initial one times the
product of the `1 + rate_conner`, the final `planeRes` the initial one times
the product of the `1 + rate_surf`, and in every frame both rates lie in
`[0, 0.1]` and add up to `0.1`. -/
theorem adaptRun_coarsening (autoMappingTime : K) (frames : List (FrameLoad K))
    (r : Resolution K)
    (hover : ∀ f ∈ frames, f.mapping_whole > autoMappingTime * (11 / 10))
    (hne : ∀ f ∈ frames, 0 < f.laserCloudCornerStackNum + f.laserCloudSurfStackNum) :
    (adaptRun true autoMappingTime frames r).lineRes
        = r.lineRes * (frames.map (fun f => 1 + rate_conner f)).prod
      ∧ (adaptRun true autoMappingTime frames r).planeRes
        = r.planeRes * (frames.map (fun f => 1 + rate_surf f)).prod
      ∧ ∀ f ∈ frames, (0 ≤ rate_conner f ∧ rate_conner f ≤ 1 / 10)
          ∧ (0 ≤ rate_surf f ∧ rate_surf f ≤ 1 / 10)
          ∧ rate_conner f + rate_surf f = 1 / 10 := by
  have hprod : ∀ (fs : List (FrameLoad K)) (r : Resolution K),
      (∀ f ∈ fs, f.mapping_whole > autoMappingTime * (11 / 10)) →
      (adaptRun true autoMappingTime fs r).lineRes
          = r.lineRes * (fs.map (fun f => 1 + rate_conner f)).prod
        ∧ (adaptRun true autoMappingTime fs r).planeRes
          = r.planeRes * (fs.map (fun f => 1 + rate_surf f)).prod := by
    intro fs
    induction fs with
    | nil =>
      intro r _
      simp [adaptRun]
    | cons f fs ih =>
      intro r hov
      have h1 := hov f (List.mem_cons_self _ _)
      have hrec := ih (adaptStep true autoMappingTime f r)
        (fun g hg => hov g (List.mem_cons_of_mem _ hg))
      unfold adaptRun at hrec ⊢
      simp only [List.foldl_cons, List.map_cons, List.prod_cons]
      rw [hrec.1, hrec.2]
      unfold adaptStep
      simp only [if_true, h1]
      constructor
      · ring
      · ring
  exact ⟨(hprod frames r hover).1, (hprod frames r hover).2,
    fun f hf => rate_bounds f (hne f hf)⟩

end AdaptiveTheorems

/-- Counterexample to C12 as stated: from a configured
`mapping_line_resolution = 0.01` the initial `lineRes` is below 0.02, and it is
still below 0.02 (0.01025) after a coarsening frame of 500 ms against a budget
of 400 ms. -/
theorem adaptRun_below_floor :
    fineInit.lineRes < 2 / 100
      ∧ (adaptRun true 400 [slowFrame] fineInit).lineRes = 41 / 4000
      ∧ (adaptRun true 400 [slowFrame] fineInit).lineRes < 2 / 100 := by
  have h : (adaptRun true 400 [slowFrame] fineInit).lineRes = 41 / 4000 := by
    norm_num [adaptRun, adaptStep, rate_conner, slowFrame, fineInit]
  refine ⟨by norm_num [fineInit], h, ?_⟩
  rw [h]
  norm_num

/-- Witness for C12 (amended): from the default resolutions, after ten fast
frames against a budget of 400 ms. -/
theorem adaptRun_floor_witness :
    (2 : ℚ) / 100 ≤ defaultInit.lineRes
      ∧ 2 / 100 ≤ (adaptRun true 400 s5Frames defaultInit).lineRes
      ∧ 2 / 100 ≤ (adaptRun true 400 s5Frames defaultInit).planeRes :=
  ⟨by norm_num [defaultInit],
   adaptRun_floor true 400 s5Frames defaultInit
     (by
       intro f hf
       rw [List.eq_of_mem_replicate hf]
       decide)
     (by norm_num [defaultInit]) (by norm_num [defaultInit])⟩

/-- Witness for C13: a slow frame and a fast frame against a budget of
400 ms, from the default resolutions. -/
theorem adaptStep_monotone_witness :
    (slowFrame.mapping_whole > 400 * (11 / 10)
        ∧ defaultInit.lineRes ≤ (adaptStep true 400 slowFrame defaultInit).lineRes
        ∧ defaultInit.planeRes ≤ (adaptStep true 400 slowFrame defaultInit).planeRes)
      ∧ (fastFrame.mapping_whole < 400 * (9 / 10)
        ∧ (adaptStep true 400 fastFrame defaultInit).lineRes ≤ defaultInit.lineRes
        ∧ (adaptStep true 400 fastFrame defaultInit).planeRes ≤ defaultInit.planeRes) :=
  ⟨⟨by norm_num [slowFrame],
    (adaptStep_monotone 400 slowFrame defaultInit (by decide) (Or.inl (by norm_num [slowFrame]))
      (by norm_num [defaultInit]) (by norm_num [defaultInit])).1 (by norm_num [slowFrame])⟩,
   ⟨by norm_num [fastFrame],
    (adaptStep_monotone 400 fastFrame defaultInit (by decide) (Or.inl (by norm_num [fastFrame]))
      (by norm_num [defaultInit]) (by norm_num [defaultInit])).2 (by norm_num [fastFrame])
      (by norm_num [defaultInit]) (by norm_num [defaultInit])⟩⟩

/-- Witness for C14 on S5: ten frames of 100 ms against `auto_mapping_time = 1`,
each with one edge and three plane points, from the default resolutions:
`lineRes` ends at `0.1 * 1.025^10` and `planeRes` at `0.1 * 1.075^10`. -/
theorem adaptRun_coarsening_witness :
    s5Frames.length = 10
      ∧ (adaptRun true 1 s5Frames defaultInit).lineRes = 1 / 10 * (41 / 40) ^ 10
      ∧ (adaptRun true 1 s5Frames defaultInit).planeRes = 1 / 10 * (43 / 40) ^ 10 :=
  have h := adaptRun_coarsening (1 : ℚ) s5Frames defaultInit
    (by
      intro f hf
      rw [List.eq_of_mem_replicate hf]
      norm_num [fastFrame])
    (by
      intro f hf
      rw [List.eq_of_mem_replicate hf]
      decide)
  ⟨rfl,
   h.1.trans (by
     simp only [s5Frames, List.map_replicate, List.prod_replicate, defaultInit]
     norm_num [rate_conner, fastFrame]),
   h.2.1.trans (by
     simp only [s5Frames, List.map_replicate, List.prod_replicate, defaultInit]
     norm_num [rate_surf, rate_conner, fastFrame])⟩

/-! ### Insertion -/

section InsertionTheorems

variable {K : Type} [LinearOrderedField K] [FloorRing K]

/-- C16 (insertion): when the cube index `(I, J, K)` of a point, computed
with the current center offsets, is inside the array, the edge (plane)
insertion appends the point to the edge (plane) cloud at flat index
`I + 21 * J + 441 * K` and leaves every other edge (plane) cloud, the whole
other array and the offsets as they were; otherwise the cube map is
unchanged. -/
theorem insert_point (m : CubeMap K) (p : PointType K) :
    ((0 ≤ cubeIndex p.x m.laserCloudCenWidth ∧ cubeIndex p.x m.laserCloudCenWidth < 21
        ∧ 0 ≤ cubeIndex p.y m.laserCloudCenHeight ∧ cubeIndex p.y m.laserCloudCenHeight < 21
        ∧ 0 ≤ cubeIndex p.z m.laserCloudCenDepth ∧ cubeIndex p.z m.laserCloudCenDepth < 11) →
      ((insertCorner m p).laserCloudCornerArray
            (cubeIndex p.x m.laserCloudCenWidth + 21 * cubeIndex p.y m.laserCloudCenHeight
              + 441 * cubeIndex p.z m.laserCloudCenDepth).toNat
          = m.laserCloudCornerArray
              (cubeIndex p.x m.laserCloudCenWidth + 21 * cubeIndex p.y m.laserCloudCenHeight
                + 441 * cubeIndex p.z m.laserCloudCenDepth).toNat ++ [p]
        ∧ (∀ n, n ≠ (cubeIndex p.x m.laserCloudCenWidth
                + 21 * cubeIndex p.y m.laserCloudCenHeight
                + 441 * cubeIndex p.z m.laserCloudCenDepth).toNat →
            (insertCorner m p).laserCloudCornerArray n = m.laserCloudCornerArray n)
        ∧ (insertCorner m p).laserCloudSurfArray = m.laserCloudSurfArray
        ∧ (insertCorner m p).laserCloudCenWidth = m.laserCloudCenWidth
        ∧ (insertCorner m p).laserCloudCenHeight = m.laserCloudCenHeight
        ∧ (insertCorner m p).laserCloudCenDepth = m.laserCloudCenDepth)
      ∧ ((insertSurf m p).laserCloudSurfArray
            (cubeIndex p.x m.laserCloudCenWidth + 21 * cubeIndex p.y m.laserCloudCenHeight
              + 441 * cubeIndex p.z m.laserCloudCenDepth).toNat
          = m.laserCloudSurfArray
              (cubeIndex p.x m.laserCloudCenWidth + 21 * cubeIndex p.y m.laserCloudCenHeight
                + 441 * cubeIndex p.z m.laserCloudCenDepth).toNat ++ [p]
        ∧ (∀ n, n ≠ (cubeIndex p.x m.laserCloudCenWidth
                + 21 * cubeIndex p.y m.laserCloudCenHeight
                + 441 * cubeIndex p.z m.laserCloudCenDepth).toNat →
            (insertSurf m p).laserCloudSurfArray n = m.laserCloudSurfArray n)
        ∧ (insertSurf m p).laserCloudCornerArray = m.laserCloudCornerArray
        ∧ (insertSurf m p).laserCloudCenWidth = m.laserCloudCenWidth
        ∧ (insertSurf m p).laserCloudCenHeight = m.laserCloudCenHeight
        ∧ (insertSurf m p).laserCloudCenDepth = m.laserCloudCenDepth))
    ∧ (¬ (0 ≤ cubeIndex p.x m.laserCloudCenWidth ∧ cubeIndex p.x m.laserCloudCenWidth < 21
        ∧ 0 ≤ cubeIndex p.y m.laserCloudCenHeight ∧ cubeIndex p.y m.laserCloudCenHeight < 21
        ∧ 0 ≤ cubeIndex p.z m.laserCloudCenDepth ∧ cubeIndex p.z m.laserCloudCenDepth < 11) →
      insertCorner m p = m ∧ insertSurf m p = m) := by
  have hidx : (cubeIndex p.x m.laserCloudCenWidth
        + ((laserCloudWidth : Nat) : Int) * cubeIndex p.y m.laserCloudCenHeight
        + ((laserCloudWidth : Nat) : Int) * ((laserCloudHeight : Nat) : Int)
          * cubeIndex p.z m.laserCloudCenDepth)
      = cubeIndex p.x m.laserCloudCenWidth + 21 * cubeIndex p.y m.laserCloudCenHeight
        + 441 * cubeIndex p.z m.laserCloudCenDepth := by
    simp only [laserCloudWidth, laserCloudHeight, Nat.cast_ofNat]
    ring
  constructor
  · intro hin
    have hin' : 0 ≤ cubeIndex p.x m.laserCloudCenWidth
        ∧ cubeIndex p.x m.laserCloudCenWidth < ((laserCloudWidth : Nat) : Int)
        ∧ 0 ≤ cubeIndex p.y m.laserCloudCenHeight
        ∧ cubeIndex p.y m.laserCloudCenHeight < ((laserCloudHeight : Nat) : Int)
        ∧ 0 ≤ cubeIndex p.z m.laserCloudCenDepth
        ∧ cubeIndex p.z m.laserCloudCenDepth < ((laserCloudDepth : Nat) : Int) := hin
    refine ⟨⟨?_, ?_, rfl, rfl, rfl, rfl⟩, ⟨?_, ?_, rfl, rfl, rfl, rfl⟩⟩
    · simp only [insertCorner, insertInto, hin', if_true, and_self, hidx]
      exact Function.update_same _ _ _
    · intro n hn
      simp only [insertCorner, insertInto, hin', if_true, and_self, hidx]
      exact Function.update_noteq hn _ _
    · simp only [insertSurf, insertInto, hin', if_true, and_self, hidx]
      exact Function.update_same _ _ _
    · intro n hn
      simp only [insertSurf, insertInto, hin', if_true, and_self, hidx]
      exact Function.update_noteq hn _ _
  · intro hout
    have hout' : ¬ (0 ≤ cubeIndex p.x m.laserCloudCenWidth
        ∧ cubeIndex p.x m.laserCloudCenWidth < ((laserCloudWidth : Nat) : Int)
        ∧ 0 ≤ cubeIndex p.y m.laserCloudCenHeight
        ∧ cubeIndex p.y m.laserCloudCenHeight < ((laserCloudHeight : Nat) : Int)
        ∧ 0 ≤ cubeIndex p.z m.laserCloudCenDepth
        ∧ cubeIndex p.z m.laserCloudCenDepth < ((laserCloudDepth : Nat) : Int)) := hout
    constructor
    · simp only [insertCorner, insertInto, hout', if_false]
    · simp only [insertSurf, insertInto, hout', if_false]

end InsertionTheorems

theorem cubeIndex_origin (cen : Int) : cubeIndex (0 : ℚ) cen = cen := by
  have hv : ⌊((0 : ℚ) + 25) / 50⌋ = 0 := by
    rw [Int.floor_eq_iff]
    norm_num
  unfold cubeIndex truncToInt
  have h1 : (0 : ℚ) ≤ (0 + 25) / 50 := by norm_num
  have h2 : ¬ ((0 : ℚ) + 25 < 0) := by norm_num
  simp only [h1, h2, if_true, if_false, hv]
  ring

theorem cubeIndex_far (cen : Int) : cubeIndex (2000 : ℚ) cen = 40 + cen := by
  have hv : ⌊((2000 : ℚ) + 25) / 50⌋ = 40 := by
    rw [Int.floor_eq_iff]
    norm_num
  unfold cubeIndex truncToInt
  have h1 : (0 : ℚ) ≤ (2000 + 25) / 50 := by norm_num
  have h2 : ¬ ((2000 : ℚ) + 25 < 0) := by norm_num
  simp only [h1, h2, if_true, if_false, hv]

/-- Witness for C16: a point at the origin goes to the edge cloud of cube
`(10, 10, 5)` of the empty map, flat index 2425; a point at `x = 2000` has cube
index 50 along `i` and is dropped. -/
theorem insert_point_witness :
    (insertCorner emptyMap (pointAt 0 0 0)).laserCloudCornerArray 2425 = [pointAt 0 0 0]
      ∧ insertCorner emptyMap (pointAt 2000 0 0) = emptyMap :=
  ⟨by
    have h := ((insert_point emptyMap (pointAt 0 0 0)).1 (by
      simp only [pointAt, emptyMap, cubeIndex_origin]
      decide)).1.1
    simp only [pointAt, emptyMap, cubeIndex_origin] at h
    simpa [pointAt, emptyMap] using h,
   ((insert_point emptyMap (pointAt 2000 0 0)).2 (by
      simp only [pointAt, emptyMap, cubeIndex_far]
      decide)).1⟩

/-! ### Voxel filter and the per-cube filter stage -/

section SumBounds

variable {K : Type} [LinearOrderedField K]

theorem length_mul_le_sum (l : List K) (a : K) (h : ∀ v ∈ l, a ≤ v) :
    (l.length : K) * a ≤ l.sum := by
  induction l with
  | nil => simp
  | cons v vs ih =>
    have h1 := h v (List.mem_cons_self _ _)
    have h2 := ih (fun w hw => h w (List.mem_cons_of_mem _ hw))
    simp only [List.length_cons, List.sum_cons, Nat.cast_add, Nat.cast_one]
    linarith

theorem sum_lt_length_mul (l : List K) (b : K) (h : ∀ v ∈ l, v < b) (hne : l ≠ []) :
    l.sum < (l.length : K) * b := by
  induction l with
  | nil => exact absurd rfl hne
  | cons v vs ih =>
    have h1 := h v (List.mem_cons_self _ _)
    simp only [List.length_cons, List.sum_cons, Nat.cast_add, Nat.cast_one]
    by_cases hvs : vs = []
    · subst hvs
      simp only [List.sum_nil, List.length_nil, Nat.cast_zero]
      linarith
    · have h2 := ih (fun w hw => h w (List.mem_cons_of_mem _ hw)) hvs
      linarith

end SumBounds

section VoxelTheorems

variable {K : Type} [LinearOrderedField K] [FloorRing K]

/-- The mean of values that share a grid coordinate has that grid coordinate. -/
theorem floor_mean_eq (leaf : K) (hleaf : 0 < leaf) (l : List K) (hne : l ≠ []) (k : Int)
    (h : ∀ v ∈ l, ⌊v / leaf⌋ = k) : ⌊l.sum / (l.length : K) / leaf⌋ = k := by
  have hlen : (0 : K) < (l.length : K) := by
    have : 0 < l.length := List.length_pos.mpr hne
    exact_mod_cast this
  have hlo : ∀ v ∈ l, (k : K) * leaf ≤ v := by
    intro v hv
    have := (Int.floor_eq_iff.mp (h v hv)).1
    rwa [le_div_iff₀ hleaf] at this
  have hhi : ∀ v ∈ l, v < ((k : K) + 1) * leaf := by
    intro v hv
    have := (Int.floor_eq_iff.mp (h v hv)).2
    rwa [div_lt_iff₀ hleaf] at this
  have h1 := length_mul_le_sum l _ hlo
  have h2 := sum_lt_length_mul l _ hhi hne
  rw [Int.floor_eq_iff]
  constructor
  · rw [le_div_iff₀ hleaf, le_div_iff₀ hlen]
    linarith
  · rw [div_lt_iff₀ hleaf, div_lt_iff₀ hlen]
    linarith

theorem voxelCell_centroid (leaf : K) (hleaf : 0 < leaf) (pts : Cloud K) (hne : pts ≠ [])
    (c : Int × Int × Int) (h : ∀ p ∈ pts, voxelCell leaf p = c) :
    voxelCell leaf (centroid pts) = c := by
  have hmap : ∀ g : PointType K → K, pts.map g ≠ [] := by
    intro g hg
    exact hne (List.map_eq_nil_iff.mp hg)
  have hx := floor_mean_eq leaf hleaf (pts.map (fun p => p.x)) (hmap _) c.1 (by
    intro v hv
    obtain ⟨p, hp, rfl⟩ := List.mem_map.mp hv
    exact congrArg (fun t => t.1) (h p hp))
  have hy := floor_mean_eq leaf hleaf (pts.map (fun p => p.y)) (hmap _) c.2.1 (by
    intro v hv
    obtain ⟨p, hp, rfl⟩ := List.mem_map.mp hv
    exact congrArg (fun t => t.2.1) (h p hp))
  have hz := floor_mean_eq leaf hleaf (pts.map (fun p => p.z)) (hmap _) c.2.2 (by
    intro v hv
    obtain ⟨p, hp, rfl⟩ := List.mem_map.mp hv
    exact congrArg (fun t => t.2.2) (h p hp))
  simp only [List.length_map] at hx hy hz
  simp only [voxelCell, centroid, hx, hy, hz]

/-- The cells of the output of the voxel filter are the distinct cells of its
input. -/
theorem voxelGrid_cells (leaf : K) (hleaf : 0 < leaf) (input : Cloud K) :
    (voxelGrid leaf input).map (voxelCell leaf) = (input.map (voxelCell leaf)).dedup := by
  unfold voxelGrid
  rw [List.map_map]
  have hid : ∀ c ∈ (input.map (voxelCell leaf)).dedup,
      (voxelCell leaf ∘ fun c => centroid (input.filter (fun p => voxelCell leaf p = c))) c
        = id c := by
    intro c hc
    have hc' : c ∈ input.map (voxelCell leaf) := List.mem_dedup.mp hc
    obtain ⟨q, hq, hqc⟩ := List.mem_map.mp hc'
    simp only [Function.comp, id]
    apply voxelCell_centroid leaf hleaf
    · intro hnil
      have hmem : q ∈ input.filter (fun p => voxelCell leaf p = c) := by
        simp [List.mem_filter, hq, hqc]
      rw [hnil] at hmem
      exact List.not_mem_nil _ hmem
    · intro p hp
      simpa using (List.mem_filter.mp hp).2
  rw [List.map_congr_left hid, List.map_id]

theorem voxelGrid_onePerCell (leaf : K) (hleaf : 0 < leaf) (input : Cloud K) :
    OnePerCell leaf (voxelGrid leaf input) := by
  unfold OnePerCell
  rw [voxelGrid_cells leaf hleaf]
  exact List.nodup_dedup _

theorem voxelGrid_length_le (leaf : K) (input : Cloud K) :
    (voxelGrid leaf input).length ≤ input.length := by
  unfold voxelGrid
  rw [List.length_map]
  have := (List.dedup_sublist (input.map (voxelCell leaf))).length_le
  simpa using this

theorem voxelGrid_ne_nil (leaf : K) (input : Cloud K) (hne : input ≠ []) :
    voxelGrid leaf input ≠ [] := by
  unfold voxelGrid
  intro h
  rw [List.map_eq_nil_iff] at h
  cases input with
  | nil => exact hne rfl
  | cons p ps =>
    have hmem : voxelCell leaf p ∈ ((p :: ps).map (voxelCell leaf)).dedup :=
      List.mem_dedup.mpr (List.mem_map.mpr ⟨p, List.mem_cons_self _ _, rfl⟩)
    rw [h] at hmem
    exact List.not_mem_nil _ hmem

end VoxelTheorems

section FilterStageTheorems

variable {K : Type} [LinearOrderedField K] [FloorRing K]

theorem filterStage_arrays (lineRes planeRes : K) (l : List Nat) (m : CubeMap K) :
    (filterStage lineRes planeRes l m).laserCloudCornerArray
        = l.foldl (fun a ind => Function.update a ind (voxelGrid lineRes (a ind)))
            m.laserCloudCornerArray
      ∧ (filterStage lineRes planeRes l m).laserCloudSurfArray
        = l.foldl (fun a ind => Function.update a ind (voxelGrid planeRes (a ind)))
            m.laserCloudSurfArray
      ∧ (filterStage lineRes planeRes l m).laserCloudCenWidth = m.laserCloudCenWidth
      ∧ (filterStage lineRes planeRes l m).laserCloudCenHeight = m.laserCloudCenHeight
      ∧ (filterStage lineRes planeRes l m).laserCloudCenDepth = m.laserCloudCenDepth := by
  unfold filterStage
  induction l generalizing m with
  | nil => exact ⟨rfl, rfl, rfl, rfl, rfl⟩
  | cons ind rest ih =>
    simp only [List.foldl_cons]
    exact ih (filterStep lineRes planeRes ind m)

theorem filterArray_spec (leaf : K) (hleaf : 0 < leaf) (l : List Nat) (arr : Nat → Cloud K)
    (n : Nat) :
    (n ∈ l → OnePerCell leaf
        (l.foldl (fun a ind => Function.update a ind (voxelGrid leaf (a ind))) arr n))
      ∧ (n ∉ l →
        l.foldl (fun a ind => Function.update a ind (voxelGrid leaf (a ind))) arr n = arr n)
      ∧ (l.foldl (fun a ind => Function.update a ind (voxelGrid leaf (a ind))) arr n).length
          ≤ (arr n).length
      ∧ (OnePerCell leaf (arr n) → OnePerCell leaf
          (l.foldl (fun a ind => Function.update a ind (voxelGrid leaf (a ind))) arr n))
      ∧ (arr n ≠ [] →
          l.foldl (fun a ind => Function.update a ind (voxelGrid leaf (a ind))) arr n ≠ []) := by
  induction l generalizing arr with
  | nil =>
    refine ⟨fun h => absurd h (List.not_mem_nil _), fun _ => rfl, le_refl _, fun h => h,
      fun h => h⟩
  | cons ind rest ih =>
    simp only [List.foldl_cons]
    obtain ⟨i1, i2, i3, i4, i5⟩ := ih (Function.update arr ind (voxelGrid leaf (arr ind)))
    by_cases hn : n = ind
    · subst hn
      have hcur : Function.update arr n (voxelGrid leaf (arr n)) n = voxelGrid leaf (arr n) :=
        Function.update_same _ _ _
      rw [hcur] at i2 i3 i4 i5
      refine ⟨fun _ => i4 (voxelGrid_onePerCell leaf hleaf _), ?_, ?_, ?_, ?_⟩
      · intro hnot
        exact absurd (List.mem_cons_self _ _) hnot
      · exact le_trans i3 (voxelGrid_length_le leaf _)
      · intro _
        exact i4 (voxelGrid_onePerCell leaf hleaf _)
      · intro hne
        exact i5 (voxelGrid_ne_nil leaf _ hne)
    · have hcur : Function.update arr ind (voxelGrid leaf (arr ind)) n = arr n :=
        Function.update_noteq hn _ _
      rw [hcur] at i2 i3 i4 i5
      refine ⟨?_, ?_, i3, i4, i5⟩
      · intro hmem
        rcases List.mem_cons.mp hmem with h | h
        · exact absurd h hn
        · exact i1 h
      · intro hnot
        exact i2 (fun h => hnot (List.mem_cons_of_mem _ h))

/-- C15, amended (what the per-cube filter stage bounds): for positive leaf
sizes, after the per-cube filter stage every cube listed in
`laserCloudValidInd` (the working window) holds at most one edge point per
`lineRes`-sized grid cell and at most one plane point per `planeRes`-sized
grid cell; every other cube is exactly as insertion left it; no cube holds
more points than before the stage, so the sum of the point counts of all cubes
is at most what it was after insertion. -/
theorem filterStage_effect (lineRes planeRes : K) (hl : 0 < lineRes) (hp : 0 < planeRes)
    (laserCloudValidInd : List Nat) (m : CubeMap K) :
    (∀ ind ∈ laserCloudValidInd,
        OnePerCell lineRes
            ((filterStage lineRes planeRes laserCloudValidInd m).laserCloudCornerArray ind)
          ∧ OnePerCell planeRes
            ((filterStage lineRes planeRes laserCloudValidInd m).laserCloudSurfArray ind))
      ∧ (∀ n, n ∉ laserCloudValidInd →
          (filterStage lineRes planeRes laserCloudValidInd m).laserCloudCornerArray n
              = m.laserCloudCornerArray n
            ∧ (filterStage lineRes planeRes laserCloudValidInd m).laserCloudSurfArray n
              = m.laserCloudSurfArray n)
      ∧ (∀ n,
          ((filterStage lineRes planeRes laserCloudValidInd m).laserCloudCornerArray n).length
              ≤ (m.laserCloudCornerArray n).length
            ∧ ((filterStage lineRes planeRes laserCloudValidInd m).laserCloudSurfArray n).length
              ≤ (m.laserCloudSurfArray n).length)
      ∧ totalPoints (filterStage lineRes planeRes laserCloudValidInd m) ≤ totalPoints m := by
  obtain ⟨ec, es, _, _, _⟩ := filterStage_arrays lineRes planeRes laserCloudValidInd m
  have hlen : ∀ n,
      ((filterStage lineRes planeRes laserCloudValidInd m).laserCloudCornerArray n).length
          ≤ (m.laserCloudCornerArray n).length
        ∧ ((filterStage lineRes planeRes laserCloudValidInd m).laserCloudSurfArray n).length
          ≤ (m.laserCloudSurfArray n).length := by
    intro n
    rw [ec, es]
    exact ⟨(filterArray_spec lineRes hl _ _ n).2.2.1, (filterArray_spec planeRes hp _ _ n).2.2.1⟩
  refine ⟨?_, ?_, hlen, ?_⟩
  · intro ind hind
    rw [ec, es]
    exact ⟨(filterArray_spec lineRes hl _ _ ind).1 hind,
      (filterArray_spec planeRes hp _ _ ind).1 hind⟩
  · intro n hn
    rw [ec, es]
    exact ⟨(filterArray_spec lineRes hl _ _ n).2.1 hn, (filterArray_spec planeRes hp _ _ n).2.1 hn⟩
  · unfold totalPoints
    apply Finset.sum_le_sum
    intro n _
    exact Nat.add_le_add (hlen n).1 (hlen n).2

theorem filterStage_keeps_nonempty (lineRes planeRes : K) (hl : 0 < lineRes)
    (laserCloudValidInd : List Nat) (m : CubeMap K) (n : Nat)
    (hne : m.laserCloudCornerArray n ≠ []) :
    (filterStage lineRes planeRes laserCloudValidInd m).laserCloudCornerArray n ≠ [] := by
  rw [(filterStage_arrays lineRes planeRes laserCloudValidInd m).1]
  exact (filterArray_spec lineRes hl _ _ n).2.2.2.2 hne

end FilterStageTheorems

/-- Counterexample to C15 as stated: with leaf sizes of 1000 m, one edge point
inserted at the origin into the empty map survives the filter stage of the
window around cube `(10, 10, 5)`, so the cubes hold at least one point, while
`(W * H * D) * (50 / leaf)^3 = 4851 / 8000` is below one. -/
theorem filterStage_exceeds_bound :
    ((laserCloudNum : ℚ) * (50 / 1000) ^ 3 < 1)
      ∧ 1 ≤ totalPoints (filterStage (1000 : ℚ) 1000 (gatherValidInd 10 10 5)
          (insertStacks emptyMap [pointAt 0 0 0] []))
      ∧ ((laserCloudNum : ℚ) * (50 / 1000) ^ 3
          < (totalPoints (filterStage (1000 : ℚ) 1000 (gatherValidInd 10 10 5)
              (insertStacks emptyMap [pointAt 0 0 0] [])) : ℚ)) := by
  have hb : (laserCloudNum : ℚ) * (50 / 1000) ^ 3 < 1 := by
    norm_num [laserCloudNum, laserCloudWidth, laserCloudHeight, laserCloudDepth]
  have hins : (insertStacks emptyMap [pointAt 0 0 0] []).laserCloudCornerArray 2425 ≠ [] := by
    have h := ((insert_point emptyMap (pointAt 0 0 0)).1 (by
      simp only [pointAt, emptyMap, cubeIndex_origin]
      decide)).1.1
    simp only [pointAt, emptyMap, cubeIndex_origin] at h
    have h2 : (insertStacks emptyMap [pointAt 0 0 0] []).laserCloudCornerArray 2425
        = [pointAt 0 0 0] := by
      simpa [insertStacks, pointAt, emptyMap] using h
    rw [h2]
    exact List.cons_ne_nil _ _
  have hkeep := filterStage_keeps_nonempty (1000 : ℚ) 1000 (by norm_num)
    (gatherValidInd 10 10 5) _ 2425 hins
  have hone : 1 ≤ totalPoints (filterStage (1000 : ℚ) 1000 (gatherValidInd 10 10 5)
      (insertStacks emptyMap [pointAt 0 0 0] [])) := by
    unfold totalPoints
    have hmem : 2425 ∈ Finset.range laserCloudNum := by
      simp [laserCloudNum, laserCloudWidth, laserCloudHeight, laserCloudDepth]
    refine le_trans ?_ (Finset.single_le_sum (fun _ _ => Nat.zero_le _) hmem)
    have := List.length_pos.mpr hkeep
    omega
  refine ⟨hb, hone, lt_of_lt_of_le hb ?_⟩
  exact_mod_cast hone

/-- Witness for C15 (amended): at leaf size 1, two edge points of the same
grid cell inserted at cube `(10, 10, 5)` leave one point per cell in that cube
after the filter stage of its window, and the total does not grow. -/
theorem filterStage_effect_witness :
    (1425 + 1000 ∈ gatherValidInd 10 10 5)
      ∧ OnePerCell (1 : ℚ)
          ((filterStage (1 : ℚ) 1 (gatherValidInd 10 10 5)
            (insertStacks emptyMap [pointAt 0 0 0, pointAt (1 / 2) 0 0] [])).laserCloudCornerArray
            2425)
      ∧ totalPoints (filterStage (1 : ℚ) 1 (gatherValidInd 10 10 5)
            (insertStacks emptyMap [pointAt 0 0 0, pointAt (1 / 2) 0 0] []))
          ≤ totalPoints (insertStacks emptyMap [pointAt 0 0 0, pointAt (1 / 2) 0 0] []) :=
  have hmem : 2425 ∈ gatherValidInd 10 10 5 := by decide
  ⟨hmem,
   ((filterStage_effect (1 : ℚ) 1 (by norm_num) (by norm_num) (gatherValidInd 10 10 5)
      (insertStacks emptyMap [pointAt 0 0 0, pointAt (1 / 2) 0 0] [])).1 2425 hmem).1,
   (filterStage_effect (1 : ℚ) 1 (by norm_num) (by norm_num) (gatherValidInd 10 10 5)
      (insertStacks emptyMap [pointAt 0 0 0, pointAt (1 / 2) 0 0] [])).2.2.2⟩

/-! ### Re-split of the combined stack -/

section ResplitTheorems

variable {K : Type} [LinearOrderedField K]

/-- Where the re-split is a partition: on a stack none of whose points has the
curvature tag exactly 0.1, every point is in exactly one sub-stack and the
sizes add up. -/
theorem resplit_partition_off_threshold (laserCloudStack : Cloud K)
    (hoff : ∀ p ∈ laserCloudStack, p.curvature ≠ 1 / 10) :
    (resplit laserCloudStack).1.length + (resplit laserCloudStack).2.length
        = laserCloudStack.length
      ∧ ∀ p ∈ laserCloudStack,
          (p ∈ (resplit laserCloudStack).1 ↔ ¬ p ∈ (resplit laserCloudStack).2) := by
  constructor
  · unfold resplit conditionalRemoval
    induction laserCloudStack with
    | nil => rfl
    | cons p ps ih =>
      have hp := hoff p (List.mem_cons_self _ _)
      have ih' := ih (fun q hq => hoff q (List.mem_cons_of_mem _ hq))
      simp only at ih' ⊢
      rcases lt_or_gt_of_ne hp with h | h
      · have h2 : ¬ surfCond p := not_lt.mpr (le_of_lt h)
        have h1 : cornerCond p := h
        simp only [List.filter_cons, h1, h2, decide_True, decide_False, if_true,
          Bool.false_eq_true, if_false, List.length_cons] at ih' ⊢
        omega
      · have h1 : ¬ cornerCond p := not_lt.mpr (le_of_lt h)
        have h2 : surfCond p := h
        simp only [List.filter_cons, h1, h2, decide_True, decide_False, if_true,
          Bool.false_eq_true, if_false, List.length_cons] at ih' ⊢
        omega
  · intro p hp
    have hne := hoff p hp
    simp only [resplit, conditionalRemoval, List.mem_filter, hp, true_and, decide_eq_true_eq,
      cornerCond, surfCond]
    constructor
    · intro h1 h2
      exact lt_asymm h1 h2
    · intro h2
      rcases lt_or_gt_of_ne hne with h | h
      · exact h
      · exact absurd h h2

end ResplitTheorems

/-- C17 (re-split is a partition), evaluated on the stack of one point whose
curvature tag is exactly 0.1: the point lands in neither sub-stack, so the
sub-stack sizes add up to 0 where the stack has 1 point. -/
theorem resplit_drops_threshold_point :
    resplit [taggedPoint (1 / 10)] = ([], [])
      ∧ (resplit [taggedPoint (1 / 10)]).1.length + (resplit [taggedPoint (1 / 10)]).2.length
          ≠ [taggedPoint (1 / 10)].length := by
  have h : resplit [taggedPoint (1 / 10)] = ([], []) := by
    simp [resplit, conditionalRemoval, cornerCond, surfCond, taggedPoint]
  refine ⟨h, ?_⟩
  rw [h]
  decide

/-! ### Displacement score -/

section DisplacementTheorems

variable {K : Type} [LinearOrderedField K]

/-- The normal slots of a point of the world-frame clouds: `normal_y` holds
the sensor-frame point's `normal_z`, not its `normal_y`. -/
theorem stackToWorld_normals (pose : Pose K) (laserCloudStack2 : Cloud K) :
    (stackToWorld pose laserCloudStack2).map (fun p => (p.normal_x, p.normal_y, p.normal_z))
      = laserCloudStack2.map (fun p => (p.normal_x, p.normal_z, p.normal_z)) := by
  unfold stackToWorld
  rw [List.map_map]
  rfl

end DisplacementTheorems

/-- C18 (displacement score), evaluated on the cluster whose only member is
the stack point with recorded displacement `(3, 4, 0)`, at the identity pose
and whatever the square-root function: the member survives the ground cut, the
code computes `sqrt(9) / sqrt(2)`, from the mean `(3, 0, 0)` of the world-frame
normal slots, where the score of the recorded displacement is
`sqrt(25) / sqrt(2)`. -/
theorem clusterDist_loses_dy (sqrt : ℚ → ℚ) :
    groundCut (-173 / 100) (344 / 100) 1 [displacedPoint] = [displacedPoint]
      ∧ displacedCluster.cloud.map (fun p => (p.normal_x, p.normal_y, p.normal_z)) = [(3, 0, 0)]
      ∧ clusterDist sqrt identityPose displacedCluster = sqrt 9 / sqrt 2
      ∧ displacementScoreSpec sqrt [displacedPoint] ⟨1, 0, 1⟩ = sqrt 25 / sqrt 2 := by
  have hcut : groundCut (-173 / 100) (344 / 100) 1 [displacedPoint] = [displacedPoint] := by
    norm_num [groundCut, passThrough, displacedPoint]
  have hcloud : displacedCluster.cloud = [displacedWorldPoint] := by
    simp only [displacedCluster, hcut]
    norm_num [withoutGroundToWorld, pointAssociateToMap, identityPose, displacedPoint,
      displacedWorldPoint, Quat.rotate, Quat.vec, Vec3.add, Vec3.smul, Vec3.cross]
  refine ⟨hcut, ?_, ?_, ?_⟩
  · rw [hcloud]
    rfl
  · unfold clusterDist
    rw [hcloud]
    norm_num [accumulatorMean, pointAssociateTobeMapped, identityPose, displacedCluster,
      displacedWorldPoint, Quat.inverse, Quat.squaredNorm, Quat.rotate, Quat.vec, Vec3.add, Vec3.sub, Vec3.smul,
      Vec3.cross]
  · norm_num [displacementScoreSpec, accumulatorMean, displacedPoint]

/-! ### The dynamic cloud -/

theorem setIntensity_idem {K : Type} (v : K) (c : Cloud K) :
    setIntensity v (setIntensity v c) = setIntensity v c := by
  unfold setIntensity
  rw [List.map_map]
  rfl

section AssociationTheorems

variable {K : Type} [LinearOrderedField K]

theorem getD_set_cloud (l : List (Cluster K)) (id : Nat) (c : Cluster K) (j : Nat) :
    ((l.set id c).getD j Cluster.none).cloud = (l.getD j Cluster.none).cloud
      ∨ (j = id ∧ (l.set id c).getD j Cluster.none = c) := by
  by_cases hj : j = id
  · subst hj
    by_cases hlt : j < l.length
    · right
      refine ⟨rfl, ?_⟩
      simp [List.getElem?_set_self hlt]
    · left
      have hge : l.length ≤ j := not_lt.mp hlt
      have h1 : (l.set j c)[j]? = none := List.getElem?_eq_none (by simpa using hge)
      have h2 : l[j]? = none := List.getElem?_eq_none hge
      simp [h1, h2]
  · left
    have hne : id ≠ j := fun h => hj h.symm
    simp [List.getElem?_set_ne hne]

theorem associationLoop_upto (fr : RemovalFrame K) (clusters : List (Cluster K))
    (dyn : Cloud K) (n : Nat) :
    (forRange n (associationStep fr) (clusters, dyn)).2
        = dyn ++ (List.range n).flatMap (taggedCloud fr clusters)
      ∧ ∀ i, ((forRange n (associationStep fr) (clusters, dyn)).1.getD (fr.clusterAt i).id
              Cluster.none).cloud
            = (clusters.getD (fr.clusterAt i).id Cluster.none).cloud
          ∨ ((forRange n (associationStep fr) (clusters, dyn)).1.getD (fr.clusterAt i).id
              Cluster.none).cloud
            = taggedCloud fr clusters i := by
  induction n with
  | zero =>
    refine ⟨by simp [forRange_zero], fun i => Or.inl ?_⟩
    rw [forRange_zero]
  | succ n ih =>
    rw [forRange_succ]
    generalize forRange n (associationStep fr) (clusters, dyn) = st at ih ⊢
    obtain ⟨ih1, ih2⟩ := ih
    have hcloud : setIntensity (fr.dist.getD (fr.clusterAt n).id 0)
        (st.1.getD (fr.clusterAt n).id Cluster.none).cloud = taggedCloud fr clusters n := by
      rcases ih2 n with h | h
      · rw [h]
        rfl
      · rw [h]
        exact setIntensity_idem _ _
    have e2 : (associationStep fr n st).2
        = st.2 ++ setIntensity (fr.dist.getD (fr.clusterAt n).id 0)
            (st.1.getD (fr.clusterAt n).id Cluster.none).cloud := rfl
    have e1 : (associationStep fr n st).1
        = st.1.set (fr.clusterAt n).id
            { st.1.getD (fr.clusterAt n).id Cluster.none with
              cloud := setIntensity (fr.dist.getD (fr.clusterAt n).id 0)
                (st.1.getD (fr.clusterAt n).id Cluster.none).cloud } := rfl
    constructor
    · rw [e2, hcloud, ih1, List.range_succ, List.flatMap_append, List.flatMap_singleton,
        List.append_assoc]
    · intro i
      rw [e1]
      rcases getD_set_cloud st.1 (fr.clusterAt n).id
          { st.1.getD (fr.clusterAt n).id Cluster.none with
            cloud := setIntensity (fr.dist.getD (fr.clusterAt n).id 0)
              (st.1.getD (fr.clusterAt n).id Cluster.none).cloud }
          (fr.clusterAt i).id with h | ⟨hid, h⟩
      · rw [h]
        exact ih2 i
      · right
        rw [h]
        show setIntensity (fr.dist.getD (fr.clusterAt n).id 0)
            (st.1.getD (fr.clusterAt n).id Cluster.none).cloud = taggedCloud fr clusters i
        rw [hcloud]
        unfold taggedCloud
        rw [hid]

/-- C19, amended (what a frame adds to the dynamic cloud): the association
loop appends to the dynamic cloud, once per tracker association and in
association order, the member points of the cluster the association refers to,
with their intensity set to that cluster's displacement score; it does so for
every association, whether or not the dynamic predicate holds for it. -/
theorem associationLoop_appends (fr : RemovalFrame K) (clusters : List (Cluster K))
    (dyn : Cloud K) :
    (associationLoop fr clusters dyn).2
      = dyn ++ (List.range fr.associations.length).flatMap (taggedCloud fr clusters) :=
  (associationLoop_upto fr clusters dyn fr.associations.length).1

end AssociationTheorems

/-- Counterexample to C19 as stated: in `staticFrame` the dynamic predicate
holds at no association, yet the published dynamic cloud holds the two member
points of the associated cluster, after the point it already held from an
earlier frame. -/
theorem associationLoop_publishes_static_cluster :
    (∀ i, i < staticFrame.associations.length → ¬ staticFrame.dynamicAt i)
      ∧ (associationLoop staticFrame [unitBoxDetected] [pointAt 9 9 9]).2
          = pointAt 9 9 9 :: unitBoxTagged := by
  constructor
  · intro i hi
    have hi0 : i = 0 := by
      simp only [staticFrame, List.length_singleton] at hi
      omega
    subst hi0
    norm_num [RemovalFrame.dynamicAt, RemovalFrame.clusterAt, staticFrame, unitBoxCluster]
  · have h := (associationLoop_upto staticFrame [unitBoxDetected] [pointAt 9 9 9] 1).1
    have hlen : staticFrame.associations.length = 1 := rfl
    unfold associationLoop
    rw [hlen, h, show List.range 1 = [0] from rfl, List.flatMap_singleton]
    simp [taggedCloud, setIntensity, RemovalFrame.clusterAt, staticFrame, unitBoxCluster,
      unitBoxDetected, unitBoxTagged, pointAt]

/-! ### Recentering over a run of frames -/

section IdleLoopTheorems

variable {K : Type}

theorem whileWidth_idle (s : Recenter K) (h1 : 2 ≤ s.centerCubeI) (h2 : s.centerCubeI ≤ 18) :
    whileWidthLow s = s ∧ whileWidthLowCount s = 0
      ∧ whileWidthHigh s = s ∧ whileWidthHighCount s = 0 := by
  have c1 : ¬ (s.centerCubeI < 2) := by omega
  have c2 : ¬ (s.centerCubeI ≥ ((laserCloudWidth : Nat) : Int) - 2) := by
    simp only [laserCloudWidth, Nat.cast_ofNat]
    omega
  refine ⟨?_, ?_, ?_, ?_⟩
  · rw [whileWidthLow, if_neg c1]
  · rw [whileWidthLowCount, if_neg c1]
  · rw [whileWidthHigh, if_neg c2]
  · rw [whileWidthHighCount, if_neg c2]

theorem whileHeight_idle (s : Recenter K) (h1 : 2 ≤ s.centerCubeJ) (h2 : s.centerCubeJ ≤ 18) :
    whileHeightLow s = s ∧ whileHeightLowCount s = 0
      ∧ whileHeightHigh s = s ∧ whileHeightHighCount s = 0 := by
  have c1 : ¬ (s.centerCubeJ < 2) := by omega
  have c2 : ¬ (s.centerCubeJ ≥ ((laserCloudHeight : Nat) : Int) - 2) := by
    simp only [laserCloudHeight, Nat.cast_ofNat]
    omega
  refine ⟨?_, ?_, ?_, ?_⟩
  · rw [whileHeightLow, if_neg c1]
  · rw [whileHeightLowCount, if_neg c1]
  · rw [whileHeightHigh, if_neg c2]
  · rw [whileHeightHighCount, if_neg c2]

theorem whileDepth_idle (s : Recenter K) (h1 : 2 ≤ s.centerCubeK) (h2 : s.centerCubeK ≤ 8) :
    whileDepthLow s = s ∧ whileDepthLowCount s = 0
      ∧ whileDepthHigh s = s ∧ whileDepthHighCount s = 0 := by
  have c1 : ¬ (s.centerCubeK < 2) := by omega
  have c2 : ¬ (s.centerCubeK ≥ ((laserCloudDepth : Nat) : Int) - 2) := by
    simp only [laserCloudDepth, Nat.cast_ofNat]
    omega
  refine ⟨?_, ?_, ?_, ?_⟩
  · rw [whileDepthLow, if_neg c1]
  · rw [whileDepthLowCount, if_neg c1]
  · rw [whileDepthHigh, if_neg c2]
  · rw [whileDepthHighCount, if_neg c2]

end IdleLoopTheorems

theorem s2Positions_in_range {K : Type} [LinearOrderedField K] :
    ∀ t ∈ (s2Positions : List (Vec3 K)),
      (-25 ≤ t.x ∧ t.x < 75) ∧ (-25 ≤ t.y ∧ t.y < 25) ∧ (-25 ≤ t.z ∧ t.z < 25) := by
  intro t ht
  unfold s2Positions at ht
  obtain ⟨n, hn, rfl⟩ := List.mem_map.mp ht
  have hn' : n < 120 := List.mem_range.mp hn
  have h0 : (0 : K) ≤ ((n + 1 : Nat) : K) := Nat.cast_nonneg _
  have h1 : ((n + 1 : Nat) : K) ≤ 120 := by
    have : n + 1 ≤ 120 := by omega
    exact_mod_cast this
  refine ⟨⟨?_, ?_⟩, ⟨?_, ?_⟩, ⟨?_, ?_⟩⟩
  · show (-25 : K) ≤ ((n + 1 : Nat) : K) / 2
    linarith
  · show ((n + 1 : Nat) : K) / 2 < 75
    linarith
  · show (-25 : K) ≤ 0
    norm_num
  · show (0 : K) < 25
    norm_num
  · show (-25 : K) ≤ 0
    norm_num
  · show (0 : K) < 25
    norm_num

section RunTheorems

variable {K : Type} [LinearOrderedField K] [FloorRing K]

theorem cubeIndex_between (x : K) (cen : Int) (a b : Int)
    (hlo : (50 : K) * a - 25 ≤ x) (hhi : x < 50 * b - 25) (ha : 0 ≤ a) :
    a + cen ≤ cubeIndex x cen ∧ cubeIndex x cen < b + cen := by
  have ha' : (0 : K) ≤ (a : K) := by exact_mod_cast ha
  have hx : 0 ≤ x + 25 := by linarith
  rw [cubeIndex_eq_floor x cen (Or.inl hx)]
  have h1 : a ≤ ⌊(x + 25) / 50⌋ := by
    rw [Int.le_floor, le_div_iff₀ (by norm_num : (0 : K) < 50)]
    linarith
  have h2 : ⌊(x + 25) / 50⌋ < b := by
    rw [Int.floor_lt, div_lt_iff₀ (by norm_num : (0 : K) < 50)]
    linarith
  omega

/-- A frame whose refined position lies in the world cubes 0 or 1 along `x`
and in the world cube 0 along `y` and `z`, on a map with the initial center
offsets, runs no loop body and leaves the run state as it was. -/
theorem recenterFrame_idle (r : RecenterRun K) (t : Vec3 K)
    (hW : r.map.laserCloudCenWidth = 10) (hH : r.map.laserCloudCenHeight = 10)
    (hD : r.map.laserCloudCenDepth = 5)
    (hx : -25 ≤ t.x ∧ t.x < 75) (hy : -25 ≤ t.y ∧ t.y < 25) (hz : -25 ≤ t.z ∧ t.z < 25) :
    recenterFrame r t = r := by
  have bx := cubeIndex_between t.x r.map.laserCloudCenWidth 0 2
    (by push_cast; linarith [hx.1]) (by push_cast; linarith [hx.2]) le_rfl
  have bj := cubeIndex_between t.y r.map.laserCloudCenHeight 0 1
    (by push_cast; linarith [hy.1]) (by push_cast; linarith [hy.2]) le_rfl
  have bk := cubeIndex_between t.z r.map.laserCloudCenDepth 0 1
    (by push_cast; linarith [hz.1]) (by push_cast; linarith [hz.2]) le_rfl
  rw [hW] at bx
  rw [hH] at bj
  rw [hD] at bk
  have hI := whileWidth_idle (sensorCube r.map t)
    (by show 2 ≤ cubeIndex t.x r.map.laserCloudCenWidth; rw [hW]; omega)
    (by show cubeIndex t.x r.map.laserCloudCenWidth ≤ 18; rw [hW]; omega)
  have hJ := whileHeight_idle (sensorCube r.map t)
    (by show 2 ≤ cubeIndex t.y r.map.laserCloudCenHeight; rw [hH]; omega)
    (by show cubeIndex t.y r.map.laserCloudCenHeight ≤ 18; rw [hH]; omega)
  have hK := whileDepth_idle (sensorCube r.map t)
    (by show 2 ≤ cubeIndex t.z r.map.laserCloudCenDepth; rw [hD]; omega)
    (by show cubeIndex t.z r.map.laserCloudCenDepth ≤ 8; rw [hD]; omega)
  unfold recenterFrame
  simp only [hI.1, hI.2.1, hI.2.2.1, hI.2.2.2, hJ.1, hJ.2.1, hJ.2.2.1, hJ.2.2.2, hK.1, hK.2.1,
    hK.2.2.1, hK.2.2.2, Nat.add_zero]
  rfl

theorem recenterRun_idle (positions : List (Vec3 K)) (m : CubeMap K)
    (hW : m.laserCloudCenWidth = 10) (hH : m.laserCloudCenHeight = 10)
    (hD : m.laserCloudCenDepth = 5)
    (hpos : ∀ t ∈ positions,
      (-25 ≤ t.x ∧ t.x < 75) ∧ (-25 ≤ t.y ∧ t.y < 25) ∧ (-25 ≤ t.z ∧ t.z < 25)) :
    recenterRun positions m = { map := m, shiftsI := 0, shiftsJ := 0, shiftsK := 0 } := by
  unfold recenterRun
  induction positions with
  | nil => rfl
  | cons t ts ih =>
    have ht := hpos t (List.mem_cons_self _ _)
    simp only [List.foldl_cons]
    rw [recenterFrame_idle _ t hW hH hD ht.1 ht.2.1 ht.2.2]
    exact ih (fun u hu => hpos u (List.mem_cons_of_mem _ hu))

/-- C20, amended (S2 performs no shift): from the initial center offsets
`(10, 10, 5)` and any cube contents, over the 120 frames with sensor position
`x = 0.5 * n`, `y = z = 0`, the recentering stage performs no shift along any
axis and leaves the map as it was; the sensor cube index along `i` is 10 for
`n < 50` and 11 from `n = 50` on, always inside `[2, 18]`. -/
theorem s2_run_no_shift (m : CubeMap K)
    (hW : m.laserCloudCenWidth = 10) (hH : m.laserCloudCenHeight = 10)
    (hD : m.laserCloudCenDepth = 5) :
    (recenterRun s2Positions m).shiftsI = 0
      ∧ (recenterRun s2Positions m).shiftsJ = 0
      ∧ (recenterRun s2Positions m).shiftsK = 0
      ∧ (recenterRun s2Positions m).map = m
      ∧ ∀ n : Nat, 1 ≤ n → n ≤ 120 →
          (sensorCube m ⟨(n : K) / 2, 0, 0⟩).centerCubeI = if n < 50 then 10 else 11 := by
  rw [recenterRun_idle s2Positions m hW hH hD s2Positions_in_range]
  refine ⟨rfl, rfl, rfl, rfl, ?_⟩
  intro n h1 h2
  have hn0 : (1 : K) ≤ (n : K) := by exact_mod_cast h1
  have hn1 : (n : K) ≤ 120 := by exact_mod_cast h2
  show cubeIndex ((n : K) / 2) m.laserCloudCenWidth = _
  rw [hW]
  by_cases hlt : n < 50
  · have hn2 : (n : K) ≤ 49 := by
      have : n ≤ 49 := by omega
      exact_mod_cast this
    have b := cubeIndex_between ((n : K) / 2) 10 0 1 (by push_cast; linarith)
      (by push_cast; linarith) le_rfl
    rw [if_pos hlt]
    omega
  · have hn2 : (50 : K) ≤ (n : K) := by
      have : 50 ≤ n := by omega
      exact_mod_cast this
    have b := cubeIndex_between ((n : K) / 2) 10 1 2 (by push_cast; linarith)
      (by push_cast; linarith) (by norm_num)
    rw [if_neg hlt]
    omega

end RunTheorems

/-- Counterexample to C20 as stated: over the S2 run from the empty map with
the initial center offsets the recentering stage performs 0 shifts along the
`i` axis, not one; `laserCloudCenWidth` is still 10 at the end. -/
theorem s2_run_not_one_shift :
    (recenterRun (s2Positions : List (Vec3 ℚ)) emptyMap).shiftsI = 0
      ∧ (recenterRun (s2Positions : List (Vec3 ℚ)) emptyMap).shiftsI ≠ 1
      ∧ (recenterRun (s2Positions : List (Vec3 ℚ)) emptyMap).map.laserCloudCenWidth = 10 := by
  rw [recenterRun_idle s2Positions emptyMap rfl rfl rfl s2Positions_in_range]
  exact ⟨rfl, by decide, rfl⟩

/-- Witness for C20 (amended) on the empty map. -/
theorem s2_run_no_shift_witness :
    emptyMap.laserCloudCenWidth = 10
      ∧ (recenterRun (s2Positions : List (Vec3 ℚ)) emptyMap).shiftsI = 0
      ∧ (recenterRun (s2Positions : List (Vec3 ℚ)) emptyMap).shiftsJ = 0
      ∧ (recenterRun (s2Positions : List (Vec3 ℚ)) emptyMap).shiftsK = 0 :=
  ⟨rfl, (s2_run_no_shift emptyMap rfl rfl rfl).1, (s2_run_no_shift emptyMap rfl rfl rfl).2.1,
   (s2_run_no_shift emptyMap rfl rfl rfl).2.2.1⟩

/-! ### The exclusion box of one dynamic cluster -/

section ExclusionBox

variable {K : Type} [LinearOrderedField K]

/-- C25 (exclusion box): for a dynamic association `i` whose cluster has the
world-frame box `[min_pt, max_pt]`, with `s` the ground-level standard
deviation and `removeEnable` on, the stack after the removal step is the
sub-list, order kept, of the points of the stack before it that satisfy
`x < min.x - s` or `x > max.x + s` or `y < min.y - s` or `y > max.y + s` or
`z < min.z - s` or `z > max.z + s`; so no remaining point lies in the closed
expanded box, and every point of the stack outside that box remains. -/
theorem removalStep_exclusion_box (fr : RemovalFrame K) (i : Nat) (laserCloudStack : Cloud K)
    (hdyn : fr.dynamicAt i) (hen : fr.removeEnable = true) :
    removalStep fr i laserCloudStack
        = laserCloudStack.filter (fun p => decide
            (p.x < (fr.clusterAt i).min_pt.x - fr.stddev
              ∨ p.x > (fr.clusterAt i).max_pt.x + fr.stddev
              ∨ p.y < (fr.clusterAt i).min_pt.y - fr.stddev
              ∨ p.y > (fr.clusterAt i).max_pt.y + fr.stddev
              ∨ p.z < (fr.clusterAt i).min_pt.z - fr.stddev
              ∨ p.z > (fr.clusterAt i).max_pt.z + fr.stddev))
      ∧ List.Sublist (removalStep fr i laserCloudStack) laserCloudStack
      ∧ (∀ p ∈ removalStep fr i laserCloudStack,
          ¬ ((fr.clusterAt i).min_pt.x - fr.stddev ≤ p.x
              ∧ p.x ≤ (fr.clusterAt i).max_pt.x + fr.stddev
              ∧ (fr.clusterAt i).min_pt.y - fr.stddev ≤ p.y
              ∧ p.y ≤ (fr.clusterAt i).max_pt.y + fr.stddev
              ∧ (fr.clusterAt i).min_pt.z - fr.stddev ≤ p.z
              ∧ p.z ≤ (fr.clusterAt i).max_pt.z + fr.stddev))
      ∧ (∀ p ∈ laserCloudStack,
          ¬ ((fr.clusterAt i).min_pt.x - fr.stddev ≤ p.x
              ∧ p.x ≤ (fr.clusterAt i).max_pt.x + fr.stddev
              ∧ (fr.clusterAt i).min_pt.y - fr.stddev ≤ p.y
              ∧ p.y ≤ (fr.clusterAt i).max_pt.y + fr.stddev
              ∧ (fr.clusterAt i).min_pt.z - fr.stddev ≤ p.z
              ∧ p.z ≤ (fr.clusterAt i).max_pt.z + fr.stddev) →
          p ∈ removalStep fr i laserCloudStack) := by
  have hstep : removalStep fr i laserCloudStack
      = laserCloudStack.filter
          (fun p => decide (rangeCond (fr.clusterAt i) fr.stddev p)) := by
    rw [removalStep, if_pos hdyn, if_pos hen, conditionalRemoval]
  refine ⟨hstep, ?_, ?_, ?_⟩
  · rw [hstep]
    exact List.filter_sublist _
  · intro p hp hbox
    rw [hstep, List.mem_filter, decide_eq_true_eq] at hp
    obtain ⟨h1, h2, h3, h4, h5, h6⟩ := hbox
    rcases hp.2 with h | h | h | h | h | h
    · exact absurd h (not_lt.mpr h1)
    · exact absurd h (not_lt.mpr h2)
    · exact absurd h (not_lt.mpr h3)
    · exact absurd h (not_lt.mpr h4)
    · exact absurd h (not_lt.mpr h5)
    · exact absurd h (not_lt.mpr h6)
  · intro p hp hout
    rw [hstep, List.mem_filter, decide_eq_true_eq]
    refine ⟨hp, ?_⟩
    unfold rangeCond
    by_contra hc
    simp only [not_or, not_lt, gt_iff_lt] at hc
    exact hout ⟨hc.1, hc.2.1, hc.2.2.1, hc.2.2.2.1, hc.2.2.2.2.1, hc.2.2.2.2.2⟩

/-- Witness for C25 on `associatedFrame` and `sampleStack`: the point inside
the unit box goes, the point at `x = 2` stays. -/
theorem removalStep_exclusion_box_witness :
    associatedFrame.dynamicAt 0 ∧ associatedFrame.removeEnable = true
      ∧ removalStep associatedFrame 0 sampleStack = [pointAt 2 0 0] :=
  have h0 : associatedFrame.dynamicAt 0 := by
    norm_num [RemovalFrame.dynamicAt, RemovalFrame.clusterAt, associatedFrame, unitBoxCluster]
  ⟨h0, rfl, (removalStep_exclusion_box associatedFrame 0 sampleStack h0 rfl).1.trans (by
    have e1 : ¬ rangeCond (associatedFrame.clusterAt 0) associatedFrame.stddev
        (pointAt (1 / 2) (1 / 2) (1 / 2)) := by
      norm_num [rangeCond, RemovalFrame.clusterAt, associatedFrame, unitBoxCluster, pointAt]
    have e2 : rangeCond (associatedFrame.clusterAt 0) associatedFrame.stddev
        (pointAt 2 0 0) := by
      norm_num [rangeCond, RemovalFrame.clusterAt, associatedFrame, unitBoxCluster, pointAt]
    unfold rangeCond at e1 e2
    simp only [sampleStack, List.filter, decide_eq_false e1, decide_eq_true e2])⟩

end ExclusionBox

/-! ### Time alignment -/

section AlignmentTheorems

variable {K : Type} [LinearOrderedField K]

theorem dropWhile_split {β : Type} (p : β → Bool) (l : List β) :
    ∃ d, l = d ++ l.dropWhile p ∧ (∀ m ∈ d, p m = true)
      ∧ (∀ m ms, l.dropWhile p = m :: ms → p m = false) := by
  induction l with
  | nil => exact ⟨[], rfl, by simp, by simp⟩
  | cons a l ih =>
    obtain ⟨d, h1, h2, h3⟩ := ih
    by_cases ha : p a = true
    · refine ⟨a :: d, ?_, ?_, ?_⟩
      · simp only [List.dropWhile_cons, ha, if_true, List.cons_append]
        exact congrArg _ h1
      · intro m hm
        rcases List.mem_cons.mp hm with rfl | hm
        · exact ha
        · exact h2 m hm
      · intro m ms hm
        simp only [List.dropWhile_cons, ha, if_true] at hm
        exact h3 m ms hm
    · refine ⟨[], ?_, by simp, ?_⟩
      · simp [List.dropWhile_cons, ha]
      · intro m ms hm
        simp only [List.dropWhile_cons, ha] at hm
        injection hm with i1 _
        subst i1
        simpa using ha

theorem dropWhile_eq_nil_iff_all {β : Type} (p : β → Bool) (l : List β) :
    l.dropWhile p = [] ↔ ∀ m ∈ l, p m = true := by
  induction l with
  | nil => simp
  | cons a l ih =>
    by_cases ha : p a = true
    · simp [List.dropWhile_cons, ha, ih]
    · simp [List.dropWhile_cons, ha]

/-- The alignment loops in closed form. -/
theorem align_eq (s : Mapper K) (c : CloudMsg K) (cs : List (CloudMsg K))
    (hc : s.cornerLastBuf = c :: cs) :
    (align s).2.cornerLastBuf = s.cornerLastBuf
      ∧ ((align s).1 = true ↔
          s.odometryBuf.dropWhile (fun m => m.stamp < c.stamp) ≠ []
            ∧ s.surfLastBuf.dropWhile (fun m => m.stamp < c.stamp) ≠ []
            ∧ s.fullResBuf.dropWhile (fun m => m.stamp < c.stamp) ≠ [])
      ∧ ((align s).1 = true →
          (align s).2.odometryBuf = s.odometryBuf.dropWhile (fun m => m.stamp < c.stamp)
            ∧ (align s).2.surfLastBuf = s.surfLastBuf.dropWhile (fun m => m.stamp < c.stamp)
            ∧ (align s).2.fullResBuf = s.fullResBuf.dropWhile (fun m => m.stamp < c.stamp)) := by
  unfold align
  rw [hc]
  simp only [List.isEmpty_iff]
  split_ifs with h1 h2 h3 <;> simp_all

/-- The staging step abandons the frame exactly when the alignment loops end
on an empty queue. -/
theorem stage_abandoned_iff (s : Mapper K) (hc : s.cornerLastBuf ≠ [])
    (hs : s.surfLastBuf ≠ []) (hf : s.fullResBuf ≠ []) (ho : s.odometryBuf ≠ []) :
    (stage s).1 = Staging.abandoned ↔ (align s).1 = false := by
  unfold stage align
  split
  · rename_i c cs _ _ _ _ _ _ e1 _ _ _
    simp only [e1, List.isEmpty_iff]
    split
    · rename_i e2
      simp [e2]
    · rename_i o os e2
      simp only [e2]
      split
      · rename_i e3
        simp [e3]
      · rename_i sf sfs e3
        simp only [e3]
        split
        · rename_i e4
          simp [e4]
        · rename_i f fs e4
          simp only [e4]
          split <;> simp
  · rename_i hne
    exfalso
    cases h1 : s.cornerLastBuf with
    | nil => exact hc h1
    | cons c cs =>
      cases h2 : s.surfLastBuf with
      | nil => exact hs h2
      | cons sf sfs =>
        cases h3 : s.fullResBuf with
        | nil => exact hf h3
        | cons f fs =>
          cases h4 : s.odometryBuf with
          | nil => exact ho h4
          | cons o os => exact hne c cs sf sfs f fs o os h1 h2 h3 h4

end AlignmentTheorems

section AlignmentClaim

variable {K : Type} [LinearOrderedField K]

/-- C26 (time alignment): on four non-empty queues with corner head `c`, when
the alignment loops end with no queue empty the corner queue is unchanged and
each of the surf, full-res and odometry queues is a suffix of its previous
content, every discarded message being strictly older than `c` and the
surviving head being not older than `c`; the loops end on an empty queue
exactly when one of the three queues holds only messages older than `c`, and
exactly then the staging step abandons the frame. -/
theorem align_spec (s : Mapper K) (c : CloudMsg K) (cs : List (CloudMsg K))
    (hc : s.cornerLastBuf = c :: cs) (hs : s.surfLastBuf ≠ []) (hf : s.fullResBuf ≠ [])
    (ho : s.odometryBuf ≠ []) :
    ((align s).1 = true →
        (align s).2.cornerLastBuf = s.cornerLastBuf
          ∧ (∃ d sf sfs, s.surfLastBuf = d ++ (align s).2.surfLastBuf
              ∧ (∀ m ∈ d, m.stamp < c.stamp)
              ∧ (align s).2.surfLastBuf = sf :: sfs ∧ c.stamp ≤ sf.stamp)
          ∧ (∃ d f fs, s.fullResBuf = d ++ (align s).2.fullResBuf
              ∧ (∀ m ∈ d, m.stamp < c.stamp)
              ∧ (align s).2.fullResBuf = f :: fs ∧ c.stamp ≤ f.stamp)
          ∧ (∃ d o os, s.odometryBuf = d ++ (align s).2.odometryBuf
              ∧ (∀ m ∈ d, m.stamp < c.stamp)
              ∧ (align s).2.odometryBuf = o :: os ∧ c.stamp ≤ o.stamp))
      ∧ ((align s).1 = false ↔
          (∀ m ∈ s.surfLastBuf, m.stamp < c.stamp)
            ∨ (∀ m ∈ s.fullResBuf, m.stamp < c.stamp)
            ∨ (∀ m ∈ s.odometryBuf, m.stamp < c.stamp))
      ∧ ((stage s).1 = Staging.abandoned ↔ (align s).1 = false) := by
  obtain ⟨a1, a2, a3⟩ := align_eq s c cs hc
  have suffix : ∀ {β : Type} (stamp : β → K) (l l' : List β),
      l' = l.dropWhile (fun m => decide (stamp m < c.stamp)) → l' ≠ [] →
      ∃ d x xs, l = d ++ l' ∧ (∀ m ∈ d, stamp m < c.stamp) ∧ l' = x :: xs
        ∧ c.stamp ≤ stamp x := by
    intro β stamp l l' hl hne
    obtain ⟨d, h1, h2, h3⟩ := dropWhile_split (fun m => decide (stamp m < c.stamp)) l
    cases hl' : l' with
    | nil => exact absurd hl' hne
    | cons x xs =>
      refine ⟨d, x, xs, ?_, ?_, rfl, ?_⟩
      · rw [← hl', hl]
        exact h1
      · intro m hm
        simpa using h2 m hm
      · have := h3 x xs (by rw [← hl, hl'])
        simpa using this
  refine ⟨?_, ?_, ?_⟩
  · intro ht
    obtain ⟨e1, e2, e3⟩ := a3 ht
    obtain ⟨n1, n2, n3⟩ := a2.mp ht
    refine ⟨a1, ?_, ?_, ?_⟩
    · exact suffix (fun m => m.stamp) _ _ e2 (by rw [e2]; exact n2)
    · exact suffix (fun m => m.stamp) _ _ e3 (by rw [e3]; exact n3)
    · exact suffix (fun m => m.stamp) _ _ e1 (by rw [e1]; exact n1)
  · rw [← Bool.not_eq_true, a2]
    have k1 := dropWhile_eq_nil_iff_all (fun m : OdomMsg K => decide (m.stamp < c.stamp))
      s.odometryBuf
    have k2 := dropWhile_eq_nil_iff_all (fun m : CloudMsg K => decide (m.stamp < c.stamp))
      s.surfLastBuf
    have k3 := dropWhile_eq_nil_iff_all (fun m : CloudMsg K => decide (m.stamp < c.stamp))
      s.fullResBuf
    simp only [decide_eq_true_eq] at k1 k2 k3
    rw [← k1, ← k2, ← k3]
    tauto
  · exact stage_abandoned_iff s (by rw [hc]; exact List.cons_ne_nil _ _) hs hf ho

end AlignmentClaim

/-- Witness for C26 on `desyncStaleSurf`: the surf message of t = 0.90 is
discarded, the one of t = 1.05 survives, and the alignment ends with no queue
empty. -/
theorem align_spec_witness :
    desyncStaleSurf.cornerLastBuf = [msgAt 1]
      ∧ (align desyncStaleSurf).1 = true
      ∧ (align desyncStaleSurf).2.cornerLastBuf = desyncStaleSurf.cornerLastBuf
      ∧ ((stage desyncStaleSurf).1 = Staging.abandoned ↔ (align desyncStaleSurf).1 = false) :=
  have ht : (align desyncStaleSurf).1 = true := by
    norm_num [align, desyncStaleSurf, mapperWith, msgAt, odomAt]
  ⟨rfl, ht,
   ((align_spec desyncStaleSurf (msgAt 1) [] rfl (by simp [desyncStaleSurf, mapperWith])
      (by simp [desyncStaleSurf, mapperWith]) (by simp [desyncStaleSurf, mapperWith])).1 ht).1,
   (align_spec desyncStaleSurf (msgAt 1) [] rfl (by simp [desyncStaleSurf, mapperWith])
      (by simp [desyncStaleSurf, mapperWith]) (by simp [desyncStaleSurf, mapperWith])).2.2⟩

/-! ### A desync rejection persists -/

section RejectionTheorems

variable {K : Type} [LinearOrderedField K]

theorem head?_eq_some_iff_cons {β : Type} (l : List β) (a : β) :
    l.head? = some a ↔ ∃ as, l = a :: as := by
  cases l with
  | nil => simp
  | cons b bs => simp [eq_comm]

/-- On queues with rejecting heads the staging step rejects and changes only
the four time variables. -/
theorem stage_of_rejectingHeads (c sf f : CloudMsg K) (o : OdomMsg K) (t : Mapper K)
    (h : RejectingHeads c sf f o t) :
    stage t = (Staging.unsync,
      { t with
        timeLaserCloudCornerLast := c.stamp
        timeLaserCloudSurfLast := sf.stamp
        timeLaserCloudFullRes := f.stamp
        timeLaserOdometry := o.stamp }) := by
  obtain ⟨h1, h2, h3, h4, g2, g3, g4, hu⟩ := h
  obtain ⟨cs, e1⟩ := (head?_eq_some_iff_cons _ _).mp h1
  obtain ⟨sfs, e2⟩ := (head?_eq_some_iff_cons _ _).mp h2
  obtain ⟨fs, e3⟩ := (head?_eq_some_iff_cons _ _).mp h3
  obtain ⟨os, e4⟩ := (head?_eq_some_iff_cons _ _).mp h4
  clear h1 h2 h3 h4
  have d2 : decide (sf.stamp < c.stamp) = false := decide_eq_false (not_lt.mpr g2)
  have d3 : decide (f.stamp < c.stamp) = false := decide_eq_false (not_lt.mpr g3)
  have d4 : decide (o.stamp < c.stamp) = false := decide_eq_false (not_lt.mpr g4)
  cases t
  simp only at e1 e2 e3 e4
  subst e1 e2 e3 e4
  simp only [stage, List.dropWhile_cons, d2, d3, d4, hu, if_true]
  simp [hu]

theorem rejectingHeads_deliver (c sf f : CloudMsg K) (o : OdomMsg K) (t : Mapper K)
    (e : Delivery K) (h : RejectingHeads c sf f o t) : RejectingHeads c sf f o (deliver t e) := by
  obtain ⟨h1, h2, h3, h4, g⟩ := h
  obtain ⟨cs, h1⟩ := (head?_eq_some_iff_cons _ _).mp h1
  obtain ⟨sfs, h2⟩ := (head?_eq_some_iff_cons _ _).mp h2
  obtain ⟨fs, h3⟩ := (head?_eq_some_iff_cons _ _).mp h3
  obtain ⟨os, h4⟩ := (head?_eq_some_iff_cons _ _).mp h4
  cases e <;> simp [RejectingHeads, deliver, h1, h2, h3, h4, g]

theorem rejectingHeads_deliveries (c sf f : CloudMsg K) (o : OdomMsg K)
    (arrived : List (Delivery K)) (t : Mapper K) (h : RejectingHeads c sf f o t) :
    RejectingHeads c sf f o (arrived.foldl deliver t) := by
  induction arrived generalizing t with
  | nil => exact h
  | cons e es ih => exact ih _ (rejectingHeads_deliver c sf f o t e h)

/-- The state left by a desync rejection has rejecting heads. -/
theorem stage_unsync_rejectingHeads (s : Mapper K) (h : (stage s).1 = Staging.unsync) :
    ∃ c sf f o, RejectingHeads c sf f o (stage s).2 := by
  unfold stage at h ⊢
  split at h
  · rename_i c cs _ _ _ _ _ _ hc _ _ _
    simp only at h ⊢
    split at h
    · simp at h
    · split at h
      · simp at h
      · split at h
        · simp at h
        · split at h
          · rename_i _ o os e1 _ sf sfs e2 _ f fs e3 hu
            simp only [e1, e2, e3, hu, if_true]
            refine ⟨c, sf, f, o, ?_⟩
            obtain ⟨_, -, -, k1⟩ :=
              dropWhile_split (fun m : OdomMsg K => decide (m.stamp < c.stamp)) s.odometryBuf
            obtain ⟨_, -, -, k2⟩ :=
              dropWhile_split (fun m : CloudMsg K => decide (m.stamp < c.stamp)) s.surfLastBuf
            obtain ⟨_, -, -, k3⟩ :=
              dropWhile_split (fun m : CloudMsg K => decide (m.stamp < c.stamp)) s.fullResBuf
            have g1 := k1 o os e1
            have g2 := k2 sf sfs e2
            have g3 := k3 f fs e3
            simp only [decide_eq_false_iff_not, not_lt] at g1 g2 g3
            exact ⟨by simp [hc], by simp, by simp, by simp, g2, g3, g1, hu⟩
          · simp at h
  · simp at h

theorem stagingOutcomes_of_rejectingHeads (c sf f : CloudMsg K) (o : OdomMsg K)
    (arrivals : List (List (Delivery K))) (t : Mapper K) (h : RejectingHeads c sf f o t) :
    ∀ r ∈ stagingOutcomes t arrivals, r = Staging.unsync := by
  induction arrivals generalizing t with
  | nil => simp [stagingOutcomes]
  | cons arrived rest ih =>
    have h1 := rejectingHeads_deliveries c sf f o arrived t h
    have h2 := stage_of_rejectingHeads c sf f o _ h1
    intro r hr
    simp only [stagingOutcomes, List.mem_cons] at hr
    rcases hr with rfl | hr
    · rw [h2]
    · refine ih _ ?_ r hr
      rw [h2]
      exact h1

end RejectionTheorems

section RejectionClaim

variable {K : Type} [LinearOrderedField K]

/-- C30 (a desync rejection is a fixed point of the staging step): when a
staging step ends in the unsynchronised-message rejection it leaves the corner
queue as it was, and there are four head messages `c`, `sf`, `f`, `o` such
that, whatever messages the callbacks then append to the backs of the four
queues, the next staging step finds these same four heads, discards nothing
from any queue and ends in the same rejection; so over any sequence of
arrivals every later staging step is a rejection and none is accepted. -/
theorem unsync_rejection_persists (s : Mapper K) (h : (stage s).1 = Staging.unsync) :
    (stage s).2.cornerLastBuf = s.cornerLastBuf
      ∧ (∃ c sf f o,
          ((stage s).2.cornerLastBuf.head? = some c ∧ (stage s).2.surfLastBuf.head? = some sf
            ∧ (stage s).2.fullResBuf.head? = some f ∧ (stage s).2.odometryBuf.head? = some o)
          ∧ ∀ arrived : List (Delivery K),
              ((arrived.foldl deliver (stage s).2).cornerLastBuf.head? = some c
                ∧ (arrived.foldl deliver (stage s).2).surfLastBuf.head? = some sf
                ∧ (arrived.foldl deliver (stage s).2).fullResBuf.head? = some f
                ∧ (arrived.foldl deliver (stage s).2).odometryBuf.head? = some o)
              ∧ ((stage (arrived.foldl deliver (stage s).2)).2.cornerLastBuf
                    = (arrived.foldl deliver (stage s).2).cornerLastBuf
                ∧ (stage (arrived.foldl deliver (stage s).2)).2.surfLastBuf
                    = (arrived.foldl deliver (stage s).2).surfLastBuf
                ∧ (stage (arrived.foldl deliver (stage s).2)).2.fullResBuf
                    = (arrived.foldl deliver (stage s).2).fullResBuf
                ∧ (stage (arrived.foldl deliver (stage s).2)).2.odometryBuf
                    = (arrived.foldl deliver (stage s).2).odometryBuf)
              ∧ (stage (arrived.foldl deliver (stage s).2)).1 = Staging.unsync)
      ∧ (∀ arrivals : List (List (Delivery K)),
          ∀ r ∈ stagingOutcomes (stage s).2 arrivals, r = Staging.unsync) := by
  obtain ⟨c, sf, f, o, hr⟩ := stage_unsync_rejectingHeads s h
  refine ⟨?_, ⟨c, sf, f, o, ⟨hr.1, hr.2.1, hr.2.2.1, hr.2.2.2.1⟩, ?_⟩, ?_⟩
  · unfold stage at h ⊢
    split at h
    · simp only at h ⊢
      split at h
      · simp at h
      · split at h
        · simp at h
        · split at h
          · simp at h
          · split at h
            · rename_i e1 _ _ _ e2 _ _ _ e3 hu
              simp only [e1, e2, e3, hu, if_true]
            · simp at h
    · simp at h
  · intro arrived
    have h1 := rejectingHeads_deliveries c sf f o arrived _ hr
    have h2 := stage_of_rejectingHeads c sf f o _ h1
    refine ⟨⟨h1.1, h1.2.1, h1.2.2.1, h1.2.2.2.1⟩, ?_, ?_⟩
    · rw [h2]
      exact ⟨rfl, rfl, rfl, rfl⟩
    · rw [h2]
  · intro arrivals
    exact stagingOutcomes_of_rejectingHeads c sf f o arrivals _ hr

end RejectionClaim

/-- Witness for C30 on S4: after the rejection, a complete synchronised set of
messages of t = 2 arrives, then another of t = 3; both later staging steps are
rejections. -/
theorem unsync_rejection_persists_witness :
    (stage desyncS4).1 = Staging.unsync
      ∧ ∀ r ∈ stagingOutcomes (stage desyncS4).2
          [[Delivery.corner (msgAt 2), Delivery.surf (msgAt 2), Delivery.fullRes (msgAt 2),
            Delivery.odometry (odomAt 2)],
           [Delivery.corner (msgAt 3), Delivery.surf (msgAt 3), Delivery.fullRes (msgAt 3),
            Delivery.odometry (odomAt 3)]], r = Staging.unsync :=
  have hu : (stage desyncS4).1 = Staging.unsync := by
    norm_num [stage, desyncS4, mapperWith, msgAt, odomAt, unsyncTest, lt_abs]
  ⟨hu, (unsync_rejection_persists desyncS4 hu).2.2 _⟩

/-! ### The working window -/

section WindowTheorems

variable {K : Type}

theorem recenter_center_bounds (s : Recenter K) :
    (2 ≤ (recenter s).centerCubeI ∧ (recenter s).centerCubeI ≤ 18)
      ∧ (2 ≤ (recenter s).centerCubeJ ∧ (recenter s).centerCubeJ ≤ 18)
      ∧ (2 ≤ (recenter s).centerCubeK ∧ (recenter s).centerCubeK ≤ 8) := by
  unfold recenter
  have h1 := whileWidthLow_center s
  have h2 := whileWidthHigh_center (whileWidthLow s)
  have h3 := whileHeightLow_center (whileWidthHigh (whileWidthLow s))
  have h4 := whileHeightHigh_center (whileHeightLow (whileWidthHigh (whileWidthLow s)))
  have h5 := whileDepthLow_center
    (whileHeightHigh (whileHeightLow (whileWidthHigh (whileWidthLow s))))
  have h6 := whileDepthHigh_center
    (whileDepthLow (whileHeightHigh (whileHeightLow (whileWidthHigh (whileWidthLow s)))))
  omega

/-- With the center one cell or more inside the array on each axis, no cell of
the 3x3x3 block fails the bounds test. -/
theorem gatherValidInd_interior (I J L : Int) (hI : 1 ≤ I ∧ I ≤ 19) (hJ : 1 ≤ J ∧ J ≤ 19)
    (hL : 1 ≤ L ∧ L ≤ 9) :
    gatherValidInd I J L
      = [I - 1, I, I + 1].flatMap fun i =>
          [J - 1, J, J + 1].flatMap fun j =>
            [L - 1, L, L + 1].map fun k => (i + 21 * j + 441 * k).toNat := by
  unfold gatherValidInd
  simp only [laserCloudWidth, laserCloudHeight, laserCloudDepth, Nat.cast_ofNat,
    List.flatMap_cons, List.flatMap_nil, List.map_cons, List.map_nil, List.append_nil]
  repeat rw [if_pos (by omega)]
  norm_num

end WindowTheorems

section WindowClaim

variable {K : Type}

theorem gatherValidInd_nodup (I J L : Int) (hI : 1 ≤ I ∧ I ≤ 19) (hJ : 1 ≤ J ∧ J ≤ 19)
    (hL : 1 ≤ L ∧ L ≤ 9) : (gatherValidInd I J L).Nodup := by
  rw [gatherValidInd_interior I J L hI hJ hL]
  simp only [List.flatMap_cons, List.flatMap_nil, List.map_cons, List.map_nil, List.append_nil,
    List.cons_append, List.nil_append, List.singleton_append]
  simp only [List.nodup_cons, List.mem_cons, List.mem_singleton, List.not_mem_nil, not_or,
    List.nodup_nil, and_true, not_false_eq_true, or_false]
  repeat' constructor
  all_goals omega

/-- C27 (working window): after the six recentering loops, from any cube map
and any center indices (so for every sensor position), the gathered index
buffer holds exactly 27 entries (so entries 0 to 26 of the 125-entry buffers
are written and no other), pairwise distinct, each below
`laserCloudNum = 4851`; every cell `(i, j, k)` of the 3x3x3 block around the
center passes the bounds test and its flat index `i + 21 * j + 441 * k` is
gathered, and nothing else is gathered. -/
theorem gather_window_after_recenter (s : Recenter K) :
    (gatherValidInd (recenter s).centerCubeI (recenter s).centerCubeJ
        (recenter s).centerCubeK).length = 27
      ∧ (gatherValidInd (recenter s).centerCubeI (recenter s).centerCubeJ
          (recenter s).centerCubeK).Nodup
      ∧ (∀ n ∈ gatherValidInd (recenter s).centerCubeI (recenter s).centerCubeJ
          (recenter s).centerCubeK, n < laserCloudNum)
      ∧ (∀ i j k : Int,
          (recenter s).centerCubeI - 1 ≤ i ∧ i ≤ (recenter s).centerCubeI + 1 →
          (recenter s).centerCubeJ - 1 ≤ j ∧ j ≤ (recenter s).centerCubeJ + 1 →
          (recenter s).centerCubeK - 1 ≤ k ∧ k ≤ (recenter s).centerCubeK + 1 →
          (0 ≤ i ∧ i < (laserCloudWidth : Int) ∧ 0 ≤ j ∧ j < (laserCloudHeight : Int)
            ∧ 0 ≤ k ∧ k < (laserCloudDepth : Int))
          ∧ cubeInd i.toNat j.toNat k.toNat
              ∈ gatherValidInd (recenter s).centerCubeI (recenter s).centerCubeJ
                  (recenter s).centerCubeK)
      ∧ (∀ n ∈ gatherValidInd (recenter s).centerCubeI (recenter s).centerCubeJ
          (recenter s).centerCubeK,
          ∃ i j k : Int,
            ((recenter s).centerCubeI - 1 ≤ i ∧ i ≤ (recenter s).centerCubeI + 1)
              ∧ ((recenter s).centerCubeJ - 1 ≤ j ∧ j ≤ (recenter s).centerCubeJ + 1)
              ∧ ((recenter s).centerCubeK - 1 ≤ k ∧ k ≤ (recenter s).centerCubeK + 1)
              ∧ n = cubeInd i.toNat j.toNat k.toNat) := by
  obtain ⟨hI, hJ, hL⟩ := recenter_center_bounds s
  generalize (recenter s).centerCubeI = I at hI ⊢
  generalize (recenter s).centerCubeJ = J at hJ ⊢
  generalize (recenter s).centerCubeK = L at hL ⊢
  have hmem : ∀ n, n ∈ gatherValidInd I J L ↔
      ∃ i, (i = I - 1 ∨ i = I ∨ i = I + 1) ∧ ∃ j, (j = J - 1 ∨ j = J ∨ j = J + 1)
        ∧ ∃ k, (k = L - 1 ∨ k = L ∨ k = L + 1) ∧ (i + 21 * j + 441 * k).toNat = n := by
    intro n
    rw [gatherValidInd_interior I J L (by omega) (by omega) (by omega)]
    simp only [List.mem_flatMap, List.mem_map, List.mem_cons, List.mem_singleton,
      List.not_mem_nil, or_false]
  have hcube : ∀ i j k : Int, 0 ≤ i → 0 ≤ j → 0 ≤ k →
      cubeInd i.toNat j.toNat k.toNat = (i + 21 * j + 441 * k).toNat := by
    intro i j k h1 h2 h3
    simp only [cubeInd, laserCloudWidth, laserCloudHeight]
    omega
  refine ⟨?_, gatherValidInd_nodup I J L (by omega) (by omega) (by omega), ?_, ?_, ?_⟩
  · rw [gatherValidInd_interior I J L (by omega) (by omega) (by omega)]
    rfl
  · intro n hn
    obtain ⟨i, hi, j, hj, k, hk, rfl⟩ := (hmem n).mp hn
    simp only [laserCloudNum, laserCloudWidth, laserCloudHeight, laserCloudDepth]
    omega
  · intro i j k hi hj hk
    refine ⟨?_, ?_⟩
    · simp only [laserCloudWidth, laserCloudHeight, laserCloudDepth, Nat.cast_ofNat]
      omega
    · rw [hmem]
      exact ⟨i, by omega, j, by omega, k, by omega,
        (hcube i j k (by omega) (by omega) (by omega)).symm⟩
  · intro n hn
    obtain ⟨i, hi, j, hj, k, hk, rfl⟩ := (hmem n).mp hn
    exact ⟨i, j, k, by omega, by omega, by omega,
      (hcube i j k (by omega) (by omega) (by omega)).symm⟩

end WindowClaim

/-! ### Startup and the thresholds of a frame -/

section StartupTheorems

variable {K : Type} [LinearOrderedField K]

theorem accumulatorMean_cons (a : K) (l : List K) :
    accumulatorMean (a :: l) = (a + l.sum) / ((l.length : K) + 1) := by
  simp [accumulatorMean]

/-- C21, amended (the thresholds of a frame come from the accumulators): in
every processed frame the thresholds the dynamic predicate compares against
are `mean(trackerSpeed) / 2` and `mean(objectSpeed) / 2`, the accumulators
holding their earlier values and this frame's speeds and displacement scores;
the values `maxObjectSpeed` and `maxClassDist` held at the start of the frame
do not matter.  In the first frame after `main`, whatever the parameter server
holds, these are `((0.2 + sum of speeds) / (number of speeds + 1)) / 2` and
`((0.3 + sum of scores) / (number of scores + 1)) / 2`. -/
theorem thresholds_from_accumulators (associations : List Association) (speed dist : List K)
    (clusters : List (ClusterMsg K)) (stddev : K) (removeEnable : Bool) :
    (∀ g : Globals K,
        (removalFrameOf g associations speed dist clusters stddev removeEnable).maxObjectSpeed
            = accumulatorMean (g.tarckerSpeedMean ++ speed) / 2
          ∧ (removalFrameOf g associations speed dist clusters stddev removeEnable).maxClassDist
            = accumulatorMean (g.objectSpeedMean ++ dist) / 2
          ∧ ∀ a b : K,
              removalFrameOf { g with maxObjectSpeed := a, maxClassDist := b } associations speed
                  dist clusters stddev removeEnable
                = removalFrameOf g associations speed dist clusters stddev removeEnable)
      ∧ (∀ server : ParamServer K, ∃ g, main server = Startup.running g
          ∧ g.maxObjectSpeed = param server ("max_object_speed") (2 / 10)
          ∧ g.maxClassDist = param server ("max_class_dist") (1 / 10)
          ∧ (removalFrameOf g associations speed dist clusters stddev
                removeEnable).maxObjectSpeed
              = (2 / 10 + speed.sum) / ((speed.length : K) + 1) / 2
          ∧ (removalFrameOf g associations speed dist clusters stddev
                removeEnable).maxClassDist
              = (3 / 10 + dist.sum) / ((dist.length : K) + 1) / 2
          ∧ ∀ i, (removalFrameOf g associations speed dist clusters stddev
                removeEnable).dynamicAt i
              ↔ (speed.getD i 0 > (2 / 10 + speed.sum) / ((speed.length : K) + 1) / 2
                ∨ dist.getD ((removalFrameOf g associations speed dist clusters stddev
                      removeEnable).clusterAt i).id 0
                    > (3 / 10 + dist.sum) / ((dist.length : K) + 1) / 2)) := by
  refine ⟨fun g => ⟨rfl, rfl, fun a b => rfl⟩, fun server => ⟨_, rfl, rfl, rfl, ?_, ?_, ?_⟩⟩
  · simp only [removalFrameOf, updateThresholds, List.singleton_append, accumulatorMean_cons]
  · simp only [removalFrameOf, updateThresholds, List.singleton_append, accumulatorMean_cons]
  · intro i
    simp only [RemovalFrame.dynamicAt, removalFrameOf, updateThresholds, List.singleton_append,
      accumulatorMean_cons]

end StartupTheorems

/-- Counterexample to C21 as stated: with `max_object_speed` and
`max_class_dist` configured as 100, a first frame with one tracked cluster of
speed 1 and displacement score 0 exceeds neither configured value, yet the
predicate of that frame compares the speed against `mean(0.2, 1) / 2 = 0.3`
and declares the cluster dynamic. -/
theorem first_frame_ignores_configured_thresholds :
    ∃ g, main strictServer = Startup.running g
      ∧ g.maxObjectSpeed = 100 ∧ g.maxClassDist = 100
      ∧ ¬ ((1 : ℚ) > g.maxObjectSpeed ∨ (0 : ℚ) > g.maxClassDist)
      ∧ (removalFrameOf g [⟨0, 0⟩] [1] [0] [unitBoxCluster 0] 0 true).maxObjectSpeed = 3 / 10
      ∧ (removalFrameOf g [⟨0, 0⟩] [1] [0] [unitBoxCluster 0] 0 true).dynamicAt 0 := by
  refine ⟨_, rfl, ?_, ?_, ?_, ?_, ?_⟩
  · simp [param, strictServer]
  · simp [param, strictServer]
  · norm_num [param, strictServer]
  · norm_num [removalFrameOf, updateThresholds, accumulatorMean]
  · norm_num [RemovalFrame.dynamicAt, removalFrameOf, updateThresholds, accumulatorMean]

/-- C22: with `cluster_tolerance` set to 0.7 on the parameter server, the
detector of the first frame is constructed with tolerance 0.2, the default of
the parameter `main` reads under the name `cluster_tolerane`. -/
theorem cluster_tolerance_option_not_read :
    toleranceServer ("cluster_tolerance") = some (7 / 10)
      ∧ ∃ g, main toleranceServer = Startup.running g
        ∧ detectorTolerance g = 2 / 10 ∧ detectorTolerance g ≠ 7 / 10 := by
  refine ⟨by simp [toleranceServer], _, rfl, ?_, ?_⟩
  · simp [detectorTolerance, param, toleranceServer]
  · simp [detectorTolerance, param, toleranceServer]
    norm_num

section ValidationTheorems

variable {K : Type} [LinearOrderedField K]

/-- C23, amended (startup does not validate the configuration): for every
content of the parameter server, `main` reaches the start of the mapping
thread, with each resolution and z bound taken as stored (or its default when
absent), whatever its sign or order; no configuration is fatal. -/
theorem main_never_fatal (server : ParamServer K) :
    main server ≠ Startup.fatal
      ∧ ∃ g, main server = Startup.running g
        ∧ g.lineRes = (server ("mapping_line_resolution")).getD (1 / 10)
        ∧ g.planeRes = (server ("mapping_plane_resolution")).getD (1 / 10)
        ∧ g.lidar_min_z = (server ("lidar_min_z")).getD (-173 / 100)
        ∧ g.lidar_max_z = (server ("lidar_max_z")).getD (344 / 100) := by
  refine ⟨?_, _, rfl, rfl, rfl, rfl, rfl⟩
  intro h
  cases h

end ValidationTheorems

/-- Counterexample to C23 as stated: with `mapping_line_resolution = -1` and
`lidar_min_z = 5 > 1 = lidar_max_z` on the parameter server, `main` is not
fatal: the mapping thread starts with `lineRes = -1` and the inverted bounds. -/
theorem main_accepts_out_of_range :
    main outOfRangeServer ≠ Startup.fatal
      ∧ ∃ g, main outOfRangeServer = Startup.running g
        ∧ g.lineRes = -1 ∧ g.lineRes < 0
        ∧ g.lidar_min_z = 5 ∧ g.lidar_max_z = 1 ∧ g.lidar_min_z > g.lidar_max_z := by
  refine ⟨?_, _, rfl, ?_, ?_, ?_, ?_, ?_⟩
  · intro h
    cases h
  · simp [param, outOfRangeServer]
  · simp [param, outOfRangeServer]
  · simp [param, outOfRangeServer]
  · simp [param, outOfRangeServer]
  · simp [param, outOfRangeServer]

/-! ### The ground-level accumulator -/

section GroundLevelTheorems

variable {K : Type} [LinearOrderedField K]

theorem forRange_collect {α β : Type} (l : List α) (f : α → β) (d : α) (acc : List β) :
    forRange l.length (fun i a => a ++ [f (l.getD i d)]) acc = acc ++ l.map f := by
  have key : ∀ k, k ≤ l.length →
      forRange k (fun i a => a ++ [f (l.getD i d)]) acc = acc ++ (l.take k).map f := by
    intro k
    induction k with
    | zero => intro _; simp [forRange_zero]
    | succ k ih =>
      intro hk
      have hk2 : k < l.length := hk
      rw [forRange_succ, ih (Nat.le_of_lt hk2), List.take_succ, List.getElem?_eq_getElem hk2,
        List.getD_eq_getElem l d hk2]
      simp only [Option.toList, List.map_append, List.map_cons, List.map_nil, List.append_assoc]
  rw [key l.length (Nat.le_refl _), List.take_length]

theorem accumulatorMean_twice (zs : List K) :
    accumulatorMean (zs ++ zs) = accumulatorMean zs := by
  unfold accumulatorMean
  rw [List.sum_append, List.length_append, Nat.cast_add, ← two_mul, ← two_mul]
  exact mul_div_mul_left _ _ two_ne_zero

/-- C28, amended (ground-level accumulator in a frame that is optimised): when
the map window holds more than 10 edge and more than 50 plane points, the
frame's ground-level accumulator receives the sensor-frame `z` of every edge
and plane stack point exactly twice, once in each of the two optimisation
iterations; so its sample count is twice the number of stack points, and the
mean the ground cut uses is the mean `z` of the frame's stack points. -/
theorem groundLevelSamples_optimized (laserCloudCornerFromMapNum laserCloudSurfFromMapNum : Nat)
    (laserCloudCornerStack laserCloudSurfStack : Cloud K) (lidar_min_z lidar_max_z : K)
    (h : laserCloudCornerFromMapNum > 10 ∧ laserCloudSurfFromMapNum > 50) :
    groundLevelSamples laserCloudCornerFromMapNum laserCloudSurfFromMapNum
          laserCloudCornerStack laserCloudSurfStack
        = (laserCloudCornerStack ++ laserCloudSurfStack).map (fun p => p.z)
            ++ (laserCloudCornerStack ++ laserCloudSurfStack).map (fun p => p.z)
      ∧ (groundLevelSamples laserCloudCornerFromMapNum laserCloudSurfFromMapNum
          laserCloudCornerStack laserCloudSurfStack).length
        = 2 * (laserCloudCornerStack ++ laserCloudSurfStack).length
      ∧ (∀ v : K,
          (groundLevelSamples laserCloudCornerFromMapNum laserCloudSurfFromMapNum
            laserCloudCornerStack laserCloudSurfStack).count v
          = 2 * ((laserCloudCornerStack ++ laserCloudSurfStack).map (fun p => p.z)).count v)
      ∧ accumulatorMean (groundLevelSamples laserCloudCornerFromMapNum
          laserCloudSurfFromMapNum laserCloudCornerStack laserCloudSurfStack)
        = accumulatorMean ((laserCloudCornerStack ++ laserCloudSurfStack).map (fun p => p.z))
      ∧ groundCut lidar_min_z lidar_max_z
          (accumulatorMean (groundLevelSamples laserCloudCornerFromMapNum
            laserCloudSurfFromMapNum laserCloudCornerStack laserCloudSurfStack))
          (laserCloudCornerStack ++ laserCloudSurfStack)
        = groundCut lidar_min_z lidar_max_z
          (accumulatorMean ((laserCloudCornerStack ++ laserCloudSurfStack).map (fun p => p.z)))
          (laserCloudCornerStack ++ laserCloudSurfStack) := by
  have e : groundLevelSamples laserCloudCornerFromMapNum laserCloudSurfFromMapNum
        laserCloudCornerStack laserCloudSurfStack
      = (laserCloudCornerStack ++ laserCloudSurfStack).map (fun p => p.z)
          ++ (laserCloudCornerStack ++ laserCloudSurfStack).map (fun p => p.z) := by
    unfold groundLevelSamples
    rw [if_pos h, forRange_succ, forRange_succ, forRange_zero]
    simp only [forRange_collect laserCloudCornerStack (fun p => p.z),
      forRange_collect laserCloudSurfStack (fun p => p.z), List.nil_append, List.map_append,
      List.append_assoc]
  have m := accumulatorMean_twice ((laserCloudCornerStack ++ laserCloudSurfStack).map (fun p => p.z))
  refine ⟨e, ?_, ?_, ?_, ?_⟩
  · rw [e, List.length_append, List.length_map]
    omega
  · intro v
    rw [e, List.count_append]
    omega
  · rw [e, m]
  · rw [e, m]

end GroundLevelTheorems

/-- Counterexample to C28 as stated: in an optimised frame (11 edge and 51
plane points in the map window) with one edge stack point of `z = 1` and one
plane stack point of `z = 3`, the accumulator has received four values for two
stack points; and with an empty map window, where optimisation is skipped, it
has received none. -/
theorem groundLevelSamples_not_once :
    groundLevelSamples 11 51 [pointAt 0 0 1] [pointAt 0 0 3] = [1, 3, 1, 3]
      ∧ (groundLevelSamples 11 51 [pointAt 0 0 1] [pointAt 0 0 3]).length
          ≠ ([pointAt 0 0 1] ++ [pointAt 0 0 3]).length
      ∧ groundLevelSamples 0 0 [pointAt 0 0 1] [pointAt 0 0 3] = [] := by
  have e : groundLevelSamples 11 51 [pointAt 0 0 1] [pointAt 0 0 3] = [1, 3, 1, 3] := by
    simp [groundLevelSamples, forRange, List.range_succ, pointAt]
  refine ⟨e, ?_, ?_⟩
  · rw [e]
    decide
  · simp [groundLevelSamples]

/-- Witness for C28 (amended) on an optimised frame with one edge stack point
of `z = 1` and one plane stack point of `z = 3`: the mean the ground cut uses
is 2. -/
theorem groundLevelSamples_optimized_witness :
    ((11 : Nat) > 10 ∧ (51 : Nat) > 50)
      ∧ accumulatorMean (groundLevelSamples 11 51 [pointAt 0 0 1] [pointAt 0 0 3]) = 2 :=
  ⟨by decide,
   (groundLevelSamples_optimized 11 51 [pointAt 0 0 1] [pointAt 0 0 3] 0 0
      (by decide)).2.2.2.1.trans (by norm_num [accumulatorMean, pointAt])⟩

/-! ### The trajectory line -/

section TrajectoryTheorems

variable {K : Type} [LinearOrderedField K]

theorem toRotationMatrix_entries (q : Quat K) :
    Quat.toRotationMatrix q
      = !![1 - (2 * q.y * q.y + 2 * q.z * q.z), 2 * q.y * q.x - 2 * q.z * q.w,
            2 * q.z * q.x + 2 * q.y * q.w;
           2 * q.y * q.x + 2 * q.z * q.w, 1 - (2 * q.x * q.x + 2 * q.z * q.z),
            2 * q.z * q.y - 2 * q.x * q.w;
           2 * q.z * q.x - 2 * q.y * q.w, 2 * q.z * q.y + 2 * q.x * q.w,
            1 - (2 * q.x * q.x + 2 * q.y * q.y)] := rfl

/-- The rotation matrix of the re-axed quaternion is the rotation matrix of the
quaternion conjugated by the axis change. -/
theorem toRotationMatrix_axisChange (q : Quat K) :
    Quat.toRotationMatrix ⟨q.w, -q.y, -q.z, q.x⟩
      = axisChange * Quat.toRotationMatrix q * (axisChange : Matrix _ _ K).transpose := by
  rw [toRotationMatrix_entries, toRotationMatrix_entries, axisChange]
  simp only [Matrix.transpose, Matrix.of_apply, Matrix.cons_val', Matrix.cons_val_zero,
    Matrix.cons_val_one, Matrix.head_cons]
  ext i j
  fin_cases i <;> fin_cases j
  all_goals simp [Matrix.mul_apply, Fin.sum_univ_three]
  all_goals ring

theorem trajectoryMatrix_eq (q_w_curr : Quat K) (t_w_curr : Vec3 K) :
    trajectoryMatrix q_w_curr t_w_curr
      = !![Quat.toRotationMatrix (rotate q_w_curr) 0 0,
            Quat.toRotationMatrix (rotate q_w_curr) 0 1,
            Quat.toRotationMatrix (rotate q_w_curr) 0 2, -t_w_curr.y;
           Quat.toRotationMatrix (rotate q_w_curr) 1 0,
            Quat.toRotationMatrix (rotate q_w_curr) 1 1,
            Quat.toRotationMatrix (rotate q_w_curr) 1 2, -t_w_curr.z;
           Quat.toRotationMatrix (rotate q_w_curr) 2 0,
            Quat.toRotationMatrix (rotate q_w_curr) 2 1,
            Quat.toRotationMatrix (rotate q_w_curr) 2 2, t_w_curr.x] := by
  unfold trajectoryMatrix
  simp only [Matrix.one_mul, Vec3.add, tanslate, zero_add]

/-- C29 (trajectory line): for every refined pose `(q_w_curr, t_w_curr)` (of
unit norm or not) the twelve numbers written are, row by row, the 3x4 matrix
`[R(q') | t']` with `q' = (w, -q_y, -q_z, q_x)` and `t' = (-t_y, -t_z, t_x)`,
and with `P` the axis change that maps `(x, y, z)` to `(-y, -z, x)` one has
`R(q') = P * R(q_w_curr) * Pᵀ` and `t' = P * t_w_curr`. -/
theorem trajectoryLine_spec (q_w_curr : Quat K) (t_w_curr : Vec3 K) :
    trajectoryLine q_w_curr t_w_curr
        = [Quat.toRotationMatrix ⟨q_w_curr.w, -q_w_curr.y, -q_w_curr.z, q_w_curr.x⟩ 0 0,
           Quat.toRotationMatrix ⟨q_w_curr.w, -q_w_curr.y, -q_w_curr.z, q_w_curr.x⟩ 0 1,
           Quat.toRotationMatrix ⟨q_w_curr.w, -q_w_curr.y, -q_w_curr.z, q_w_curr.x⟩ 0 2,
           -t_w_curr.y,
           Quat.toRotationMatrix ⟨q_w_curr.w, -q_w_curr.y, -q_w_curr.z, q_w_curr.x⟩ 1 0,
           Quat.toRotationMatrix ⟨q_w_curr.w, -q_w_curr.y, -q_w_curr.z, q_w_curr.x⟩ 1 1,
           Quat.toRotationMatrix ⟨q_w_curr.w, -q_w_curr.y, -q_w_curr.z, q_w_curr.x⟩ 1 2,
           -t_w_curr.z,
           Quat.toRotationMatrix ⟨q_w_curr.w, -q_w_curr.y, -q_w_curr.z, q_w_curr.x⟩ 2 0,
           Quat.toRotationMatrix ⟨q_w_curr.w, -q_w_curr.y, -q_w_curr.z, q_w_curr.x⟩ 2 1,
           Quat.toRotationMatrix ⟨q_w_curr.w, -q_w_curr.y, -q_w_curr.z, q_w_curr.x⟩ 2 2,
           t_w_curr.x]
      ∧ Quat.toRotationMatrix ⟨q_w_curr.w, -q_w_curr.y, -q_w_curr.z, q_w_curr.x⟩
          = axisChange * Quat.toRotationMatrix q_w_curr
              * (axisChange : Matrix _ _ K).transpose
      ∧ ![-t_w_curr.y, -t_w_curr.z, t_w_curr.x]
          = (axisChange : Matrix _ _ K).mulVec ![t_w_curr.x, t_w_curr.y, t_w_curr.z]
      ∧ (∀ x y z : K, (axisChange : Matrix _ _ K).mulVec ![x, y, z] = ![-y, -z, x]) := by
  have hvec : ∀ x y z : K, (axisChange : Matrix _ _ K).mulVec ![x, y, z] = ![-y, -z, x] := by
    intro x y z
    rw [axisChange]
    ext i
    fin_cases i <;> simp [Matrix.mulVec, Matrix.dotProduct, Fin.sum_univ_three]
  refine ⟨?_, toRotationMatrix_axisChange q_w_curr, (hvec _ _ _).symm, hvec⟩
  unfold trajectoryLine
  rw [trajectoryMatrix_eq]
  rfl

end TrajectoryTheorems

/-! ### The dynamic filter with removal switched off -/

section DynamicFilterTheorems

variable {K : Type} [LinearOrderedField K]

theorem forRange_append_length {β : Type} (f : Nat → β) (n : Nat) (acc : List β) :
    (forRange n (fun i l => l ++ [f i]) acc).length = acc.length + n := by
  induction n with
  | zero => simp [forRange_zero]
  | succ n ih =>
    rw [forRange_succ, List.length_append, ih]
    simp [Nat.add_assoc]

theorem clusterMsgs_length (clusters : List (Cluster K)) :
    (clusterMsgs clusters).length = clusters.length := by
  unfold clusterMsgs
  rw [forRange_append_length]
  simp

theorem removalLoop_off (fr : RemovalFrame K) (hoff : fr.removeEnable = false)
    (laserCloudStack : Cloud K) : removalLoop fr laserCloudStack = laserCloudStack := by
  unfold removalLoop
  have key : ∀ n, forRange n (removalStep fr) laserCloudStack = laserCloudStack := by
    intro n
    induction n with
    | zero => exact forRange_zero _ _
    | succ n ih =>
      rw [forRange_succ, ih]
      unfold removalStep
      rw [hoff]
      simp
  exact key _

/-- C11 (`remove_enable = false`): with `removeEnable` off, for every frame
(every stack, pose, detector and tracker), the removal loop leaves the
world-frame combined stack as it was built, while the frame still detects the
clusters of the ground-cut cloud, gives each a displacement score, passes one
message per cluster to the tracker, and appends to the dynamic cloud, per
association, the member points of the associated cluster tagged with its
score; all of these are what they are with `removeEnable` on. -/
theorem dynamicFilter_disabled (sqrt : K → K) (ext : Collaborators K) (pose : Pose K)
    (g : Globals K) (groundMean stddev : K) (removeEnable : Bool)
    (hoff : removeEnable = false) (laserCloudStack2 currDynamicCloudStack : Cloud K) :
    (dynamicFilter sqrt ext pose g groundMean stddev removeEnable laserCloudStack2
        currDynamicCloudStack).laserCloudStack = stackToWorld pose laserCloudStack2
      ∧ (dynamicFilter sqrt ext pose g groundMean stddev removeEnable laserCloudStack2
          currDynamicCloudStack).dist
          = (detectedClusters ext pose g groundMean laserCloudStack2).map
              (clusterDist sqrt pose)
      ∧ ((dynamicFilter sqrt ext pose g groundMean stddev removeEnable laserCloudStack2
            currDynamicCloudStack).clusters_msg
            = clusterMsgs (detectedClusters ext pose g groundMean laserCloudStack2)
          ∧ (dynamicFilter sqrt ext pose g groundMean stddev removeEnable laserCloudStack2
              currDynamicCloudStack).clusters_msg.length
            = (detectedClusters ext pose g groundMean laserCloudStack2).length
          ∧ (dynamicFilter sqrt ext pose g groundMean stddev removeEnable laserCloudStack2
              currDynamicCloudStack).associations
            = ext.associate
                (clusterMsgs (detectedClusters ext pose g groundMean laserCloudStack2)))
      ∧ (dynamicFilter sqrt ext pose g groundMean stddev removeEnable laserCloudStack2
          currDynamicCloudStack).currDynamicCloudStack
          = currDynamicCloudStack
            ++ (List.range (dynamicFilter sqrt ext pose g groundMean stddev removeEnable
                  laserCloudStack2 currDynamicCloudStack).associations.length).flatMap
                (taggedCloud
                  (dynamicFilter sqrt ext pose g groundMean stddev removeEnable laserCloudStack2
                    currDynamicCloudStack).frame
                  (detectedClusters ext pose g groundMean laserCloudStack2))
      ∧ (∀ i, taggedCloud
            (dynamicFilter sqrt ext pose g groundMean stddev removeEnable laserCloudStack2
              currDynamicCloudStack).frame
            (detectedClusters ext pose g groundMean laserCloudStack2) i
          = setIntensity
              (((detectedClusters ext pose g groundMean laserCloudStack2).map
                  (clusterDist sqrt pose)).getD
                ((dynamicFilter sqrt ext pose g groundMean stddev removeEnable laserCloudStack2
                  currDynamicCloudStack).frame.clusterAt i).id 0)
              ((detectedClusters ext pose g groundMean laserCloudStack2).getD
                ((dynamicFilter sqrt ext pose g groundMean stddev removeEnable laserCloudStack2
                  currDynamicCloudStack).frame.clusterAt i).id Cluster.none).cloud)
      ∧ ((dynamicFilter sqrt ext pose g groundMean stddev removeEnable laserCloudStack2
            currDynamicCloudStack).clusters
            = (dynamicFilter sqrt ext pose g groundMean stddev true laserCloudStack2
                currDynamicCloudStack).clusters
          ∧ (dynamicFilter sqrt ext pose g groundMean stddev removeEnable laserCloudStack2
              currDynamicCloudStack).dist
            = (dynamicFilter sqrt ext pose g groundMean stddev true laserCloudStack2
                currDynamicCloudStack).dist
          ∧ (dynamicFilter sqrt ext pose g groundMean stddev removeEnable laserCloudStack2
              currDynamicCloudStack).clusters_msg
            = (dynamicFilter sqrt ext pose g groundMean stddev true laserCloudStack2
                currDynamicCloudStack).clusters_msg
          ∧ (dynamicFilter sqrt ext pose g groundMean stddev removeEnable laserCloudStack2
              currDynamicCloudStack).associations
            = (dynamicFilter sqrt ext pose g groundMean stddev true laserCloudStack2
                currDynamicCloudStack).associations
          ∧ (dynamicFilter sqrt ext pose g groundMean stddev removeEnable laserCloudStack2
              currDynamicCloudStack).speed
            = (dynamicFilter sqrt ext pose g groundMean stddev true laserCloudStack2
                currDynamicCloudStack).speed
          ∧ (dynamicFilter sqrt ext pose g groundMean stddev removeEnable laserCloudStack2
              currDynamicCloudStack).globals
            = (dynamicFilter sqrt ext pose g groundMean stddev true laserCloudStack2
                currDynamicCloudStack).globals
          ∧ (dynamicFilter sqrt ext pose g groundMean stddev removeEnable laserCloudStack2
              currDynamicCloudStack).currDynamicCloudStack
            = (dynamicFilter sqrt ext pose g groundMean stddev true laserCloudStack2
                currDynamicCloudStack).currDynamicCloudStack) := by
  subst hoff
  refine ⟨?_, rfl, ⟨rfl, ?_, rfl⟩, ?_, fun i => rfl, ⟨rfl, rfl, rfl, rfl, rfl, rfl, rfl⟩⟩
  · exact removalLoop_off _ rfl _
  · exact clusterMsgs_length _
  · exact (associationLoop_upto _ _ _ _).1

end DynamicFilterTheorems

/-- Witness for C11 on a frame with one stack point at `(1, 0, 0)`, the
identity pose, the default globals and the collaborators `oneTrack`, for any
square-root function with `sqrt 0 = 0` and `sqrt 1 = 1`: the tracked cluster
satisfies the dynamic predicate (speed 1 against the threshold 0.3) and its
box holds the stack point, which the removal loop would remove with
`removeEnable` on; with it off the stack is returned whole, one cluster
message has gone to the tracker, the score is 0, and the dynamic cloud holds
the cluster's point. -/
theorem dynamicFilter_disabled_witness :
    false = false
      ∧ ∀ sqrt : ℚ → ℚ, sqrt 0 = 0 → sqrt 1 = 1 →
        (dynamicFilter sqrt oneTrack identityPose defaultGlobals 0 0 false [pointAt 1 0 0]
            []).frame.dynamicAt 0
          ∧ (dynamicFilter sqrt oneTrack identityPose defaultGlobals 0 0 true [pointAt 1 0 0]
              []).laserCloudStack = []
          ∧ (dynamicFilter sqrt oneTrack identityPose defaultGlobals 0 0 false [pointAt 1 0 0]
              []).laserCloudStack = [pointAt 1 0 0]
          ∧ (dynamicFilter sqrt oneTrack identityPose defaultGlobals 0 0 false [pointAt 1 0 0]
              []).clusters_msg.length = 1
          ∧ (dynamicFilter sqrt oneTrack identityPose defaultGlobals 0 0 false [pointAt 1 0 0]
              []).dist = [0]
          ∧ (dynamicFilter sqrt oneTrack identityPose defaultGlobals 0 0 false [pointAt 1 0 0]
              []).currDynamicCloudStack = [pointAt 1 0 0] := by
  refine ⟨rfl, fun sqrt h0 h1 => ?_⟩
  have hworld : stackToWorld identityPose [pointAt 1 0 0] = [pointAt 1 0 0] := by
    norm_num [stackToWorld, pointAssociateToMap, identityPose, pointAt, Quat.rotate, Quat.vec,
      Vec3.add, Vec3.smul, Vec3.cross]
  have hdet : detectedClusters oneTrack identityPose defaultGlobals 0 [pointAt 1 0 0]
      = [{ is_human := false, min_pt := ⟨0, -1, -1⟩, max_pt := ⟨2, 1, 1⟩, size := ⟨2, 2, 2⟩
           centroid := ⟨1, 0, 0⟩, cloud := [pointAt 1 0 0] }] := by
    norm_num [detectedClusters, oneTrack, withoutGroundToWorld, groundCut, passThrough,
      defaultGlobals, pointAssociateToMap, identityPose, pointAt, Quat.rotate, Quat.vec,
      Vec3.add, Vec3.smul, Vec3.cross]
  have hthm := dynamicFilter_disabled sqrt oneTrack identityPose defaultGlobals 0 0 false rfl
    [pointAt 1 0 0] []
  have hdist : (dynamicFilter sqrt oneTrack identityPose defaultGlobals 0 0 false
      [pointAt 1 0 0] []).dist = [0] := by
    rw [hthm.2.1, hdet]
    norm_num [clusterDist, accumulatorMean, pointAssociateTobeMapped, identityPose, pointAt,
      Quat.inverse, Quat.squaredNorm, Quat.rotate, Quat.vec, Vec3.add, Vec3.sub, Vec3.smul,
      Vec3.cross, h0, h1]
  have hframe : ∀ b : Bool,
      (dynamicFilter sqrt oneTrack identityPose defaultGlobals 0 0 b [pointAt 1 0 0] []).frame
        = { associations := [⟨0, 0⟩], speed := [1], dist := [0]
            clusters := [{ id := 0, is_human := false, min_pt := ⟨0, -1, -1⟩
                           max_pt := ⟨2, 1, 1⟩, size := ⟨2, 2, 2⟩, centroid := ⟨1, 0, 0⟩ }]
            maxObjectSpeed := 3 / 10, maxClassDist := 3 / 40, stddev := 0
            removeEnable := b } := by
    intro b
    simp only [dynamicFilter, hdet]
    norm_num [oneTrack, clusterMsgs, forRange, List.range_succ, trackSpeed, removalFrameOf,
      updateThresholds, accumulatorMean, clusterDist, pointAssociateTobeMapped, identityPose,
      pointAt, Quat.inverse, Quat.squaredNorm, Quat.rotate, Quat.vec, Vec3.add, Vec3.sub,
      Vec3.smul, Vec3.cross, defaultGlobals, Cluster.none, h0, h1]
  have hdyn : ∀ b : Bool,
      (dynamicFilter sqrt oneTrack identityPose defaultGlobals 0 0 b [pointAt 1 0 0]
        []).frame.dynamicAt 0 := by
    intro b
    rw [hframe b]
    norm_num [RemovalFrame.dynamicAt, RemovalFrame.clusterAt]
  refine ⟨hdyn false, ?_, ?_, ?_, hdist, ?_⟩
  · have hin : ¬ rangeCond
        ((dynamicFilter sqrt oneTrack identityPose defaultGlobals 0 0 true [pointAt 1 0 0]
          []).frame.clusterAt 0)
        (dynamicFilter sqrt oneTrack identityPose defaultGlobals 0 0 true [pointAt 1 0 0]
          []).frame.stddev (pointAt 1 0 0) := by
      rw [hframe true]
      norm_num [rangeCond, RemovalFrame.clusterAt, pointAt]
    have hlen : (dynamicFilter sqrt oneTrack identityPose defaultGlobals 0 0 true
        [pointAt 1 0 0] []).frame.associations.length = 1 := by
      rw [hframe true]
      rfl
    have hen : (dynamicFilter sqrt oneTrack identityPose defaultGlobals 0 0 true
        [pointAt 1 0 0] []).frame.removeEnable = true := by
      rw [hframe true]
    show removalLoop
      (dynamicFilter sqrt oneTrack identityPose defaultGlobals 0 0 true [pointAt 1 0 0]
        []).frame (stackToWorld identityPose [pointAt 1 0 0]) = []
    rw [hworld, removalLoop, hlen, forRange_succ, forRange_zero, removalStep,
      if_pos (hdyn true), if_pos hen, conditionalRemoval]
    simp only [List.filter, decide_eq_false hin]
  · rw [hthm.1, hworld]
  · rw [hthm.2.2.1.2.1, hdet]
    rfl
  · rw [hthm.2.2.2.1]
    have hlen : (dynamicFilter sqrt oneTrack identityPose defaultGlobals 0 0 false
        [pointAt 1 0 0] []).associations.length = 1 := by
      rw [hthm.2.2.1.2.2]
      rfl
    rw [hlen, show List.range 1 = [0] from rfl, List.flatMap_singleton, hthm.2.2.2.2.1 0,
      hframe false, hdet]
    norm_num [RemovalFrame.clusterAt, setIntensity, clusterDist, accumulatorMean,
      pointAssociateTobeMapped, identityPose, pointAt, Quat.inverse, Quat.squaredNorm,
      Quat.rotate, Quat.vec, Vec3.add, Vec3.sub, Vec3.smul, Vec3.cross, h0, h1]

/-! ### The correction link under interleaving -/

section LinkRaceTheorems

variable {K : Type} [LinearOrderedField K]

end LinkRaceTheorems

end LaserMapping
